import Mathlib

/-!
# katlas: the entity normalizer `util.BuildEntityData` and the HTTP handlers

A shallow embedding of `service/util/utils.go` (`BuildEntityData`, `getValues`,
`createAppNameList`) and theorems about it.

Conventions of the embedding

* A request body is the result of JSON lexing/parsing: `none` for bytes that are
  not valid JSON, `some j` for the parsed value `j`.
* `encoding/json` and the Kubernetes API types are external to the repository.
  The decoded Kubernetes objects are records holding the fields that
  `BuildEntityData` reads; kind-specific values that are copied into the entity
  untouched are kept in their JSON form.  The decoder of each element type, the
  conversion of a JSON number to `float64` and `strings.ToLower` are fields of
  `Codec`; what `json.Unmarshal` does around them (syntax errors, arrays into
  slices, decoding into an `interface{}`) is defined here.
* A Go `map[string]interface{}` is an association list with unique keys, in the
  order in which the keys were first written.
* A run-time panic (index out of range) is an outcome of its own.
-/

set_option autoImplicit false

/-- A parsed JSON value.  A number is an integer literal. -/
inductive Json where
  | null
  | bool (b : Bool)
  | num (n : Int)
  | str (s : String)
  | arr (xs : List Json)
  | obj (kvs : List (String × Json))

/-- A Go `map[string]interface{}` of JSON values. -/
abbrev JsonMap := List (String × Json)

/-- The map read `m[k]` with its presence flag. -/
def JsonMap.get? (m : JsonMap) (k : String) : Option Json := m.lookup k

/-- The map write `m[k] = v`. -/
def JsonMap.set : JsonMap → String → Json → JsonMap
  | [], k, v => [(k, v)]
  | (k', v') :: m, k, v => if k' = k then (k, v) :: m else (k', v') :: JsonMap.set m k v

namespace metav1

/-- The fields of `metav1.OwnerReference` read by the normalizer. -/
structure OwnerReference where
  Kind : String
  Name : String

/-- The fields of `metav1.ObjectMeta` read by the normalizer.  A Go
`map[string]string` is an association list (a nil map is the empty list);
`CreationTimestamp` is kept in its JSON form. -/
structure ObjectMeta where
  Name : String
  Namespace : String
  ResourceVersion : String
  CreationTimestamp : Json
  Labels : List (String × String)
  Annotations : List (String × String)
  OwnerReferences : List OwnerReference

/-- The method `(*ObjectMeta).GetLabels`. -/
def ObjectMeta.GetLabels (m : ObjectMeta) : List (String × String) := m.Labels

/-- The method `(*ObjectMeta).GetAnnotations`. -/
def ObjectMeta.GetAnnotations (m : ObjectMeta) : List (String × String) := m.Annotations

end metav1

namespace core_v1

/-- `core_v1.Namespace`. -/
structure Namespace where
  ObjectMeta : metav1.ObjectMeta

/-- The fields of `core_v1.PodSpec` read for a pod. -/
structure PodSpec where
  NodeName : Json
  Containers : Json
  Volumes : Json

/-- The fields of `core_v1.PodStatus` read for a pod. -/
structure PodStatus where
  Phase : Json
  PodIP : Json
  StartTime : Json

/-- `core_v1.Pod`. -/
structure Pod where
  ObjectMeta : metav1.ObjectMeta
  Spec : PodSpec
  Status : PodStatus

/-- The fields of `core_v1.ServiceSpec` read for a service. -/
structure ServiceSpec where
  Selector : Json
  ClusterIP : Json
  Type_ : Json
  Ports : Json

/-- `core_v1.Service`. -/
structure Service where
  ObjectMeta : metav1.ObjectMeta
  Spec : ServiceSpec

end core_v1

namespace v1beta2

/-- `v1beta2.DeploymentStrategy`. -/
structure DeploymentStrategy where
  Type_ : Json

/-- The fields of `v1beta2.DeploymentSpec` read for a deployment. -/
structure DeploymentSpec where
  Replicas : Json
  Strategy : DeploymentStrategy

/-- The fields of `v1beta2.DeploymentStatus` read for a deployment. -/
structure DeploymentStatus where
  AvailableReplicas : Json

/-- `v1beta2.Deployment`. -/
structure Deployment where
  ObjectMeta : metav1.ObjectMeta
  Spec : DeploymentSpec
  Status : DeploymentStatus

/-- `core_v1.PodTemplateSpec` as read for a replica set. -/
structure PodTemplateSpec where
  Spec : Json

/-- The fields of `v1beta2.ReplicaSetSpec` read for a replica set. -/
structure ReplicaSetSpec where
  Replicas : Json
  Template : PodTemplateSpec

/-- `v1beta2.ReplicaSet`. -/
structure ReplicaSet where
  ObjectMeta : metav1.ObjectMeta
  Spec : ReplicaSetSpec

end v1beta2

namespace ext_v1beta1

/-- The fields of `ext_v1beta1.IngressSpec` read for an ingress. -/
structure IngressSpec where
  Backend : Json
  TLS : Json
  Rules : Json

/-- `ext_v1beta1.Ingress`. -/
structure Ingress where
  ObjectMeta : metav1.ObjectMeta
  Spec : IngressSpec

end ext_v1beta1

namespace appsv1

/-- The fields of `appsv1.StatefulSetSpec` read for a stateful set. -/
structure StatefulSetSpec where
  Replicas : Json

/-- `appsv1.StatefulSet`. -/
structure StatefulSet where
  ObjectMeta : metav1.ObjectMeta
  Spec : StatefulSetSpec

end appsv1

namespace util

/-! ## Constants of `util/constants.go`

The file declaring these constants is not part of the sources at hand.  The
kind names and the attribute names that the specification spells out are taken
from it; for the remaining attribute keys the specification gives no spelling
and the identifier itself stands for the value.  All that the development uses
of those is that the keys of one map literal are pairwise different, which the
Go compiler enforces for constant keys. -/

/-- Modelled from the spec: constant `Namespace`, kind name and attribute key. -/
def Namespace : String := "namespace"
/-- Modelled from the spec: constant `Deployment`, kind name. -/
def Deployment : String := "deployment"
/-- Modelled from the spec: constant `Ingress`, kind name. -/
def Ingress : String := "ingress"
/-- Modelled from the spec: constant `Pod`, kind name. -/
def Pod : String := "pod"
/-- Modelled from the spec: constant `ReplicaSet`, kind name. -/
def ReplicaSet : String := "replicaset"
/-- Modelled from the spec: constant `Service`, kind name. -/
def Service : String := "service"
/-- Modelled from the spec: constant `StatefulSet`, kind name. -/
def StatefulSet : String := "statefulset"
/-- Modelled from the spec: constant `ObjType`, attribute key. -/
def ObjType : String := "objtype"
/-- Modelled from the spec: constant `Name`, attribute key. -/
def Name : String := "name"
/-- Modelled from the spec: constant `Cluster`, attribute key. -/
def Cluster : String := "cluster"
/-- Modelled from the spec: constant `CreationTime`, attribute key. -/
def CreationTime : String := "creationTime"
/-- Modelled from the spec: constant `ResourceVersion`, attribute key. -/
def ResourceVersion : String := "resourceVersion"
/-- Modelled from the spec: constant `Labels`, attribute key. -/
def Labels : String := "labels"
/-- Modelled from the spec: constant `Owner`, attribute key. -/
def Owner : String := "owner"
/-- Modelled from the spec: constant `OwnerType`, attribute key. -/
def OwnerType : String := "ownerType"
/-- Modelled from the spec: constant `Application`, attribute key. -/
def Application : String := "application"
/-- Modelled from the spec: constant `Asset`, attribute key. -/
def Asset : String := "asset"
/-- Modelled from the spec: constant `App`, the general label key. -/
def App : String := "app"
/-- Modelled from the spec: constant `K8sApp`, the platform label key. -/
def K8sApp : String := "k8s-app"
/-- Modelled from the spec: constant `AssetID`, the annotation key holding the
asset tag; the spec fixes one key without spelling it. -/
def AssetID : String := "AssetID"
/-- Modelled from the spec: constant `K8sObj`, attribute key and its value. -/
def K8sObj : String := "K8sObj"
/-- Modelled from the spec: constant `NumReplicas`, attribute key. -/
def NumReplicas : String := "NumReplicas"
/-- Modelled from the spec: constant `AvailableReplicas`, attribute key. -/
def AvailableReplicas : String := "AvailableReplicas"
/-- Modelled from the spec: constant `Strategy`, attribute key. -/
def Strategy : String := "Strategy"
/-- Modelled from the spec: constant `DefaultBackend`, attribute key. -/
def DefaultBackend : String := "DefaultBackend"
/-- Modelled from the spec: constant `TSL`, attribute key. -/
def TSL : String := "TSL"
/-- Modelled from the spec: constant `Rules`, attribute key. -/
def Rules : String := "Rules"
/-- Modelled from the spec: constant `Phase`, attribute key. -/
def Phase : String := "Phase"
/-- Modelled from the spec: constant `NodeName`, attribute key. -/
def NodeName : String := "NodeName"
/-- Modelled from the spec: constant `IP`, attribute key. -/
def IP : String := "IP"
/-- Modelled from the spec: constant `Containers`, attribute key. -/
def Containers : String := "Containers"
/-- Modelled from the spec: constant `Volumes`, attribute key. -/
def Volumes : String := "Volumes"
/-- Modelled from the spec: constant `StartTime`, attribute key. -/
def StartTime : String := "StartTime"
/-- Modelled from the spec: constant `PodSpec`, attribute key. -/
def PodSpec : String := "PodSpec"
/-- Modelled from the spec: constant `Selector`, attribute key. -/
def Selector : String := "Selector"
/-- Modelled from the spec: constant `ClusterIP`, attribute key. -/
def ClusterIP : String := "ClusterIP"
/-- Modelled from the spec: constant `ServiceType`, attribute key. -/
def ServiceType : String := "ServiceType"
/-- Modelled from the spec: constant `Ports`, attribute key. -/
def Ports : String := "Ports"

/-! ## Values, entities, outcomes -/

/-- A Go value stored under a key of an entity (`interface{}`). -/
inductive Value where
  /-- A `string`. -/
  | str (s : String)
  /-- A `map[string]string`. -/
  | strMap (m : List (String × String))
  /-- A `[]interface{}` of strings (the application list). -/
  | strs (l : List String)
  /-- A typed Kubernetes value carried through untouched, in its JSON form. -/
  | k8s (j : Json)

/-- An entity, Go `map[string]interface{}`. -/
abbrev Entity := List (String × Value)

/-- The map read `e[k]` with its presence flag. -/
def Entity.get? (e : Entity) (k : String) : Option Value := e.lookup k

/-- The map write `e[k] = v`. -/
def Entity.set : Entity → String → Value → Entity
  | [], k, v => [(k, v)]
  | (k', v') :: e, k, v => if k' = k then (k, v) :: e else (k', v') :: Entity.set e k v

/-- What `BuildEntityData` returns next to a nil error (`interface{}`). -/
inductive Result where
  /-- A `map[string]interface{}` built by a supported kind. -/
  | entity (e : Entity)
  /-- A `[]map[string]interface{}` built by a supported kind. -/
  | list (l : List Entity)
  /-- The default kind: the value `encoding/json` stores into an `interface{}`. -/
  | generic (j : Json)

/-- The three ways a call of `BuildEntityData` ends. -/
inductive Outcome where
  /-- A result and a nil error. -/
  | ok (r : Result)
  /-- A nil result and the error. -/
  | err (e : String)
  /-- A run-time panic. -/
  | panic

/-! ## `encoding/json` -/

/-- The functions of the Go libraries that `BuildEntityData` relies on: the
decoders of `encoding/json` for the seven Kubernetes element types; the
conversion of a JSON number to a `float64` that decoding into an `interface{}`
performs, which fails for a number outside the range of `float64` and
otherwise yields the nearest `float64` (for an integer literal, an integer);
and the Unicode-aware `strings.ToLower`. -/
structure Codec where
  Namespace : Json → Except String core_v1.Namespace
  Deployment : Json → Except String v1beta2.Deployment
  Ingress : Json → Except String ext_v1beta1.Ingress
  Pod : Json → Except String core_v1.Pod
  ReplicaSet : Json → Except String v1beta2.ReplicaSet
  Service : Json → Except String core_v1.Service
  StatefulSet : Json → Except String appsv1.StatefulSet
  Float64 : Int → Except String Int
  ToLower : String → String

/-- Decoding the elements of a JSON array one after the other; the first error
is the error of the whole. -/
def decodeEach {α : Type} (dec : Json → Except String α) : List Json → Except String (List α)
  | [] => .ok []
  | x :: xs =>
    match dec x with
    | .error e => .error e
    | .ok d =>
      match decodeEach dec xs with
      | .error e => .error e
      | .ok ds => .ok (d :: ds)

/-- Decoding a JSON value into a Go slice `[]T`: an array element-wise, `null`
to the nil slice, anything else is a type error. -/
def decodeSlice {α : Type} (dec : Json → Except String α) : Json → Except String (List α)
  | .arr xs => decodeEach dec xs
  | .null => .ok []
  | _ => .error "json: cannot unmarshal into Go value of slice type"

/-- The call `json.Unmarshal(body, &data)`: a syntax error for bytes that are
not JSON, otherwise the decoder of the type of `data`. -/
def Unmarshal {α : Type} (dec : Json → Except String α) : Option Json → Except String α
  | none => .error "invalid character looking for beginning of value"
  | some j => dec j

mutual

/-- Decoding a JSON value into an `interface{}`: `null`, booleans and strings
as they are, a number through the conversion to `float64`, an array into a
`[]interface{}` element by element, an object into a `map[string]interface{}`
member by member, a later member replacing an earlier one of the same key.  The
first conversion error is the error of the whole. -/
def decodeInterface (u : Codec) : Json → Except String Json
  | .null => .ok .null
  | .bool b => .ok (.bool b)
  | .str s => .ok (.str s)
  | .num n =>
    match u.Float64 n with
    | .error e => .error e
    | .ok v => .ok (.num v)
  | .arr xs =>
    match decodeElements u xs with
    | .error e => .error e
    | .ok ys => .ok (.arr ys)
  | .obj kvs =>
    match decodeMembers u kvs with
    | .error e => .error e
    | .ok members => .ok (.obj (members.foldl (fun m kv => JsonMap.set m kv.1 kv.2) []))

/-- The elements of an array decoded into `interface{}` values, in order. -/
def decodeElements (u : Codec) : List Json → Except String (List Json)
  | [] => .ok []
  | x :: xs =>
    match decodeInterface u x with
    | .error e => .error e
    | .ok y =>
      match decodeElements u xs with
      | .error e => .error e
      | .ok ys => .ok (y :: ys)

/-- The members of an object decoded into `interface{}` values, in order. -/
def decodeMembers (u : Codec) : List (String × Json) → Except String (List (String × Json))
  | [] => .ok []
  | (k, x) :: kvs =>
    match decodeInterface u x with
    | .error e => .error e
    | .ok y =>
      match decodeMembers u kvs with
      | .error e => .error e
      | .ok members => .ok ((k, y) :: members)

end

/-! ## `getValues` and `createAppNameList` (utils.go, lines 419-454) -/

/-- The dynamic type and value of the `interface{}` argument of `getValues`:
a pointer to one of the seven Kubernetes objects of its type switch, or the
pointer to a slice of namespaces that the list branch of the namespace case
passes (`&data` with `data []core_v1.Namespace`). -/
inductive Obj where
  | Service (d : core_v1.Service)
  | Namespace (d : core_v1.Namespace)
  | Deployment (d : v1beta2.Deployment)
  | Ingress (d : ext_v1beta1.Ingress)
  | Pod (d : core_v1.Pod)
  | ReplicaSet (d : v1beta2.ReplicaSet)
  | StatefulSet (d : appsv1.StatefulSet)
  | NamespaceSlice (ds : List core_v1.Namespace)

/-- The two method names that `getValues` is called with. -/
inductive Method where
  | GetAnnotations
  | GetLabels

/-- The reflective call `reflect.ValueOf(&m).MethodByName(method).Call(nil)`:
the list of the values returned, here the one map. -/
def Method.Call (method : Method) (m : metav1.ObjectMeta) : List (List (String × String)) :=
  match method with
  | .GetAnnotations => [m.GetAnnotations]
  | .GetLabels => [m.GetLabels]

/-- The function `getValues`: the type switch fills `vals` for the seven pointer
types and leaves it empty for any other type; the value under `key` of the
first returned map, or the empty string. -/
def getValues (data : Obj) (key : String) (method : Method) : String :=
  let vals : List (List (String × String)) :=
    match data with
    | .Service d => method.Call d.ObjectMeta
    | .Namespace d => method.Call d.ObjectMeta
    | .Deployment d => method.Call d.ObjectMeta
    | .Ingress d => method.Call d.ObjectMeta
    | .Pod d => method.Call d.ObjectMeta
    | .ReplicaSet d => method.Call d.ObjectMeta
    | .StatefulSet d => method.Call d.ObjectMeta
    | .NamespaceSlice _ => []
  match vals with
  | v :: _ =>
    match v.lookup key with
    | some val => val
    | none => ""
  | [] => ""

/-- The function `createAppNameList`: the loop over the two label keys appends
every value that is not the empty string. -/
def createAppNameList (obj : Obj) : List String :=
  [App, K8sApp].foldl
    (fun appList key =>
      let val := getValues obj key .GetLabels
      if val ≠ "" then appList ++ [val] else appList)
    []

/-! ## `BuildEntityData` (utils.go, lines 54-417)

Each supported kind builds the same map literal in its list branch and in its
scalar branch; the literal is written once below, as a function of the decoded
object (for the namespace, also of the asset value, which is the one place
where the two branches differ). -/

/-- The map literal of the `Namespace` case (lines 66-75 and 85-94). -/
def namespaceEntity (clusterName : String) (d : core_v1.Namespace) (asset : String) : Entity :=
  [ (ObjType, .str Namespace),
    (Name, .str d.ObjectMeta.Name),
    (CreationTime, .k8s d.ObjectMeta.CreationTimestamp),
    (Cluster, .str clusterName),
    (ResourceVersion, .str d.ObjectMeta.ResourceVersion),
    (K8sObj, .str K8sObj),
    (Labels, .strMap d.ObjectMeta.GetLabels),
    (Asset, .str asset) ]

/-- The `Deployment` case for one object (lines 104-121 and 131-148): the map
literal, then the application list when it is not empty. -/
def deploymentEntity (clusterName : String) (d : v1beta2.Deployment) : Entity :=
  let deployment : Entity :=
    [ (ObjType, .str Deployment),
      (Cluster, .str clusterName),
      (Name, .str d.ObjectMeta.Name),
      (CreationTime, .k8s d.ObjectMeta.CreationTimestamp),
      (Namespace, .str d.ObjectMeta.Namespace),
      (NumReplicas, .k8s d.Spec.Replicas),
      (AvailableReplicas, .k8s d.Status.AvailableReplicas),
      (Strategy, .k8s d.Spec.Strategy.Type_),
      (ResourceVersion, .str d.ObjectMeta.ResourceVersion),
      (Labels, .strMap d.ObjectMeta.GetLabels),
      (K8sObj, .str K8sObj) ]
  let appList := createAppNameList (.Deployment d)
  if appList.length > 0 then deployment.set Application (.strs appList) else deployment

/-- The `Ingress` case for one object (lines 159-176 and 186-202). -/
def ingressEntity (clusterName : String) (d : ext_v1beta1.Ingress) : Entity :=
  let ingress : Entity :=
    [ (ObjType, .str Ingress),
      (Cluster, .str clusterName),
      (Name, .str d.ObjectMeta.Name),
      (Namespace, .str d.ObjectMeta.Namespace),
      (CreationTime, .k8s d.ObjectMeta.CreationTimestamp),
      (DefaultBackend, .k8s d.Spec.Backend),
      (TSL, .k8s d.Spec.TLS),
      (Rules, .k8s d.Spec.Rules),
      (ResourceVersion, .str d.ObjectMeta.ResourceVersion),
      (Labels, .strMap d.ObjectMeta.GetLabels),
      (K8sObj, .str K8sObj) ]
  let appList := createAppNameList (.Ingress d)
  if appList.length > 0 then ingress.set Application (.strs appList) else ingress

/-- The `Pod` case for one object (lines 213-232 and 242-261): the map literal,
then owner and owner type from the first owner reference when
`len(OwnerReferences) > 0`. -/
def podEntity (u : Codec) (clusterName : String) (d : core_v1.Pod) : Entity :=
  let pod : Entity :=
    [ (ObjType, .str Pod),
      (Name, .str d.ObjectMeta.Name),
      (Namespace, .str d.ObjectMeta.Namespace),
      (CreationTime, .k8s d.ObjectMeta.CreationTimestamp),
      (Phase, .k8s d.Status.Phase),
      (NodeName, .k8s d.Spec.NodeName),
      (IP, .k8s d.Status.PodIP),
      (Containers, .k8s d.Spec.Containers),
      (Volumes, .k8s d.Spec.Volumes),
      (Labels, .strMap d.ObjectMeta.GetLabels),
      (Cluster, .str clusterName),
      (ResourceVersion, .str d.ObjectMeta.ResourceVersion),
      (K8sObj, .str K8sObj),
      (StartTime, .k8s d.Status.StartTime) ]
  match d.ObjectMeta.OwnerReferences with
  | o :: _ => (pod.set Owner (.str o.Name)).set OwnerType (.str (u.ToLower o.Kind))
  | [] => pod

/-- The map literal of the `ReplicaSet` case (lines 272-284 and 294-306).  The
entry `Owner` indexes `OwnerReferences[0]` without a length test: on an empty
list the index expression panics (`none`). -/
def replicaSetEntity (clusterName : String) (d : v1beta2.ReplicaSet) : Option Entity :=
  match d.ObjectMeta.OwnerReferences with
  | [] => none
  | o :: _ =>
    some
      [ (ObjType, .str ReplicaSet),
        (Name, .str d.ObjectMeta.Name),
        (CreationTime, .k8s d.ObjectMeta.CreationTimestamp),
        (Namespace, .str d.ObjectMeta.Namespace),
        (NumReplicas, .k8s d.Spec.Replicas),
        (PodSpec, .k8s d.Spec.Template.Spec),
        (Owner, .str o.Name),
        (Cluster, .str clusterName),
        (ResourceVersion, .str d.ObjectMeta.ResourceVersion),
        (Labels, .strMap d.ObjectMeta.GetLabels),
        (K8sObj, .str K8sObj) ]

/-- The loop `for _, d := range data` of the `ReplicaSet` list branch: it stops
at the first element whose literal panics. -/
def replicaSetLoop (clusterName : String) : List v1beta2.ReplicaSet → Option (List Entity)
  | [] => some []
  | d :: ds =>
    match replicaSetEntity clusterName d with
    | none => none
    | some e =>
      match replicaSetLoop clusterName ds with
      | none => none
      | some l => some (e :: l)

/-- The `Service` case for one object (lines 316-334 and 344-362). -/
def serviceEntity (clusterName : String) (d : core_v1.Service) : Entity :=
  let service : Entity :=
    [ (ObjType, .str Service),
      (Name, .str d.ObjectMeta.Name),
      (Namespace, .str d.ObjectMeta.Namespace),
      (CreationTime, .k8s d.ObjectMeta.CreationTimestamp),
      (Selector, .k8s d.Spec.Selector),
      (Labels, .strMap d.ObjectMeta.GetLabels),
      (ClusterIP, .k8s d.Spec.ClusterIP),
      (ServiceType, .k8s d.Spec.Type_),
      (Ports, .k8s d.Spec.Ports),
      (Cluster, .str clusterName),
      (ResourceVersion, .str d.ObjectMeta.ResourceVersion),
      (K8sObj, .str K8sObj) ]
  let appList := createAppNameList (.Service d)
  if appList.length > 0 then service.set Application (.strs appList) else service

/-- The map literal of the `StatefulSet` case (lines 373-383 and 393-403). -/
def statefulSetEntity (clusterName : String) (d : appsv1.StatefulSet) : Entity :=
  [ (ObjType, .str StatefulSet),
    (Name, .str d.ObjectMeta.Name),
    (CreationTime, .k8s d.ObjectMeta.CreationTimestamp),
    (Namespace, .str d.ObjectMeta.Namespace),
    (NumReplicas, .k8s d.Spec.Replicas),
    (Cluster, .str clusterName),
    (ResourceVersion, .str d.ObjectMeta.ResourceVersion),
    (Labels, .strMap d.ObjectMeta.GetLabels),
    (K8sObj, .str K8sObj) ]

/-- The function `BuildEntityData`.  The `switch meta` is the chain of tests in
the order of its cases; in each case the list branch decodes a slice and runs
the loop that appends one entity per element, the scalar branch decodes one
object.  In the namespace list branch the asset is read from `&data`, the
pointer to the whole slice.  The default case decodes into an `interface{}`
variable: whatever the typed value assigned to `data` before, `json.Unmarshal`
stores the generic value of the body, and fails only on a conversion error. -/
def BuildEntityData (u : Codec) (clusterName : String) (meta : String) (body : Option Json)
    (isArray : Bool) : Outcome :=
  if meta = Namespace then
    if isArray then
      match Unmarshal (decodeSlice u.Namespace) body with
      | .error err => .err err
      | .ok data =>
        .ok (.list (data.map fun d =>
          namespaceEntity clusterName d (getValues (.NamespaceSlice data) AssetID .GetAnnotations)))
    else
      match Unmarshal u.Namespace body with
      | .error err => .err err
      | .ok data =>
        .ok (.entity
          (namespaceEntity clusterName data (getValues (.Namespace data) AssetID .GetAnnotations)))
  else if meta = Deployment then
    if isArray then
      match Unmarshal (decodeSlice u.Deployment) body with
      | .error err => .err err
      | .ok data => .ok (.list (data.map fun d => deploymentEntity clusterName d))
    else
      match Unmarshal u.Deployment body with
      | .error err => .err err
      | .ok data => .ok (.entity (deploymentEntity clusterName data))
  else if meta = Ingress then
    if isArray then
      match Unmarshal (decodeSlice u.Ingress) body with
      | .error err => .err err
      | .ok data => .ok (.list (data.map fun d => ingressEntity clusterName d))
    else
      match Unmarshal u.Ingress body with
      | .error err => .err err
      | .ok data => .ok (.entity (ingressEntity clusterName data))
  else if meta = Pod then
    if isArray then
      match Unmarshal (decodeSlice u.Pod) body with
      | .error err => .err err
      | .ok data => .ok (.list (data.map fun d => podEntity u clusterName d))
    else
      match Unmarshal u.Pod body with
      | .error err => .err err
      | .ok data => .ok (.entity (podEntity u clusterName data))
  else if meta = ReplicaSet then
    if isArray then
      match Unmarshal (decodeSlice u.ReplicaSet) body with
      | .error err => .err err
      | .ok data =>
        match replicaSetLoop clusterName data with
        | none => .panic
        | some list => .ok (.list list)
    else
      match Unmarshal u.ReplicaSet body with
      | .error err => .err err
      | .ok data =>
        match replicaSetEntity clusterName data with
        | none => .panic
        | some e => .ok (.entity e)
  else if meta = Service then
    if isArray then
      match Unmarshal (decodeSlice u.Service) body with
      | .error err => .err err
      | .ok data => .ok (.list (data.map fun d => serviceEntity clusterName d))
    else
      match Unmarshal u.Service body with
      | .error err => .err err
      | .ok data => .ok (.entity (serviceEntity clusterName data))
  else if meta = StatefulSet then
    if isArray then
      match Unmarshal (decodeSlice u.StatefulSet) body with
      | .error err => .err err
      | .ok data => .ok (.list (data.map fun d => statefulSetEntity clusterName d))
    else
      match Unmarshal u.StatefulSet body with
      | .error err => .err err
      | .ok data => .ok (.entity (statefulSetEntity clusterName data))
  else
    match Unmarshal (decodeInterface u) body with
    | .error err => .err err
    | .ok data => .ok (.generic data)

end util

/-! ## A concrete decoder

`json.codec` decodes the fields that the normalizer reads the way
`encoding/json` does for payloads without duplicate keys: a struct takes an
object or `null`, a missing or `null` field keeps its zero value, a string field
takes a string, a `map[string]string` an object of strings, a slice an array.
The kind-specific values are kept as they stand.  Its lower-casing is that of
`strings.ToLower` on ASCII strings.  It is the decoder at which the theorems
below are instantiated on concrete payloads, which are ASCII. -/

namespace json

/-- The member `k` of an object, `null` when there is none. -/
def field (j : Json) (k : String) : Json :=
  match j with
  | .obj kvs => (kvs.lookup k).getD .null
  | _ => .null

/-- Decoding into a struct: the value has to be an object or `null`. -/
def struct {α : Type} (build : Json → Except String α) (j : Json) : Except String α :=
  match j with
  | .obj _ => build j
  | .null => build j
  | _ => .error "json: cannot unmarshal into Go value of struct type"

/-- Decoding into a `string`. -/
def string (j : Json) : Except String String :=
  match j with
  | .str s => .ok s
  | .null => .ok ""
  | _ => .error "json: cannot unmarshal into Go value of type string"

/-- Decoding the members of an object into the entries of a `map[string]string`. -/
def stringEntries : List (String × Json) → Except String (List (String × String))
  | [] => .ok []
  | (k, v) :: kvs =>
    match string v with
    | .error e => .error e
    | .ok s =>
      match stringEntries kvs with
      | .error e => .error e
      | .ok m => .ok ((k, s) :: m)

/-- Decoding into a `map[string]string`. -/
def stringMap (j : Json) : Except String (List (String × String)) :=
  match j with
  | .obj kvs => stringEntries kvs
  | .null => .ok []
  | _ => .error "json: cannot unmarshal into Go value of type map[string]string"

/-- Decoding into a `metav1.OwnerReference`. -/
def ownerReference : Json → Except String metav1.OwnerReference :=
  struct fun j =>
    match string (field j "kind"), string (field j "name") with
    | .ok kind, .ok name => .ok { Kind := kind, Name := name }
    | .error e, _ => .error e
    | _, .error e => .error e

/-- Decoding into a `metav1.ObjectMeta`. -/
def objectMeta : Json → Except String metav1.ObjectMeta :=
  struct fun j =>
    match string (field j "name"), string (field j "namespace"),
      string (field j "resourceVersion"), stringMap (field j "labels"),
      stringMap (field j "annotations"),
      util.decodeSlice ownerReference (field j "ownerReferences") with
    | .ok name, .ok ns, .ok rv, .ok labels, .ok annotations, .ok owners =>
      .ok { Name := name, Namespace := ns, ResourceVersion := rv,
            CreationTimestamp := field j "creationTimestamp",
            Labels := labels, Annotations := annotations, OwnerReferences := owners }
    | .error e, _, _, _, _, _ => .error e
    | _, .error e, _, _, _, _ => .error e
    | _, _, .error e, _, _, _ => .error e
    | _, _, _, .error e, _, _ => .error e
    | _, _, _, _, .error e, _ => .error e
    | _, _, _, _, _, .error e => .error e

/-- Decoding into a Kubernetes object: its metadata, and the object itself for
the kind-specific part. -/
def object {α : Type} (build : metav1.ObjectMeta → Json → α) : Json → Except String α :=
  struct fun j =>
    match objectMeta (field j "metadata") with
    | .error e => .error e
    | .ok m => .ok (build m j)

/-- The number of low bits that a natural number has beyond 53 bits; `fuel`
bounds the count. -/
def excessBits : Nat → Nat → Nat
  | 0, _ => 0
  | fuel + 1, m => if m < 2 ^ 53 then 0 else 1 + excessBits fuel (m / 2)

/-- The least magnitude that rounds to `2 ^ 1024`, which is beyond the largest
`float64`: `2 ^ 1024 - 2 ^ 970`. -/
def float64Overflow : Nat :=
  2 ^ 256 * 2 ^ 256 * 2 ^ 256 * 2 ^ 256 - 2 ^ 256 * 2 ^ 256 * 2 ^ 256 * 2 ^ 202

/-- The conversion of an integer literal to `float64` (`strconv.ParseFloat`):
exact below `2 ^ 53`, an error from `float64Overflow` on, and in between the
nearest number with 53 significant bits, ties to the even one. -/
def float64 (n : Int) : Except String Int :=
  let m := n.natAbs
  if m < 2 ^ 53 then .ok n
  else if m ≥ float64Overflow then
    .error "json: cannot unmarshal number into Go value of type float64"
  else
    let e := excessBits 971 m
    let q := m / 2 ^ e
    let r := m % 2 ^ e
    let q := if 2 * r > 2 ^ e ∨ (2 * r = 2 ^ e ∧ q % 2 = 1) then q + 1 else q
    .ok (if n < 0 then -((q * 2 ^ e : Nat) : Int) else ((q * 2 ^ e : Nat) : Int))

/-- Lower-casing of the letters `A` to `Z`, which is what `strings.ToLower` does
to a string of ASCII characters. -/
def toLowerASCII (s : String) : String := String.mk (s.data.map Char.toLower)

/-- The decoder of the seven element types, the conversion of integer literals
to `float64`, and lower-casing on ASCII strings. -/
def codec : util.Codec where
  Float64 := float64
  ToLower := toLowerASCII
  Namespace := object fun m _ => { ObjectMeta := m }
  Deployment := object fun m j =>
    { ObjectMeta := m,
      Spec := { Replicas := field (field j "spec") "replicas",
                Strategy := { Type_ := field (field (field j "spec") "strategy") "type" } },
      Status := { AvailableReplicas := field (field j "status") "availableReplicas" } }
  Ingress := object fun m j =>
    { ObjectMeta := m,
      Spec := { Backend := field (field j "spec") "backend",
                TLS := field (field j "spec") "tls",
                Rules := field (field j "spec") "rules" } }
  Pod := object fun m j =>
    { ObjectMeta := m,
      Spec := { NodeName := field (field j "spec") "nodeName",
                Containers := field (field j "spec") "containers",
                Volumes := field (field j "spec") "volumes" },
      Status := { Phase := field (field j "status") "phase",
                  PodIP := field (field j "status") "podIP",
                  StartTime := field (field j "status") "startTime" } }
  ReplicaSet := object fun m j =>
    { ObjectMeta := m,
      Spec := { Replicas := field (field j "spec") "replicas",
                Template := { Spec := field (field (field j "spec") "template") "spec" } } }
  Service := object fun m j =>
    { ObjectMeta := m,
      Spec := { Selector := field (field j "spec") "selector",
                ClusterIP := field (field j "spec") "clusterIP",
                Type_ := field (field j "spec") "type",
                Ports := field (field j "spec") "ports" } }
  StatefulSet := object fun m j =>
    { ObjectMeta := m,
      Spec := { Replicas := field (field j "spec") "replicas" } }

end json

/-! ## Vocabulary of the statements -/

namespace util

/-- The seven kinds that `BuildEntityData` has a case for. -/
def supportedKinds : List String :=
  [Namespace, Deployment, Ingress, Pod, ReplicaSet, Service, StatefulSet]

/-- The object that one payload decodes to as an object of the kind `meta`,
with the decoder that `BuildEntityData` uses for that kind. -/
def Codec.decode (u : Codec) (meta : String) (j : Json) : Except String Obj :=
  if meta = util.Namespace then (u.Namespace j).map .Namespace
  else if meta = util.Deployment then (u.Deployment j).map .Deployment
  else if meta = util.Ingress then (u.Ingress j).map .Ingress
  else if meta = util.Pod then (u.Pod j).map .Pod
  else if meta = util.ReplicaSet then (u.ReplicaSet j).map .ReplicaSet
  else if meta = util.Service then (u.Service j).map .Service
  else if meta = util.StatefulSet then (u.StatefulSet j).map .StatefulSet
  else .error "not a supported kind"

/-- The metadata of a decoded object. -/
def Obj.ObjectMeta : Obj → metav1.ObjectMeta
  | .Service d => d.ObjectMeta
  | .Namespace d => d.ObjectMeta
  | .Deployment d => d.ObjectMeta
  | .Ingress d => d.ObjectMeta
  | .Pod d => d.ObjectMeta
  | .ReplicaSet d => d.ObjectMeta
  | .StatefulSet d => d.ObjectMeta
  | .NamespaceSlice _ =>
    { Name := "", Namespace := "", ResourceVersion := "", CreationTimestamp := .null,
      Labels := [], Annotations := [], OwnerReferences := [] }

/-- Two entities carry the same attributes except for `cluster`, which is `c1`
in the first and `c2` in the second. -/
def AgreeModuloCluster (c1 c2 : String) (e1 e2 : Entity) : Prop :=
  e1.get? Cluster = some (.str c1) ∧ e2.get? Cluster = some (.str c2) ∧
    ∀ k, k ≠ Cluster → e1.get? k = e2.get? k

end util

/-! ## Sample payloads -/

namespace sample

/-- The payload `{"metadata": {"name": "ns1", "annotations": {<AssetID>: "a-1"}}}`. -/
def namespaceTagged : Json :=
  .obj [("metadata", .obj [("name", .str "ns1"),
    ("annotations", .obj [(util.AssetID, .str "a-1")])])]

/-- The payload `{"metadata": {"name": "ns2"}}`. -/
def namespacePlain : Json :=
  .obj [("metadata", .obj [("name", .str "ns2")])]

/-- A pod named `p1` with the label `app = checkout`, owned first by the
replica set `rs1`, then by the job `j1`. -/
def podOwned : Json :=
  .obj [("metadata", .obj [("name", .str "p1"),
    ("labels", .obj [("app", .str "checkout")]),
    ("ownerReferences", .arr [
      .obj [("kind", .str "ReplicaSet"), ("name", .str "rs1")],
      .obj [("kind", .str "Job"), ("name", .str "j1")]])])]

/-- A pod named `p2` with the label `app = checkout` and no owner reference. -/
def podPlain : Json :=
  .obj [("metadata", .obj [("name", .str "p2"),
    ("labels", .obj [("app", .str "checkout")])])]

/-- A payload that no Kubernetes struct accepts: a JSON string. -/
def malformed : Json := .str "oops"

/-- A replica set named `rs1` without owner references. -/
def replicaSetOrphan : Json :=
  .obj [("metadata", .obj [("name", .str "rs1")])]

/-- A replica set named `rs2` owned by the deployment `web`. -/
def replicaSetOwned : Json :=
  .obj [("metadata", .obj [("name", .str "rs2"),
    ("ownerReferences", .arr [.obj [("kind", .str "Deployment"), ("name", .str "web")]])])]

/-- A deployment whose labels `app` and `k8s-app` carry the same value `shop`. -/
def deploymentSameApp : Json :=
  .obj [("metadata", .obj [("name", .str "web"),
    ("labels", .obj [("app", .str "shop"), ("k8s-app", .str "shop")])])]

/-- A deployment with the labels `app = shop` and `k8s-app = cart`. -/
def deploymentTwoApps : Json :=
  .obj [("metadata", .obj [("name", .str "web"),
    ("labels", .obj [("app", .str "shop"), ("k8s-app", .str "cart")])])]

/-- A deployment with the labels `app = ""` (the empty value) and `k8s-app = cart`. -/
def deploymentEmptyApp : Json :=
  .obj [("metadata", .obj [("name", .str "web"),
    ("labels", .obj [("app", .str ""), ("k8s-app", .str "cart")])])]

/-- A service named `db` with the single label `tier = backend`. -/
def servicePlain : Json :=
  .obj [("metadata", .obj [("name", .str "db"),
    ("labels", .obj [("tier", .str "backend")])])]

end sample

/-! # The HTTP handlers of `resources/server_resource.go`

Conventions of the embedding

* The services behind `ServerResource` (`apis`, `db`) are not part of the
  sources; their methods are fields of records, each a function of its
  arguments and of the state of the backend, returning its result and the new
  state.  The backend state is an arbitrary type `σ`.
* A handler maps the request (path variables, headers, body) and the backend
  state to a `Run`: the final backend state, the sequence of effects in program
  order (counter increments, response header fields, `WriteHeader`, `Write`,
  calls of the services, log lines) and whether the handler ended in a panic.
  A deferred call is the last effect of the run.
* The bytes written to the response are kept in structured form (`Body`);
  durations are left out of the log lines and histogram observations.
* The maps returned by the services hold JSON values, for which `json.Marshal`
  does not fail, and are not nil.
-/

namespace db

/-- Modelled from the spec: the type `db.Schema`, one predicate: its name, its
value type, whether it is indexed (upsert flag included) and whether it holds a
list. -/
structure Schema where
  Predicate : String
  Type_ : String
  Index : Bool
  List_ : Bool

end db

namespace strings

/-- The scan of `strings.Replace(s, old, new, -1)` for a non-empty `old`:
`skip` counts the characters of a match still to be passed over. -/
def replaceFrom (old new : List Char) : Nat → List Char → List Char
  | _, [] => []
  | skip + 1, _ :: rest => replaceFrom old new skip rest
  | 0, c :: rest =>
    if old.isPrefixOf (c :: rest) then new ++ replaceFrom old new (old.length - 1) rest
    else c :: replaceFrom old new 0 rest

/-- The function `strings.Replace(s, old, new, -1)` for a non-empty `old`: every
non-overlapping occurrence of `old`, from the left, is replaced by `new`. -/
def Replace (s old new : String) : String :=
  String.mk (replaceFrom old.data new.data 0 s.data)

end strings

namespace http

/-- The constant `http.StatusOK`. -/
def StatusOK : Nat := 200
/-- The constant `http.StatusAccepted`. -/
def StatusAccepted : Nat := 202
/-- The constant `http.StatusBadRequest`. -/
def StatusBadRequest : Nat := 400
/-- The constant `http.StatusNotFound`. -/
def StatusNotFound : Nat := 404
/-- The constant `http.StatusInternalServerError`. -/
def StatusInternalServerError : Nat := 500

end http

namespace resources

/-- The counters of the package `metrics` that the handlers increment. -/
inductive Counter where
  | KatlasNumReqCount
  | KatlasNumReqErr
  | KatlasNumReqErr4xx
  | KatlasNumReqErr5xx
  | KatlasNumReq2xx
  | DgraphNumQSLErr
  deriving DecidableEq

/-- The histograms of the package `metrics` that the handlers observe. -/
inductive Histogram where
  | DgraphGetEntityLatencyHistogram
  | KatlasQueryLatencyHistogram
  deriving DecidableEq

/-- The bytes passed to `w.Write`, by the expression that builds them. -/
inductive Body where
  /-- The text `{"status": <status>, "error": "<error>"}` of `fmt.Sprintf`. -/
  | statusError (status : Nat) (error : String)
  /-- The text `{"status": <status>, "message": "<message>"}` of `fmt.Sprintf`. -/
  | statusMessage (status : Nat) (message : String)
  /-- The result of `json.Marshal` on a map. -/
  | marshal (m : JsonMap)

/-- A call of a method of one of the services behind `ServerResource`. -/
inductive Call where
  | GetEntity (uid : String)
  | SyncEntities (meta : String) (payload : List util.Entity)
  | CreateDgraphQuery (query : String) (countOnly : Bool)
  | ExecuteDgraphQuery (query : String)
  | CreateSchema (p : db.Schema)
  | DropSchema (predicate : String)
  | RemoveSchemaCache

/-- One effect of a handler. -/
inductive Event where
  /-- The call `metrics.<c>.Inc()`. -/
  | Inc (c : Counter)
  /-- The call `metrics.<h>.WithLabelValues(.., code, ..).Observe(..)`. -/
  | Observe (h : Histogram) (code : Nat)
  /-- The call `w.Header().Set(k, v)`. -/
  | SetHeader (k v : String)
  /-- The call `w.WriteHeader(code)`. -/
  | WriteHeader (code : Nat)
  /-- The call `w.Write(b)`. -/
  | Write (b : Body)
  /-- The call of a service method. -/
  | Call (c : Call)
  /-- A line given to the logger or printed. -/
  | Log (text : String)
  /-- The statement `go func() {...}()`. -/
  | Go

/-- The execution of a handler, or of a goroutine it starts. -/
structure Run (σ : Type) where
  /-- The state of the backend at the end. -/
  world : σ
  /-- The effects, in program order. -/
  events : List Event
  /-- Whether the execution ended in a run-time panic. -/
  panicked : Bool

/-- The HTTP status code of the response: the code of the first `WriteHeader`,
and `200` when the handler never calls it. -/
def statusCode : List Event → Nat
  | [] => http.StatusOK
  | .WriteHeader code :: _ => code
  | _ :: es => statusCode es

/-- The bodies written to the response, in order. -/
def writes : List Event → List Body
  | [] => []
  | .Write b :: es => b :: writes es
  | _ :: es => writes es

/-- The service calls, in order. -/
def calls : List Event → List Call
  | [] => []
  | .Call c :: es => c :: calls es
  | _ :: es => calls es

/-- The counters incremented, in order. -/
def increments : List Event → List Counter
  | [] => []
  | .Inc c :: es => c :: increments es
  | _ :: es => increments es

/-- Whether a call is the cache invalidation `RemoveSchemaCache`. -/
def Call.isRemoveSchemaCache : Call → Bool
  | .RemoveSchemaCache => true
  | _ => false

/-- Whether a call is `SyncEntities`. -/
def Call.isSyncEntities : Call → Bool
  | .SyncEntities _ _ => true
  | _ => false

/-- Whether a call is a store execution `ExecuteDgraphQuery`. -/
def Call.isExecuteDgraphQuery : Call → Bool
  | .ExecuteDgraphQuery _ => true
  | _ => false

/-- The methods of `apis.EntityService` used by the handlers below. -/
structure EntityService (σ : Type) where
  GetEntity : String → σ → Except String JsonMap × σ
  SyncEntities : String → List util.Entity → σ → Option String × σ

/-- The methods of `apis.MetaService` used by the handlers below; an error is
`some`, the nil error `none`. -/
structure MetaService (σ : Type) where
  CreateSchema : db.Schema → σ → Option String × σ
  DropSchema : String → σ → Option String × σ
  RemoveSchemaCache : σ → σ

/-- The client `db.DGClient`. -/
structure DGClient (σ : Type) where
  ExecuteDgraphQuery : String → σ → Except String JsonMap × σ

/-- The service `apis.QSLService`. -/
structure QSLService (σ : Type) where
  CreateDgraphQuery : String → Bool → σ → Except String String × σ
  DBclient : DGClient σ

/-- The struct `ServerResource`, with the services that the handlers below use. -/
structure ServerResource (σ : Type) where
  EntitySvc : EntityService σ
  MetaSvc : MetaService σ
  QSLSvc : QSLService σ

/-- The library and package functions that the handlers call and that are not
part of the sources: the decoders of `encoding/json` for the Kubernetes types,
`mapstructure.Decode` into a `db.Schema` and into a `[]db.Schema`, and
`apis.GetTotalCnt`. -/
structure Library where
  json : util.Codec
  DecodeSchema : Json → Except String db.Schema
  DecodeSchemas : Json → Except String (List db.Schema)
  GetTotalCnt : JsonMap → Json

/-- Modelled from the spec: constant `util.Count`, the key of the total in a
query result. -/
def Count : String := "count"

/-- The function `trim` (lines 674-681): newlines and the two characters `\n`
become a blank, quotation marks and backslashes are removed. -/
def trim (str : String) : String :=
  let str := strings.Replace (strings.Replace str "\n" " ") "\\n" " "
  let str := strings.Replace str "\"" ""
  strings.Replace str "\\" ""

/-- The two header fields that every handler sets first. -/
def corsHeaders : List Event :=
  [ .SetHeader "Access-Control-Allow-Origin" "*",
    .SetHeader "Content-Type" "application/json" ]

/-- The text of `fmt.Sprintf("%v", names)` for a `[]string`. -/
def sprintStrings (names : List String) : String :=
  "[" ++ " ".intercalate names ++ "]"

end resources

namespace resources

variable {σ : Type}

/-- The handler `EntityGetHandler` (lines 31-68) for the path variable `uid`.
The deferred observation of the latency histogram, with the final value of
`code`, ends the run. -/
def EntityGetHandler (s : ServerResource σ) (uid : String) (world : σ) : Run σ :=
  let start : List Event := .Inc .KatlasNumReqCount :: corsHeaders
  match s.EntitySvc.GetEntity uid world with
  | (.error err, world) =>
    { world := world,
      events := start ++
        [ .Call (.GetEntity uid), .Inc .KatlasNumReqErr, .Inc .KatlasNumReqErr5xx,
          .WriteHeader http.StatusInternalServerError,
          .Write (.statusError http.StatusInternalServerError (trim err)),
          .Observe .DgraphGetEntityLatencyHistogram http.StatusInternalServerError ],
      panicked := false }
  | (.ok obj, world) =>
    if obj.length = 0 then
      { world := world,
        events := start ++
          [ .Call (.GetEntity uid), .Inc .KatlasNumReqErr, .Inc .KatlasNumReqErr4xx,
            .WriteHeader http.StatusNotFound,
            .Write (.statusError http.StatusNotFound ("entity with id " ++ uid ++ " not found")),
            .Observe .DgraphGetEntityLatencyHistogram http.StatusNotFound ],
        panicked := false }
    else
      { world := world,
        events := start ++
          [ .Call (.GetEntity uid),
            .Write (.marshal (obj.set "status" (.num http.StatusOK))),
            .Inc .KatlasNumReq2xx,
            .Observe .DgraphGetEntityLatencyHistogram http.StatusOK ],
        panicked := false }

/-- The execution of `EntitySyncHandler`: the run of the handler itself and,
when it reaches the `go` statement, the body of the goroutine, which runs on
the backend state it finds when it is scheduled. -/
structure SyncRun (σ : Type) where
  handler : Run σ
  goroutine : Option (σ → Run σ)

/-- The goroutine of `EntitySyncHandler` (lines 325-335).  The argument
`payload.([]map[string]interface{})` is evaluated before the call: a payload of
another dynamic type panics. -/
def syncGoroutine (s : ServerResource σ) (meta : String) (payload : util.Result)
    (world : σ) : Run σ :=
  match payload with
  | .list entities =>
    match s.EntitySvc.SyncEntities meta entities world with
    | (some err, world) =>
      { world := world,
        events :=
          [ .Call (.SyncEntities meta entities), .Inc .KatlasNumReqErr, .Inc .KatlasNumReqErr5xx,
            .Log err ],
        panicked := false }
    | (none, world) =>
      { world := world,
        events :=
          [ .Call (.SyncEntities meta entities),
            .Log (meta ++ " sync completed, total " ++ toString entities.length ++ " synced"),
            .Inc .KatlasNumReq2xx ],
        panicked := false }
  | _ => { world := world, events := [], panicked := true }

/-- The handler `EntitySyncHandler` (lines 294-336) for the path variable
`meta`, the header field `clusterName` and the result of reading the body. -/
def EntitySyncHandler (lib : Library) (s : ServerResource σ) (meta clusterName : String)
    (body : Except String (Option Json)) (world : σ) : SyncRun σ :=
  match body with
  | .error err =>
    { handler :=
        { world := world,
          events := corsHeaders ++
            [ .Log err, .WriteHeader http.StatusBadRequest,
              .Write (.statusError http.StatusBadRequest (trim err)) ],
          panicked := false },
      goroutine := none }
  | .ok body =>
    match util.BuildEntityData lib.json clusterName meta body true with
    | .err err =>
      { handler :=
          { world := world,
            events := corsHeaders ++
              [ .Inc .KatlasNumReqErr, .Inc .KatlasNumReqErr4xx, .Log err,
                .WriteHeader http.StatusBadRequest,
                .Write (.statusError http.StatusBadRequest (trim err)) ],
            panicked := false },
        goroutine := none }
    | .panic =>
      { handler := { world := world, events := corsHeaders, panicked := true },
        goroutine := none }
    | .ok payload =>
      { handler :=
          { world := world,
            events := corsHeaders ++
              [ .Inc .KatlasNumReqCount, .WriteHeader http.StatusAccepted,
                .Write (.statusMessage http.StatusAccepted (meta ++ " sync request accepted")),
                .Go ],
            panicked := false },
        goroutine := some (syncGoroutine s meta payload) }

/-- The loop `for _, p := range predicates` of `SchemaUpsertHandler` (lines
523-534): the events of the calls made, and either the error of the call that
failed or the names appended. -/
def upsertLoop (s : ServerResource σ) :
    List db.Schema → List String → σ → List Event × Except String (List String) × σ
  | [], names, world => ([], .ok names, world)
  | p :: ps, names, world =>
    match s.MetaSvc.CreateSchema p world with
    | (some err, world) => ([.Call (.CreateSchema p)], .error err, world)
    | (none, world) =>
      match upsertLoop s ps (names ++ [p.Predicate]) world with
      | (events, r, world) => (.Call (.CreateSchema p) :: events, r, world)

/-- The deferred call `s.MetaSvc.RemoveSchemaCache(db.LruCache)`: it runs when
the handler returns or panics, after everything else. -/
def deferRemoveSchemaCache (s : ServerResource σ) (r : Run σ) : Run σ :=
  { world := s.MetaSvc.RemoveSchemaCache r.world,
    events := r.events ++ [.Call .RemoveSchemaCache],
    panicked := r.panicked }

/-- The body of `SchemaUpsertHandler` after the `defer` statement (lines
491-567).  The payload is the body decoded into an `interface{}`. -/
def schemaUpsertBody (lib : Library) (s : ServerResource σ)
    (body : Except String (Option Json)) (world : σ) : Run σ :=
  match body with
  | .error err =>
    { world := world,
      events := corsHeaders ++
        [ .Log err, .WriteHeader http.StatusBadRequest,
          .Write (.statusError http.StatusBadRequest (trim err)) ],
      panicked := false }
  | .ok body =>
    match util.Unmarshal (util.decodeInterface lib.json) body with
    | .error err =>
      { world := world,
        events := corsHeaders ++
          [ .Inc .KatlasNumReqErr, .Inc .KatlasNumReqErr4xx, .Log err,
            .WriteHeader http.StatusBadRequest,
            .Write (.statusError http.StatusBadRequest (trim err)) ],
        panicked := false }
    | .ok .null =>
      -- reflect.TypeOf(nil) is nil: the call of Kind panics
      { world := world, events := corsHeaders, panicked := true }
    | .ok (.arr xs) =>
      match lib.DecodeSchemas (.arr xs) with
      | .error err =>
        { world := world,
          events := corsHeaders ++
            [ .Inc .KatlasNumReqErr, .Inc .KatlasNumReqErr4xx, .Log err,
              .WriteHeader http.StatusBadRequest,
              .Write (.statusError http.StatusBadRequest (trim err)) ],
          panicked := false }
      | .ok predicates =>
        match upsertLoop s predicates [] world with
        | (events, .error err, world) =>
          { world := world,
            events := corsHeaders ++ events ++
              [ .Log err, .Inc .KatlasNumReqErr, .Inc .KatlasNumReqErr5xx,
                .WriteHeader http.StatusInternalServerError,
                .Write (.statusError http.StatusInternalServerError (trim err)) ],
            panicked := false }
        | (events, .ok names, world) =>
          { world := world,
            events := corsHeaders ++ events ++
              [ .Inc .KatlasNumReq2xx,
                .Write (.marshal
                  [ ("status", .num http.StatusOK),
                    ("message", .str (sprintStrings names ++ " upsert successfully")) ]) ],
            panicked := false }
    | .ok payload =>
      match lib.DecodeSchema payload with
      | .error err =>
        { world := world,
          events := corsHeaders ++
            [ .Inc .KatlasNumReqErr, .Inc .KatlasNumReqErr4xx, .Log err,
              .WriteHeader http.StatusBadRequest,
              .Write (.statusError http.StatusBadRequest (trim err)) ],
          panicked := false }
      | .ok predicate =>
        match s.MetaSvc.CreateSchema predicate world with
        | (some err, world) =>
          { world := world,
            events := corsHeaders ++
              [ .Call (.CreateSchema predicate), .Inc .KatlasNumReqErr, .Inc .KatlasNumReqErr5xx,
                .Log err, .WriteHeader http.StatusInternalServerError,
                .Write (.statusError http.StatusInternalServerError (trim err)) ],
            panicked := false }
        | (none, world) =>
          { world := world,
            events := corsHeaders ++
              [ .Call (.CreateSchema predicate), .Inc .KatlasNumReq2xx,
                .Write (.marshal
                  [ ("status", .num http.StatusOK),
                    ("message", .str (predicate.Predicate ++ " upsert successfully")) ]) ],
            panicked := false }

/-- The handler `SchemaUpsertHandler` (lines 487-568) for the result of reading
the body: the counter, the `defer` of the cache invalidation, the body. -/
def SchemaUpsertHandler (lib : Library) (s : ServerResource σ)
    (body : Except String (Option Json)) (world : σ) : Run σ :=
  let r := schemaUpsertBody lib s body world
  deferRemoveSchemaCache s { r with events := .Inc .KatlasNumReqCount :: r.events }

/-- The body of `SchemaDropHandler` after the `defer` statement (lines
574-594), for the path variable `predicate`. -/
def schemaDropBody (s : ServerResource σ) (predicate : String) (world : σ) : Run σ :=
  match s.MetaSvc.DropSchema predicate world with
  | (some err, world) =>
    { world := world,
      events := corsHeaders ++
        [ .Call (.DropSchema predicate), .Inc .KatlasNumReqErr, .Inc .KatlasNumReqErr5xx,
          .Log err, .WriteHeader http.StatusInternalServerError,
          .Write (.statusError http.StatusInternalServerError (trim err)) ],
      panicked := false }
  | (none, world) =>
    { world := world,
      events := corsHeaders ++
        [ .Call (.DropSchema predicate),
          .Write (.marshal
            [ ("status", .num http.StatusOK),
              ("message", .str ("schema " ++ predicate ++ " drop successfully")) ]),
          .Inc .KatlasNumReq2xx ],
      panicked := false }

/-- The handler `SchemaDropHandler` (lines 570-595). -/
def SchemaDropHandler (s : ServerResource σ) (predicate : String) (world : σ) : Run σ :=
  let r := schemaDropBody s predicate world
  deferRemoveSchemaCache s { r with events := .Inc .KatlasNumReqCount :: r.events }

/-- The result of `json.Marshal` on a map of JSON values. -/
def Marshal (m : JsonMap) : Except String Body := .ok (.marshal m)

/-- The error text that the count-only compilation of `QSLHandler` tests for. -/
def metadataConnectError : String := "Failed to connect to dgraph to get metadata"

/-- The handler `QSLHandler` (lines 597-672) for the path variable `query`.
The latency observation is deferred after the second compilation, so it ends
the runs that reach the second store execution. -/
def QSLHandler (lib : Library) (s : ServerResource σ) (query : String) (world : σ) : Run σ :=
  let start : List Event := .Inc .KatlasNumReqCount :: corsHeaders
  -- get query for count only
  match s.QSLSvc.CreateDgraphQuery query true world with
  | (.error err, world) =>
    if err = metadataConnectError then
      { world := world,
        events := start ++
          [ .Call (.CreateDgraphQuery query true), .Inc .KatlasNumReqErr,
            .Inc .KatlasNumReqErr5xx,
            .Write (.statusError http.StatusInternalServerError (trim err)) ],
        panicked := false }
    else
      { world := world,
        events := start ++
          [ .Call (.CreateDgraphQuery query true), .Inc .KatlasNumReqErr,
            .Inc .KatlasNumReqErr4xx,
            .Write (.statusError http.StatusBadRequest (trim err)) ],
        panicked := false }
  | (.ok countQuery, world) =>
    match s.QSLSvc.DBclient.ExecuteDgraphQuery countQuery world with
    | (.error err, world) =>
      { world := world,
        events := start ++
          [ .Call (.CreateDgraphQuery query true), .Call (.ExecuteDgraphQuery countQuery),
            .Inc .KatlasNumReqErr, .Inc .KatlasNumReqErr5xx, .Log err, .Log (trim err),
            .Write (.statusError http.StatusInternalServerError (trim err)) ],
        panicked := false }
    | (.ok response, world) =>
      let total := lib.GetTotalCnt response
      -- get query with pagination
      match s.QSLSvc.CreateDgraphQuery query false world with
      | (.error err, world) =>
        { world := world,
          events := start ++
            [ .Call (.CreateDgraphQuery query true), .Call (.ExecuteDgraphQuery countQuery),
              .Call (.CreateDgraphQuery query false), .Log ("dgraph query for " ++ query),
              .Inc .KatlasNumReqErr, .Inc .KatlasNumReqErr4xx,
              .Write (.statusError http.StatusBadRequest (trim err)) ],
          panicked := false }
      | (.ok pageQuery, world) =>
        match s.QSLSvc.DBclient.ExecuteDgraphQuery pageQuery world with
        | (.error err, world) =>
          { world := world,
            events := start ++
              [ .Call (.CreateDgraphQuery query true), .Call (.ExecuteDgraphQuery countQuery),
                .Call (.CreateDgraphQuery query false), .Log ("dgraph query for " ++ query),
                .Call (.ExecuteDgraphQuery pageQuery),
                .Inc .DgraphNumQSLErr, .Inc .KatlasNumReqErr, .Inc .KatlasNumReqErr5xx,
                .Write (.statusError http.StatusInternalServerError (trim err)),
                .Observe .KatlasQueryLatencyHistogram http.StatusInternalServerError ],
            panicked := false }
        | (.ok response, world) =>
          let response := (response.set Count total).set "status" (.num http.StatusOK)
          match Marshal response with
          | .error err =>
            { world := world,
              events := start ++
                [ .Call (.CreateDgraphQuery query true), .Call (.ExecuteDgraphQuery countQuery),
                  .Call (.CreateDgraphQuery query false), .Log ("dgraph query for " ++ query),
                  .Call (.ExecuteDgraphQuery pageQuery), .Log ("response for query " ++ query),
                  .Inc .DgraphNumQSLErr, .Inc .KatlasNumReqErr, .Inc .KatlasNumReqErr5xx,
                  .Write (.statusError http.StatusInternalServerError (trim err)),
                  .Observe .KatlasQueryLatencyHistogram http.StatusInternalServerError ],
              panicked := false }
          | .ok ret =>
            { world := world,
              events := start ++
                [ .Call (.CreateDgraphQuery query true), .Call (.ExecuteDgraphQuery countQuery),
                  .Call (.CreateDgraphQuery query false), .Log ("dgraph query for " ++ query),
                  .Call (.ExecuteDgraphQuery pageQuery), .Log ("response for query " ++ query),
                  .Write ret, .Inc .KatlasNumReq2xx,
                  .Observe .KatlasQueryLatencyHistogram http.StatusOK ],
              panicked := false }

end resources

/-! ## A sample backend -/

namespace sample

/-- A library instance: the concrete JSON decoder, a schema decoder that reads
the string member `predicate` of an object, and a total read from the member
`total` of the count response. -/
def library : resources.Library where
  json := json.codec
  DecodeSchema := json.struct fun j =>
    match json.string (json.field j "predicate") with
    | .error e => .error e
    | .ok name => .ok { Predicate := name, Type_ := "string", Index := false, List_ := false }
  DecodeSchemas := util.decodeSlice (json.struct fun j =>
    match json.string (json.field j "predicate") with
    | .error e => .error e
    | .ok name => .ok { Predicate := name, Type_ := "string", Index := false, List_ := false })
  GetTotalCnt := fun response => json.field (.obj response) "total"

/-- A backend whose state counts the calls made since the last cache
invalidation.  The entity `0x1` exists, the lookup of `boom` fails; the schema
of the predicate `bad` is rejected; the filter `broken` does not compile, the
filter `flaky` compiles for the count and meets the metadata connection error
when compiled for the page, the filter `offline` meets it at once; the count
query of `gone` and the page query of `lost` fail in the store; only pods can
be synced. -/
def server : resources.ServerResource Nat where
  EntitySvc :=
    { GetEntity := fun uid world =>
        (if uid = "0x1" then .ok [("name", .str "p1"), ("objtype", .str "pod")]
          else if uid = "boom" then .error "dgraph is down"
          else .ok [], world + 1),
      SyncEntities := fun meta _ world =>
        (if meta = "pod" then none else some "sync failed", world + 1) }
  MetaSvc :=
    { CreateSchema := fun p world =>
        (if p.Predicate = "bad" then some "predicate \"bad\" rejected" else none, world + 1),
      DropSchema := fun name world =>
        (if name = "bad" then some "predicate \"bad\" in use" else none, world + 1),
      RemoveSchemaCache := fun _ => 0 }
  QSLSvc :=
    { CreateDgraphQuery := fun query countOnly world =>
        (if query = "broken" then .error "invalid filter"
          else if query = "offline" then .error resources.metadataConnectError
          else if query = "flaky" ∧ countOnly = false then
            .error resources.metadataConnectError
          else .ok (query ++ (if countOnly then "#count" else "#page")), world + 1),
      DBclient :=
        { ExecuteDgraphQuery := fun query world =>
            (if query = "pods#page" then
                .ok [("count", .num 2), ("objects", .arr [.str "p1", .str "p2"])]
              else if query = "lost#page" then .error "dgraph is \"down\""
              else if query = "gone#count" then .error "dgraph is \"down\""
              else .ok [("total", .num 7)], world + 1) } }

/-- The batch `[{"predicate": "a"}, {"predicate": "bad"}, {"predicate": "c"}]`. -/
def schemaBatchFailing : Json :=
  .arr [.obj [("predicate", .str "a")], .obj [("predicate", .str "bad")],
    .obj [("predicate", .str "c")]]

/-- The batch `[{"predicate": "a"}, {"predicate": "b"}]`. -/
def schemaBatch : Json :=
  .arr [.obj [("predicate", .str "a")], .obj [("predicate", .str "b")]]

end sample

/-! ## Vocabulary of the handler statements -/

mutual

/-- The numbers that occur in a JSON value, in document order. -/
def Json.numbers : Json → List Int
  | .null => []
  | .bool _ => []
  | .str _ => []
  | .num n => [n]
  | .arr xs => Json.numbersOfElements xs
  | .obj kvs => Json.numbersOfMembers kvs

/-- The numbers that occur in the elements of an array. -/
def Json.numbersOfElements : List Json → List Int
  | [] => []
  | x :: xs => Json.numbers x ++ Json.numbersOfElements xs

/-- The numbers that occur in the members of an object. -/
def Json.numbersOfMembers : List (String × Json) → List Int
  | [] => []
  | (_, x) :: kvs => Json.numbers x ++ Json.numbersOfMembers kvs

end

/-- Whether a JSON value is an object. -/
def Json.isObject : Json → Bool
  | .obj _ => true
  | _ => false

/-- Whether a JSON value is `null`. -/
def Json.isNull : Json → Bool
  | .null => true
  | _ => false

/-- Whether a JSON value is an array. -/
def Json.isArray : Json → Bool
  | .arr _ => true
  | _ => false

namespace resources

/-- The value of the member `status` of a response body. -/
def Body.status : Body → Option Json
  | .statusError status _ => some (.num status)
  | .statusMessage status _ => some (.num status)
  | .marshal m => m.get? "status"

/-- Every body written in a run carries, as its `status`, the HTTP status code
of the response. -/
def StatusConsistent (events : List Event) : Prop :=
  ∀ b ∈ writes events, b.status = some (.num (statusCode events))

/-- The backend state after `CreateSchema` has been called on the predicates of
a list one after the other and none of the calls failed; `none` when one of
them fails. -/
def createAll {σ : Type} (s : ServerResource σ) : List db.Schema → σ → Option σ
  | [], world => some world
  | p :: ps, world =>
    match s.MetaSvc.CreateSchema p world with
    | (none, world) => createAll s ps world
    | (some _, _) => none

end resources

/-! ## Lemmas on maps and on slice decoding -/

namespace util

/-- Reading the key just written gives the value written. -/
theorem Entity.get?_set_self (e : Entity) (k : String) (v : Value) :
    (e.set k v).get? k = some v := by
  induction e with
  | nil => simp [Entity.set, Entity.get?, List.lookup]
  | cons p e ih =>
    obtain ⟨k', v'⟩ := p
    by_cases h : k' = k
    · simp [Entity.set, h, Entity.get?, List.lookup]
    · have hb : (k == k') = false := by
        simpa using fun h' => h h'.symm
      simp only [Entity.set, h, if_false]
      simpa [Entity.get?, List.lookup, hb] using ih

/-- Writing a key leaves the other keys as they were. -/
theorem Entity.get?_set_other (e : Entity) (k k' : String) (v : Value) (h : k' ≠ k) :
    (e.set k v).get? k' = e.get? k' := by
  induction e with
  | nil =>
    have hb : (k' == k) = false := by simpa using h
    simp [Entity.set, Entity.get?, List.lookup, hb]
  | cons p e ih =>
    obtain ⟨k0, v0⟩ := p
    by_cases h0 : k0 = k
    · subst h0
      have hb : (k' == k0) = false := by simpa using h
      simp [Entity.set, Entity.get?, List.lookup, hb]
    · simp only [Entity.set, h0, if_false]
      by_cases h1 : k' = k0
      · subst h1
        simp [Entity.get?, List.lookup]
      · have hb : (k' == k0) = false := by simpa using h1
        simpa [Entity.get?, List.lookup, hb] using ih

/-- Element-wise decoding fails as soon as one element fails. -/
theorem decodeEach_error_of_mem {α : Type} (dec : Json → Except String α) (xs : List Json)
    (h : ∃ x ∈ xs, ∃ e, dec x = .error e) : ∃ e, decodeEach dec xs = .error e := by
  induction xs with
  | nil => simp at h
  | cons x xs ih =>
    cases hx : dec x with
    | error e => exact ⟨e, by simp [decodeEach, hx]⟩
    | ok d =>
      have h' : ∃ y ∈ xs, ∃ e, dec y = .error e := by
        obtain ⟨y, hy, e, he⟩ := h
        rcases List.mem_cons.mp hy with rfl | hy
        · rw [hx] at he; cases he
        · exact ⟨y, hy, e, he⟩
      obtain ⟨e, he⟩ := ih h'
      exact ⟨e, by simp [decodeEach, hx, he]⟩

end util

/-! ## List mode against scalar mode -/

namespace util

/-- C1 (defect of the code): in list mode the namespace case reads the asset
from the pointer to the whole slice, which no case of the type switch of
`getValues` accepts.  For the one-element list holding a namespace annotated
with the asset `a-1`, the entity of the list carries the asset `""`, while
scalar mode on that same element yields the asset `a-1`; the two entities
differ in a derived attribute. -/
theorem namespace_list_mode_loses_asset :
    (∃ e, BuildEntityData json.codec "c1" Namespace
        (some (.arr [sample.namespaceTagged])) true = .ok (.list [e]) ∧
      e.get? Asset = some (.str "")) ∧
    (∃ e, BuildEntityData json.codec "c1" Namespace
        (some sample.namespaceTagged) false = .ok (.entity e) ∧
      e.get? Asset = some (.str "a-1")) :=
  ⟨⟨_, rfl, rfl⟩, ⟨_, rfl, rfl⟩⟩

/-- Decoding an array into a slice fails as soon as one element fails. -/
theorem Unmarshal_slice_error {α : Type} (dec : Json → Except String α) (xs : List Json)
    (h : ∃ x ∈ xs, ∃ e, dec x = .error e) :
    ∃ e, Unmarshal (decodeSlice dec) (some (.arr xs)) = .error e := by
  simpa [Unmarshal, decodeSlice] using decodeEach_error_of_mem dec xs h

/-- Mapping over a decoding result keeps its error. -/
theorem Except.map_error_iff {α β : Type} (f : α → β) (r : Except String α) (e : String) :
    r.map f = .error e ↔ r = .error e := by
  cases r <;> simp [Except.map]

/-- C2: for each of the seven supported kinds, a list body in which some
element, at whatever position, is rejected by the decoder of that kind makes
`BuildEntityData` return an error, which carries no result: no list of the
entities of the well-formed elements is returned. -/
theorem list_with_malformed_element_fails (u : Codec) (clusterName meta : String)
    (xs : List Json) (hkind : meta ∈ supportedKinds)
    (hbad : ∃ x ∈ xs, ∃ e, u.decode meta x = .error e) :
    ∃ e, BuildEntityData u clusterName meta (some (.arr xs)) true = .err e := by
  simp only [supportedKinds, List.mem_cons, List.mem_singleton, List.not_mem_nil, or_false]
    at hkind
  rcases hkind with h | h | h | h | h | h | h <;> subst h
  · have hbad' : ∃ x ∈ xs, ∃ e, u.Namespace x = .error e := by
      simpa [Codec.decode, Except.map_error_iff] using hbad
    obtain ⟨e, he⟩ := Unmarshal_slice_error _ xs hbad'
    exact ⟨e, by simp [BuildEntityData, he]⟩
  · have hbad' : ∃ x ∈ xs, ∃ e, u.Deployment x = .error e := by
      simpa [Codec.decode, Except.map_error_iff, Namespace, Deployment] using hbad
    obtain ⟨e, he⟩ := Unmarshal_slice_error _ xs hbad'
    exact ⟨e, by simp [BuildEntityData, he, Namespace, Deployment]⟩
  · have hbad' : ∃ x ∈ xs, ∃ e, u.Ingress x = .error e := by
      simpa [Codec.decode, Except.map_error_iff, Namespace, Deployment, Ingress] using hbad
    obtain ⟨e, he⟩ := Unmarshal_slice_error _ xs hbad'
    exact ⟨e, by simp [BuildEntityData, he, Namespace, Deployment, Ingress]⟩
  · have hbad' : ∃ x ∈ xs, ∃ e, u.Pod x = .error e := by
      simpa [Codec.decode, Except.map_error_iff, Namespace, Deployment, Ingress, Pod] using hbad
    obtain ⟨e, he⟩ := Unmarshal_slice_error _ xs hbad'
    exact ⟨e, by simp [BuildEntityData, he, Namespace, Deployment, Ingress, Pod]⟩
  · have hbad' : ∃ x ∈ xs, ∃ e, u.ReplicaSet x = .error e := by
      simpa [Codec.decode, Except.map_error_iff, Namespace, Deployment, Ingress, Pod,
        ReplicaSet] using hbad
    obtain ⟨e, he⟩ := Unmarshal_slice_error _ xs hbad'
    exact ⟨e, by simp [BuildEntityData, he, Namespace, Deployment, Ingress, Pod, ReplicaSet]⟩
  · have hbad' : ∃ x ∈ xs, ∃ e, u.Service x = .error e := by
      simpa [Codec.decode, Except.map_error_iff, Namespace, Deployment, Ingress, Pod,
        ReplicaSet, Service] using hbad
    obtain ⟨e, he⟩ := Unmarshal_slice_error _ xs hbad'
    exact ⟨e, by simp [BuildEntityData, he, Namespace, Deployment, Ingress, Pod, ReplicaSet,
      Service]⟩
  · have hbad' : ∃ x ∈ xs, ∃ e, u.StatefulSet x = .error e := by
      simpa [Codec.decode, Except.map_error_iff, Namespace, Deployment, Ingress, Pod,
        ReplicaSet, Service, StatefulSet] using hbad
    obtain ⟨e, he⟩ := Unmarshal_slice_error _ xs hbad'
    exact ⟨e, by simp [BuildEntityData, he, Namespace, Deployment, Ingress, Pod, ReplicaSet,
      Service, StatefulSet]⟩

/-- Witness of C2: the pod list `[p1, "oops"]`, whose second element is not an
object, is rejected as a whole. -/
theorem list_with_malformed_element_fails_witness :
    ∃ e, BuildEntityData json.codec "c1" Pod
      (some (.arr [sample.podOwned, sample.malformed])) true = .err e :=
  list_with_malformed_element_fails json.codec "c1" Pod [sample.podOwned, sample.malformed]
    (by decide) ⟨sample.malformed, by simp, _, rfl⟩

end util

/-! ## Owner derivation -/

namespace util

/-- The owner keys of a pod entity: absent without owner references, taken
from the first reference otherwise. -/
theorem podEntity_owner (u : Codec) (clusterName : String) (d : core_v1.Pod) :
    (d.ObjectMeta.OwnerReferences = [] →
      (podEntity u clusterName d).get? Owner = none ∧
        (podEntity u clusterName d).get? OwnerType = none) ∧
    (∀ o rest, d.ObjectMeta.OwnerReferences = o :: rest →
      (podEntity u clusterName d).get? Owner = some (.str o.Name) ∧
        (podEntity u clusterName d).get? OwnerType = some (.str (u.ToLower o.Kind))) := by
  constructor
  · intro h
    simp [podEntity, h, Entity.get?, List.lookup, Owner, OwnerType, ObjType, Name, Namespace,
      CreationTime, Phase, NodeName, IP, Containers, Volumes, Labels, Cluster, ResourceVersion,
      K8sObj, StartTime]
  · intro o rest h
    constructor
    · simp only [podEntity, h]
      rw [Entity.get?_set_other _ _ _ _ (by decide), Entity.get?_set_self]
    · simp only [podEntity, h]
      rw [Entity.get?_set_self]

/-- C3: a pod payload that decodes is normalized to an entity; with no owner
reference the entity has neither the `owner` nor the `ownerType` key, and with
a first owner reference `o`, whatever references follow it, `owner` is the name
of `o` and `ownerType` is the kind of `o` lower-cased by `strings.ToLower`.
The same holds, element by element and in order, for the entities of a pod
list whose elements all decode. -/
theorem pod_owner_from_first_reference (u : Codec) (clusterName : String) (j : Json)
    (d : core_v1.Pod) (hdec : u.Pod j = .ok d) :
    (∃ e, BuildEntityData u clusterName Pod (some j) false = .ok (.entity e) ∧
      (d.ObjectMeta.OwnerReferences = [] → e.get? Owner = none ∧ e.get? OwnerType = none) ∧
      (∀ o rest, d.ObjectMeta.OwnerReferences = o :: rest →
        e.get? Owner = some (.str o.Name) ∧
          e.get? OwnerType = some (.str (u.ToLower o.Kind)))) ∧
    (∀ xs ds, decodeEach u.Pod xs = .ok ds →
      ∃ l, BuildEntityData u clusterName Pod (some (.arr xs)) true = .ok (.list l) ∧
        List.Forall₂
          (fun (d : core_v1.Pod) (e : Entity) =>
            (d.ObjectMeta.OwnerReferences = [] →
              e.get? Owner = none ∧ e.get? OwnerType = none) ∧
            (∀ o rest, d.ObjectMeta.OwnerReferences = o :: rest →
              e.get? Owner = some (.str o.Name) ∧
                e.get? OwnerType = some (.str (u.ToLower o.Kind))))
          ds l) := by
  constructor
  · exact ⟨podEntity u clusterName d,
      by simp [BuildEntityData, Unmarshal, hdec, Namespace, Deployment, Ingress, Pod],
      podEntity_owner u clusterName d⟩
  · intro xs ds hxs
    refine ⟨ds.map fun d => podEntity u clusterName d,
      by simp [BuildEntityData, Unmarshal, decodeSlice, hxs, Namespace, Deployment, Ingress,
        Pod], ?_⟩
    clear hxs
    induction ds with
    | nil => exact List.Forall₂.nil
    | cons d ds ih => exact List.Forall₂.cons (podEntity_owner u clusterName d) ih

/-- Witness of C3: the pod `p1`, owned first by the replica set `rs1` and then
by the job `j1`, gets `owner = rs1` and `ownerType = replicaset`. -/
theorem pod_owner_from_first_reference_witness :
    ∃ e, BuildEntityData json.codec "c1" Pod (some sample.podOwned) false = .ok (.entity e) ∧
      e.get? Owner = some (.str "rs1") ∧ e.get? OwnerType = some (.str "replicaset") := by
  obtain ⟨⟨e, he, -, h⟩, -⟩ :=
    pod_owner_from_first_reference json.codec "c1" sample.podOwned _ rfl
  exact ⟨e, he, h _ _ rfl⟩

/-- C4 (defect of the code): the replica-set case indexes `OwnerReferences[0]`
without the length test that the pod case makes.  For the replica set `rs1`,
which decodes and has no owner reference, scalar mode and list mode both end in
a run-time panic instead of returning an entity without `owner`. -/
theorem replicaset_without_owner_panics :
    BuildEntityData json.codec "c1" ReplicaSet (some sample.replicaSetOrphan) false = .panic ∧
    BuildEntityData json.codec "c1" ReplicaSet
      (some (.arr [sample.replicaSetOrphan])) true = .panic :=
  ⟨rfl, rfl⟩

/-- C5 as stated fails: the replica set `rs2`, owned by the deployment `web`,
is normalized to an entity that has `owner = web` and no `ownerType` key. -/
theorem replicaset_owner_type_missing :
    ∃ e, BuildEntityData json.codec "c1" ReplicaSet
        (some sample.replicaSetOwned) false = .ok (.entity e) ∧
      e.get? Owner = some (.str "web") ∧ e.get? OwnerType = none :=
  ⟨_, rfl, rfl, rfl⟩

/-- C5, amended: a replica-set payload that decodes with a first owner
reference `o` is normalized to an entity whose `owner` is the name of `o`; the
replica-set case writes no `ownerType` key. -/
theorem replicaset_owner_from_first_reference (u : Codec) (clusterName : String) (j : Json)
    (d : v1beta2.ReplicaSet) (o : metav1.OwnerReference) (rest : List metav1.OwnerReference)
    (hdec : u.ReplicaSet j = .ok d) (hown : d.ObjectMeta.OwnerReferences = o :: rest) :
    ∃ e, BuildEntityData u clusterName ReplicaSet (some j) false = .ok (.entity e) ∧
      e.get? Owner = some (.str o.Name) ∧ e.get? OwnerType = none := by
  obtain ⟨e, he, hO, hT⟩ : ∃ e, replicaSetEntity clusterName d = some e ∧
      e.get? Owner = some (.str o.Name) ∧ e.get? OwnerType = none := by
    simp only [replicaSetEntity, hown]
    refine ⟨_, rfl, ?_, ?_⟩
    · simp [Entity.get?, List.lookup, Owner, ObjType, Name, Namespace, CreationTime,
        NumReplicas, PodSpec]
    · simp [Entity.get?, List.lookup, Owner, OwnerType, ObjType, Name, Namespace, CreationTime,
        NumReplicas, PodSpec, Labels, Cluster, ResourceVersion, K8sObj]
  refine ⟨e, ?_, hO, hT⟩
  simp [BuildEntityData, Unmarshal, hdec, he, Namespace, Deployment, Ingress, Pod, ReplicaSet]

/-- Witness of the amended C5 at the replica set `rs2`. -/
theorem replicaset_owner_from_first_reference_witness :
    ∃ e, BuildEntityData json.codec "c1" ReplicaSet
        (some sample.replicaSetOwned) false = .ok (.entity e) ∧
      e.get? Owner = some (.str "web") ∧ e.get? OwnerType = none :=
  replicaset_owner_from_first_reference json.codec "c1" sample.replicaSetOwned _
    ⟨"Deployment", "web"⟩ [] rfl rfl

end util

/-! ## Application derivation -/

namespace util

/-- Reading a label through `getValues`: the value under the key, or `""`. -/
theorem getValues_GetLabels (o : Obj) (key : String) :
    getValues o key .GetLabels = (o.ObjectMeta.Labels.lookup key).getD "" := by
  cases o <;>
    simp only [getValues, Method.Call, metav1.ObjectMeta.GetLabels, Obj.ObjectMeta,
      List.lookup, Option.getD_none] <;>
    cases List.lookup key _ <;> rfl

/-- The application list in closed form: the value of `app` if it is not
empty, followed by the value of `k8s-app` if it is not empty. -/
theorem createAppNameList_eq (o : Obj) :
    createAppNameList o =
      (if (o.ObjectMeta.Labels.lookup App).getD "" = "" then []
        else [(o.ObjectMeta.Labels.lookup App).getD ""]) ++
      (if (o.ObjectMeta.Labels.lookup K8sApp).getD "" = "" then []
        else [(o.ObjectMeta.Labels.lookup K8sApp).getD ""]) := by
  simp only [createAppNameList, List.foldl, getValues_GetLabels]
  by_cases hA : (o.ObjectMeta.Labels.lookup App).getD "" = "" <;>
    by_cases hB : (o.ObjectMeta.Labels.lookup K8sApp).getD "" = "" <;>
    simp [hA, hB]

/-- A decoding result mapped into `Obj` is a success exactly when the decoding is. -/
theorem Except.map_ok_iff {α β : Type} (f : α → β) (r : Except String α) (b : β) :
    r.map f = .ok b ↔ ∃ a, r = .ok a ∧ f a = b := by
  cases r <;> simp [Except.map]

/-- The `application` key of a deployment entity: absent for an empty
application list, the list otherwise. -/
theorem deploymentEntity_application (clusterName : String) (d : v1beta2.Deployment) :
    (deploymentEntity clusterName d).get? Application =
      if createAppNameList (.Deployment d) = [] then none
      else some (.strs (createAppNameList (.Deployment d))) := by
  unfold deploymentEntity
  by_cases h : createAppNameList (.Deployment d) = []
  · simp [h, Entity.get?, List.lookup, Application, ObjType, Cluster, Name, CreationTime,
      Namespace, NumReplicas, AvailableReplicas, Strategy, ResourceVersion, Labels, K8sObj]
  · have hpos : (createAppNameList (.Deployment d)).length > 0 := List.length_pos.mpr h
    simp only [hpos, if_true, h, if_false]
    exact Entity.get?_set_self _ _ _

/-- The `application` key of an ingress entity. -/
theorem ingressEntity_application (clusterName : String) (d : ext_v1beta1.Ingress) :
    (ingressEntity clusterName d).get? Application =
      if createAppNameList (.Ingress d) = [] then none
      else some (.strs (createAppNameList (.Ingress d))) := by
  unfold ingressEntity
  by_cases h : createAppNameList (.Ingress d) = []
  · simp [h, Entity.get?, List.lookup, Application, ObjType, Cluster, Name, CreationTime,
      Namespace, DefaultBackend, TSL, Rules, ResourceVersion, Labels, K8sObj]
  · have hpos : (createAppNameList (.Ingress d)).length > 0 := List.length_pos.mpr h
    simp only [hpos, if_true, h, if_false]
    exact Entity.get?_set_self _ _ _

/-- The `application` key of a service entity. -/
theorem serviceEntity_application (clusterName : String) (d : core_v1.Service) :
    (serviceEntity clusterName d).get? Application =
      if createAppNameList (.Service d) = [] then none
      else some (.strs (createAppNameList (.Service d))) := by
  unfold serviceEntity
  by_cases h : createAppNameList (.Service d) = []
  · simp [h, Entity.get?, List.lookup, Application, ObjType, Cluster, Name, CreationTime,
      Namespace, Selector, ClusterIP, ServiceType, Ports, ResourceVersion, Labels, K8sObj]
  · have hpos : (createAppNameList (.Service d)).length > 0 := List.length_pos.mpr h
    simp only [hpos, if_true, h, if_false]
    exact Entity.get?_set_self _ _ _

/-- Scalar mode of the three kinds that derive `application`: the payload that
decodes to the object `o` is normalized to an entity whose `application` key is
absent for an empty application list of `o` and holds that list otherwise. -/
theorem scalar_application (u : Codec) (clusterName meta : String) (j : Json) (o : Obj)
    (hkind : meta ∈ [Deployment, Ingress, Service]) (hdec : u.decode meta j = .ok o) :
    ∃ e, BuildEntityData u clusterName meta (some j) false = .ok (.entity e) ∧
      e.get? Application =
        if createAppNameList o = [] then none else some (.strs (createAppNameList o)) := by
  simp only [List.mem_cons, List.mem_singleton, List.not_mem_nil, or_false] at hkind
  rcases hkind with h | h | h <;> subst h
  · obtain ⟨d, hd, rfl⟩ : ∃ d, u.Deployment j = .ok d ∧ Obj.Deployment d = o := by
      simpa [Codec.decode, Except.map_ok_iff, Namespace, Deployment] using hdec
    exact ⟨deploymentEntity clusterName d,
      by simp [BuildEntityData, Unmarshal, hd, Namespace, Deployment],
      deploymentEntity_application clusterName d⟩
  · obtain ⟨d, hd, rfl⟩ : ∃ d, u.Ingress j = .ok d ∧ Obj.Ingress d = o := by
      simpa [Codec.decode, Except.map_ok_iff, Namespace, Deployment, Ingress] using hdec
    exact ⟨ingressEntity clusterName d,
      by simp [BuildEntityData, Unmarshal, hd, Namespace, Deployment, Ingress],
      ingressEntity_application clusterName d⟩
  · obtain ⟨d, hd, rfl⟩ : ∃ d, u.Service j = .ok d ∧ Obj.Service d = o := by
      simpa [Codec.decode, Except.map_ok_iff, Namespace, Deployment, Ingress, Pod, ReplicaSet,
        Service] using hdec
    exact ⟨serviceEntity clusterName d,
      by simp [BuildEntityData, Unmarshal, hd, Namespace, Deployment, Ingress, Pod, ReplicaSet,
        Service],
      serviceEntity_application clusterName d⟩

/-- C6 as stated fails: for the deployment whose labels `app` and `k8s-app`
both carry `shop`, the application list is `[shop, shop]`, the value twice; and
for the deployment with `app = ""` and `k8s-app = cart` the application list is
`[cart]`, which does not contain the value of `app`. -/
theorem application_list_not_deduplicated :
    (∃ e, BuildEntityData json.codec "c1" Deployment
        (some sample.deploymentSameApp) false = .ok (.entity e) ∧
      e.get? Application = some (.strs ["shop", "shop"])) ∧
    (∃ e, BuildEntityData json.codec "c1" Deployment
        (some sample.deploymentEmptyApp) false = .ok (.entity e) ∧
      e.get? Application = some (.strs ["cart"])) :=
  ⟨⟨_, rfl, rfl⟩, ⟨_, rfl, rfl⟩⟩

/-- C6, amended: for a deployment, ingress or service whose labels map `app` to
the value `a` and `k8s-app` to the value `b`, the payload is normalized to an
entity; when `a` and `b` are both non-empty its application list is exactly
`[a, b]`: both values, in that order, and twice the same value when `a = b`.
A label whose value is the empty string contributes nothing: the list is `[b]`
when only `a` is empty, `[a]` when only `b` is empty, and the `application` key
is absent when both are empty. -/
theorem application_list_of_both_labels (u : Codec) (clusterName meta : String) (j : Json)
    (o : Obj) (a b : String) (hkind : meta ∈ [Deployment, Ingress, Service])
    (hdec : u.decode meta j = .ok o)
    (hA : o.ObjectMeta.Labels.lookup App = some a)
    (hB : o.ObjectMeta.Labels.lookup K8sApp = some b) :
    ∃ e, BuildEntityData u clusterName meta (some j) false = .ok (.entity e) ∧
      (a ≠ "" → b ≠ "" → e.get? Application = some (.strs [a, b])) ∧
      (a = "" → b ≠ "" → e.get? Application = some (.strs [b])) ∧
      (a ≠ "" → b = "" → e.get? Application = some (.strs [a])) ∧
      (a = "" → b = "" → e.get? Application = none) := by
  obtain ⟨e, he, happ⟩ := scalar_application u clusterName meta j o hkind hdec
  refine ⟨e, he, ?_, ?_, ?_, ?_⟩ <;> intro ha hb <;> rw [happ, createAppNameList_eq] <;>
    simp [hA, hB, ha, hb]

/-- Witness of the amended C6: the deployment with `app = shop` and
`k8s-app = cart` has the application list `[shop, cart]`. -/
theorem application_list_of_both_labels_witness :
    ∃ e, BuildEntityData json.codec "c1" Deployment
        (some sample.deploymentTwoApps) false = .ok (.entity e) ∧
      e.get? Application = some (.strs ["shop", "cart"]) := by
  obtain ⟨e, he, h, -⟩ :=
    application_list_of_both_labels json.codec "c1" Deployment sample.deploymentTwoApps _
      "shop" "cart" (by decide) rfl rfl rfl
  exact ⟨e, he, h (by decide) (by decide)⟩

/-- A namespace entity has no `application` key. -/
theorem namespaceEntity_application (clusterName : String) (d : core_v1.Namespace)
    (asset : String) : (namespaceEntity clusterName d asset).get? Application = none := by
  simp [namespaceEntity, Entity.get?, List.lookup, Application, ObjType, Name, CreationTime,
    Cluster, ResourceVersion, K8sObj, Labels, Asset]

/-- A pod entity has no `application` key. -/
theorem podEntity_application (u : Codec) (clusterName : String) (d : core_v1.Pod) :
    (podEntity u clusterName d).get? Application = none := by
  unfold podEntity
  cases d.ObjectMeta.OwnerReferences with
  | nil =>
    simp [Entity.get?, List.lookup, Application, ObjType, Name, Namespace, CreationTime, Phase,
      NodeName, IP, Containers, Volumes, Labels, Cluster, ResourceVersion, K8sObj, StartTime]
  | cons o rest =>
    simp only []
    rw [Entity.get?_set_other _ _ _ _ (by decide), Entity.get?_set_other _ _ _ _ (by decide)]
    simp [Entity.get?, List.lookup, Application, ObjType, Name, Namespace, CreationTime, Phase,
      NodeName, IP, Containers, Volumes, Labels, Cluster, ResourceVersion, K8sObj, StartTime]

/-- A replica-set entity has no `application` key. -/
theorem replicaSetEntity_application (clusterName : String) (d : v1beta2.ReplicaSet)
    (e : Entity) (h : replicaSetEntity clusterName d = some e) :
    e.get? Application = none := by
  unfold replicaSetEntity at h
  cases hown : d.ObjectMeta.OwnerReferences with
  | nil => simp [hown] at h
  | cons o rest =>
    simp only [hown, Option.some.injEq] at h
    subst h
    simp [Entity.get?, List.lookup, Application, ObjType, Name, Namespace, CreationTime,
      NumReplicas, PodSpec, Owner, Labels, Cluster, ResourceVersion, K8sObj]

/-- A stateful-set entity has no `application` key. -/
theorem statefulSetEntity_application (clusterName : String) (d : appsv1.StatefulSet) :
    (statefulSetEntity clusterName d).get? Application = none := by
  simp [statefulSetEntity, Entity.get?, List.lookup, Application, ObjType, Name, Namespace,
    CreationTime, NumReplicas, Labels, Cluster, ResourceVersion, K8sObj]

/-- Scalar mode of the four kinds that do not derive `application`: whatever
the body, an entity that is returned has no `application` key. -/
theorem scalar_no_application (u : Codec) (clusterName meta : String) (body : Option Json)
    (e : Entity) (hkind : meta ∈ [Namespace, Pod, ReplicaSet, StatefulSet])
    (h : BuildEntityData u clusterName meta body false = .ok (.entity e)) :
    e.get? Application = none := by
  simp only [List.mem_cons, List.mem_singleton, List.not_mem_nil, or_false] at hkind
  rcases hkind with hk | hk | hk | hk <;> subst hk
  · cases hd : Unmarshal u.Namespace body with
    | error err => simp [BuildEntityData, hd] at h
    | ok d =>
      simp only [BuildEntityData, hd, if_true, Bool.false_eq_true, if_false, Outcome.ok.injEq,
        Result.entity.injEq] at h
      subst h
      exact namespaceEntity_application _ _ _
  · cases hd : Unmarshal u.Pod body with
    | error err => simp [BuildEntityData, hd, Namespace, Deployment, Ingress, Pod] at h
    | ok d =>
      have h' : podEntity u clusterName d = e := by
        simpa [BuildEntityData, hd, Namespace, Deployment, Ingress, Pod] using h
      subst h'
      exact podEntity_application _ _ _
  · cases hd : Unmarshal u.ReplicaSet body with
    | error err =>
      simp [BuildEntityData, hd, Namespace, Deployment, Ingress, Pod, ReplicaSet] at h
    | ok d =>
      cases hr : replicaSetEntity clusterName d with
      | none =>
        simp [BuildEntityData, hd, hr, Namespace, Deployment, Ingress, Pod, ReplicaSet] at h
      | some e' =>
        have h' : e' = e := by
          simpa [BuildEntityData, hd, hr, Namespace, Deployment, Ingress, Pod, ReplicaSet]
            using h
        subst h'
        exact replicaSetEntity_application _ _ _ hr
  · cases hd : Unmarshal u.StatefulSet body with
    | error err =>
      simp [BuildEntityData, hd, Namespace, Deployment, Ingress, Pod, ReplicaSet, Service,
        StatefulSet] at h
    | ok d =>
      have h' : statefulSetEntity clusterName d = e := by
        simpa [BuildEntityData, hd, Namespace, Deployment, Ingress, Pod, ReplicaSet, Service,
          StatefulSet] using h
      subst h'
      exact statefulSetEntity_application _ _

/-- Scalar mode on a payload that decodes: every supported kind returns an
entity, except that the replica-set case panics on an empty list of owner
references. -/
theorem scalar_returns (u : Codec) (clusterName meta : String) (j : Json) (o : Obj)
    (hkind : meta ∈ supportedKinds) (hdec : u.decode meta j = .ok o) :
    (meta = ReplicaSet ∧ o.ObjectMeta.OwnerReferences = [] ∧
        BuildEntityData u clusterName meta (some j) false = .panic) ∨
      ∃ e, BuildEntityData u clusterName meta (some j) false = .ok (.entity e) := by
  simp only [supportedKinds, List.mem_cons, List.mem_singleton, List.not_mem_nil, or_false]
    at hkind
  rcases hkind with h | h | h | h | h | h | h <;> subst h
  · obtain ⟨d, hd, rfl⟩ : ∃ d, u.Namespace j = .ok d ∧ Obj.Namespace d = o := by
      simpa [Codec.decode, Except.map_ok_iff] using hdec
    exact Or.inr ⟨namespaceEntity clusterName d
      (getValues (.Namespace d) AssetID .GetAnnotations),
      by simp [BuildEntityData, Unmarshal, hd]⟩
  · obtain ⟨e, he, -⟩ := scalar_application u clusterName Deployment j o (by simp) hdec
    exact Or.inr ⟨e, he⟩
  · obtain ⟨e, he, -⟩ := scalar_application u clusterName Ingress j o (by simp) hdec
    exact Or.inr ⟨e, he⟩
  · obtain ⟨d, hd, rfl⟩ : ∃ d, u.Pod j = .ok d ∧ Obj.Pod d = o := by
      simpa [Codec.decode, Except.map_ok_iff, Namespace, Deployment, Ingress, Pod] using hdec
    exact Or.inr ⟨podEntity u clusterName d,
      by simp [BuildEntityData, Unmarshal, hd, Namespace, Deployment, Ingress, Pod]⟩
  · obtain ⟨d, hd, rfl⟩ : ∃ d, u.ReplicaSet j = .ok d ∧ Obj.ReplicaSet d = o := by
      simpa [Codec.decode, Except.map_ok_iff, Namespace, Deployment, Ingress, Pod, ReplicaSet]
        using hdec
    cases hown : d.ObjectMeta.OwnerReferences with
    | nil =>
      refine Or.inl ⟨rfl, hown, ?_⟩
      simp [BuildEntityData, Unmarshal, hd, replicaSetEntity, hown, Namespace, Deployment,
        Ingress, Pod, ReplicaSet]
    | cons r rest =>
      obtain ⟨e, he⟩ : ∃ e, replicaSetEntity clusterName d = some e := by
        simp [replicaSetEntity, hown]
      exact Or.inr ⟨e, by simp [BuildEntityData, Unmarshal, hd, he, Namespace, Deployment,
        Ingress, Pod, ReplicaSet]⟩
  · obtain ⟨e, he, -⟩ := scalar_application u clusterName Service j o (by simp) hdec
    exact Or.inr ⟨e, he⟩
  · obtain ⟨d, hd, rfl⟩ : ∃ d, u.StatefulSet j = .ok d ∧ Obj.StatefulSet d = o := by
      simpa [Codec.decode, Except.map_ok_iff, Namespace, Deployment, Ingress, Pod, ReplicaSet,
        Service, StatefulSet] using hdec
    exact Or.inr ⟨statefulSetEntity clusterName d,
      by simp [BuildEntityData, Unmarshal, hd, Namespace, Deployment, Ingress, Pod, ReplicaSet,
        Service, StatefulSet]⟩

/-- C7: for each of the seven supported kinds, a payload that decodes to an
object whose labels have neither the key `app` nor the key `k8s-app` (an object
without labels included) is normalized to an entity without the `application`
key; the one payload for which no entity is returned is a replica set without
owner references, on which the call panics. -/
theorem no_app_labels_no_application (u : Codec) (clusterName meta : String) (j : Json)
    (o : Obj) (hkind : meta ∈ supportedKinds) (hdec : u.decode meta j = .ok o)
    (hA : o.ObjectMeta.Labels.lookup App = none)
    (hB : o.ObjectMeta.Labels.lookup K8sApp = none) :
    (meta = ReplicaSet ∧ o.ObjectMeta.OwnerReferences = [] ∧
        BuildEntityData u clusterName meta (some j) false = .panic) ∨
      ∃ e, BuildEntityData u clusterName meta (some j) false = .ok (.entity e) ∧
        e.get? Application = none := by
  rcases scalar_returns u clusterName meta j o hkind hdec with hp | ⟨e, he⟩
  · exact Or.inl hp
  · refine Or.inr ⟨e, he, ?_⟩
    by_cases hderiv : meta ∈ [Deployment, Ingress, Service]
    · obtain ⟨e', he', happ⟩ := scalar_application u clusterName meta j o hderiv hdec
      rw [he] at he'
      cases he'
      rw [happ, createAppNameList_eq]
      simp [hA, hB]
    · have hrest : meta ∈ [Namespace, Pod, ReplicaSet, StatefulSet] := by
        simp only [supportedKinds, List.mem_cons, List.mem_singleton, List.not_mem_nil,
          or_false] at hkind hderiv ⊢
        tauto
      exact scalar_no_application u clusterName meta (some j) e hrest he

/-- Witness of C7: the service `db`, labelled `tier = backend` only, is
normalized to an entity without the `application` key. -/
theorem no_app_labels_no_application_witness :
    ∃ e, BuildEntityData json.codec "c1" Service (some sample.servicePlain) false =
        .ok (.entity e) ∧ e.get? Application = none := by
  rcases no_app_labels_no_application json.codec "c1" Service sample.servicePlain _
    (by decide) rfl rfl rfl with h | h
  · exact absurd h.1 (by decide)
  · exact h

/-- C8 as stated fails: the pod `p2` with the labels `{"app": "checkout"}` is
normalized to an entity without the `application` key. -/
theorem pod_has_no_application :
    ∃ e, BuildEntityData json.codec "c1" Pod (some sample.podPlain) false = .ok (.entity e) ∧
      e.get? Application = none :=
  ⟨_, rfl, rfl⟩

/-- C8, amended: for a deployment, ingress or service whose labels map `app` to
a non-empty value `v`, the normalized entity has the `application` attribute
and its list contains `v`; for a namespace, pod, replica set or stateful set
the entity that is returned has no `application` key, whatever its labels. -/
theorem application_from_app_label (u : Codec) (clusterName meta : String) (j : Json) :
    (∀ o v, meta ∈ [Deployment, Ingress, Service] → u.decode meta j = .ok o →
        o.ObjectMeta.Labels.lookup App = some v → v ≠ "" →
        ∃ e l, BuildEntityData u clusterName meta (some j) false = .ok (.entity e) ∧
          e.get? Application = some (.strs l) ∧ v ∈ l) ∧
    (∀ e, meta ∈ [Namespace, Pod, ReplicaSet, StatefulSet] →
        BuildEntityData u clusterName meta (some j) false = .ok (.entity e) →
        e.get? Application = none) := by
  constructor
  · intro o v hkind hdec hA hv
    obtain ⟨e, he, happ⟩ := scalar_application u clusterName meta j o hkind hdec
    refine ⟨e, createAppNameList o, he, ?_, ?_⟩
    · rw [happ, createAppNameList_eq]
      simp [hA, hv]
    · rw [createAppNameList_eq]
      simp [hA, hv]
  · intro e hkind he
    exact scalar_no_application u clusterName meta (some j) e hkind he

/-- Witness of the amended C8: the deployment with `app = shop` has `shop` in
its application list, and the entity of the pod `p2` has no `application`. -/
theorem application_from_app_label_witness :
    (∃ e l, BuildEntityData json.codec "c1" Deployment
        (some sample.deploymentTwoApps) false = .ok (.entity e) ∧
      e.get? Application = some (.strs l) ∧ "shop" ∈ l) ∧
    (∃ e, BuildEntityData json.codec "c1" Pod (some sample.podPlain) false = .ok (.entity e) ∧
      e.get? Application = none) :=
  ⟨(application_from_app_label json.codec "c1" Deployment sample.deploymentTwoApps).1 _ "shop"
      (by decide) rfl rfl (by decide),
    ⟨_, rfl,
      (application_from_app_label json.codec "c1" Pod sample.podPlain).2 _ (by decide) rfl⟩⟩

end util

/-! ## Asset extraction -/

namespace util

/-- C9 as stated fails: the namespace `ns2`, which has no annotations, is
normalized in scalar mode to an entity that has the `asset` key, with the empty
string as its value. -/
theorem namespace_asset_key_always_present :
    ∃ e, BuildEntityData json.codec "c1" Namespace
        (some sample.namespacePlain) false = .ok (.entity e) ∧
      e.get? Asset = some (.str "") :=
  ⟨_, rfl, rfl⟩

/-- C9, amended: a namespace payload that decodes is normalized in scalar mode
to an entity that always has the `asset` key; its value is the value of the
asset annotation when the annotations contain that key, and the empty string
when they do not. -/
theorem namespace_asset_from_annotation (u : Codec) (clusterName : String) (j : Json)
    (d : core_v1.Namespace) (hdec : u.Namespace j = .ok d) :
    ∃ e, BuildEntityData u clusterName Namespace (some j) false = .ok (.entity e) ∧
      (∀ v, d.ObjectMeta.Annotations.lookup AssetID = some v → e.get? Asset = some (.str v)) ∧
      (d.ObjectMeta.Annotations.lookup AssetID = none → e.get? Asset = some (.str "")) := by
  refine ⟨namespaceEntity clusterName d (getValues (.Namespace d) AssetID .GetAnnotations),
    by simp [BuildEntityData, Unmarshal, hdec], ?_, ?_⟩
  · intro v hv
    simp [namespaceEntity, getValues, Method.Call, metav1.ObjectMeta.GetAnnotations, hv,
      Entity.get?, List.lookup, Asset, ObjType, Name, CreationTime, Cluster, ResourceVersion,
      K8sObj, Labels]
  · intro hv
    simp [namespaceEntity, getValues, Method.Call, metav1.ObjectMeta.GetAnnotations, hv,
      Entity.get?, List.lookup, Asset, ObjType, Name, CreationTime, Cluster, ResourceVersion,
      K8sObj, Labels]

/-- Witness of the amended C9: the namespace `ns1`, annotated with the asset
`a-1`, gets `asset = a-1`. -/
theorem namespace_asset_from_annotation_witness :
    ∃ e, BuildEntityData json.codec "c1" Namespace
        (some sample.namespaceTagged) false = .ok (.entity e) ∧
      e.get? Asset = some (.str "a-1") := by
  obtain ⟨e, he, h, -⟩ :=
    namespace_asset_from_annotation json.codec "c1" sample.namespaceTagged _ rfl
  exact ⟨e, he, h "a-1" rfl⟩

end util

/-! ## The cluster name reaches the entity through the `cluster` key only -/

namespace util

/-- Writing the same value under a key other than `cluster` keeps agreement. -/
theorem AgreeModuloCluster.set {c1 c2 : String} {e1 e2 : Entity}
    (h : AgreeModuloCluster c1 c2 e1 e2) (k : String) (v : Value) (hk : k ≠ Cluster) :
    AgreeModuloCluster c1 c2 (e1.set k v) (e2.set k v) := by
  obtain ⟨h1, h2, h3⟩ := h
  refine ⟨?_, ?_, ?_⟩
  · rw [Entity.get?_set_other _ _ _ _ (Ne.symm hk)]; exact h1
  · rw [Entity.get?_set_other _ _ _ _ (Ne.symm hk)]; exact h2
  · intro k' hk'
    by_cases hkk : k' = k
    · subst hkk
      rw [Entity.get?_set_self, Entity.get?_set_self]
    · rw [Entity.get?_set_other _ _ _ _ hkk, Entity.get?_set_other _ _ _ _ hkk]
      exact h3 k' hk'

/-- Agreement of the entities of a list, element by element. -/
theorem forall₂_map_agree {α : Type} (c1 c2 : String) (f : String → α → Entity)
    (h : ∀ d, AgreeModuloCluster c1 c2 (f c1 d) (f c2 d)) (data : List α) :
    List.Forall₂ (AgreeModuloCluster c1 c2) (data.map (f c1)) (data.map (f c2)) := by
  induction data with
  | nil => exact List.Forall₂.nil
  | cons d ds ih => exact List.Forall₂.cons (h d) ih

/-- The namespace literal under two cluster names. -/
theorem namespaceEntity_agree (c1 c2 : String) (d : core_v1.Namespace) (asset : String) :
    AgreeModuloCluster c1 c2 (namespaceEntity c1 d asset) (namespaceEntity c2 d asset) := by
  refine ⟨?_, ?_, ?_⟩
  · simp [namespaceEntity, Entity.get?, List.lookup, Cluster, ObjType, Name, CreationTime]
  · simp [namespaceEntity, Entity.get?, List.lookup, Cluster, ObjType, Name, CreationTime]
  · intro k hk
    have hb : (k == "cluster") = false := by simpa [Cluster] using hk
    simp [namespaceEntity, Entity.get?, List.lookup, Cluster, hb]

/-- The deployment entity under two cluster names. -/
theorem deploymentEntity_agree (c1 c2 : String) (d : v1beta2.Deployment) :
    AgreeModuloCluster c1 c2 (deploymentEntity c1 d) (deploymentEntity c2 d) := by
  have hlit : AgreeModuloCluster c1 c2
      [ (ObjType, .str Deployment), (Cluster, .str c1), (Name, .str d.ObjectMeta.Name),
        (CreationTime, .k8s d.ObjectMeta.CreationTimestamp),
        (Namespace, .str d.ObjectMeta.Namespace), (NumReplicas, .k8s d.Spec.Replicas),
        (AvailableReplicas, .k8s d.Status.AvailableReplicas),
        (Strategy, .k8s d.Spec.Strategy.Type_),
        (ResourceVersion, .str d.ObjectMeta.ResourceVersion),
        (Labels, .strMap d.ObjectMeta.GetLabels), (K8sObj, .str K8sObj) ]
      [ (ObjType, .str Deployment), (Cluster, .str c2), (Name, .str d.ObjectMeta.Name),
        (CreationTime, .k8s d.ObjectMeta.CreationTimestamp),
        (Namespace, .str d.ObjectMeta.Namespace), (NumReplicas, .k8s d.Spec.Replicas),
        (AvailableReplicas, .k8s d.Status.AvailableReplicas),
        (Strategy, .k8s d.Spec.Strategy.Type_),
        (ResourceVersion, .str d.ObjectMeta.ResourceVersion),
        (Labels, .strMap d.ObjectMeta.GetLabels), (K8sObj, .str K8sObj) ] := by
    refine ⟨?_, ?_, ?_⟩
    · simp [Entity.get?, List.lookup, Cluster, ObjType]
    · simp [Entity.get?, List.lookup, Cluster, ObjType]
    · intro k hk
      have hb : (k == "cluster") = false := by simpa [Cluster] using hk
      simp [Entity.get?, List.lookup, Cluster, hb]
  unfold deploymentEntity
  by_cases h : (createAppNameList (.Deployment d)).length > 0
  · simp only [h, if_true]
    exact hlit.set _ _ (by decide)
  · simp only [h, if_false]
    exact hlit

/-- The ingress entity under two cluster names. -/
theorem ingressEntity_agree (c1 c2 : String) (d : ext_v1beta1.Ingress) :
    AgreeModuloCluster c1 c2 (ingressEntity c1 d) (ingressEntity c2 d) := by
  have hlit : AgreeModuloCluster c1 c2
      [ (ObjType, .str Ingress), (Cluster, .str c1), (Name, .str d.ObjectMeta.Name),
        (Namespace, .str d.ObjectMeta.Namespace),
        (CreationTime, .k8s d.ObjectMeta.CreationTimestamp),
        (DefaultBackend, .k8s d.Spec.Backend), (TSL, .k8s d.Spec.TLS),
        (Rules, .k8s d.Spec.Rules), (ResourceVersion, .str d.ObjectMeta.ResourceVersion),
        (Labels, .strMap d.ObjectMeta.GetLabels), (K8sObj, .str K8sObj) ]
      [ (ObjType, .str Ingress), (Cluster, .str c2), (Name, .str d.ObjectMeta.Name),
        (Namespace, .str d.ObjectMeta.Namespace),
        (CreationTime, .k8s d.ObjectMeta.CreationTimestamp),
        (DefaultBackend, .k8s d.Spec.Backend), (TSL, .k8s d.Spec.TLS),
        (Rules, .k8s d.Spec.Rules), (ResourceVersion, .str d.ObjectMeta.ResourceVersion),
        (Labels, .strMap d.ObjectMeta.GetLabels), (K8sObj, .str K8sObj) ] := by
    refine ⟨?_, ?_, ?_⟩
    · simp [Entity.get?, List.lookup, Cluster, ObjType]
    · simp [Entity.get?, List.lookup, Cluster, ObjType]
    · intro k hk
      have hb : (k == "cluster") = false := by simpa [Cluster] using hk
      simp [Entity.get?, List.lookup, Cluster, hb]
  unfold ingressEntity
  by_cases h : (createAppNameList (.Ingress d)).length > 0
  · simp only [h, if_true]
    exact hlit.set _ _ (by decide)
  · simp only [h, if_false]
    exact hlit

/-- The pod entity under two cluster names. -/
theorem podEntity_agree (u : Codec) (c1 c2 : String) (d : core_v1.Pod) :
    AgreeModuloCluster c1 c2 (podEntity u c1 d) (podEntity u c2 d) := by
  have hlit : AgreeModuloCluster c1 c2
      [ (ObjType, .str Pod), (Name, .str d.ObjectMeta.Name),
        (Namespace, .str d.ObjectMeta.Namespace),
        (CreationTime, .k8s d.ObjectMeta.CreationTimestamp), (Phase, .k8s d.Status.Phase),
        (NodeName, .k8s d.Spec.NodeName), (IP, .k8s d.Status.PodIP),
        (Containers, .k8s d.Spec.Containers), (Volumes, .k8s d.Spec.Volumes),
        (Labels, .strMap d.ObjectMeta.GetLabels), (Cluster, .str c1),
        (ResourceVersion, .str d.ObjectMeta.ResourceVersion), (K8sObj, .str K8sObj),
        (StartTime, .k8s d.Status.StartTime) ]
      [ (ObjType, .str Pod), (Name, .str d.ObjectMeta.Name),
        (Namespace, .str d.ObjectMeta.Namespace),
        (CreationTime, .k8s d.ObjectMeta.CreationTimestamp), (Phase, .k8s d.Status.Phase),
        (NodeName, .k8s d.Spec.NodeName), (IP, .k8s d.Status.PodIP),
        (Containers, .k8s d.Spec.Containers), (Volumes, .k8s d.Spec.Volumes),
        (Labels, .strMap d.ObjectMeta.GetLabels), (Cluster, .str c2),
        (ResourceVersion, .str d.ObjectMeta.ResourceVersion), (K8sObj, .str K8sObj),
        (StartTime, .k8s d.Status.StartTime) ] := by
    refine ⟨?_, ?_, ?_⟩
    · simp [Entity.get?, List.lookup, Cluster, ObjType, Name, Namespace, CreationTime, Phase,
        NodeName, IP, Containers, Volumes, Labels]
    · simp [Entity.get?, List.lookup, Cluster, ObjType, Name, Namespace, CreationTime, Phase,
        NodeName, IP, Containers, Volumes, Labels]
    · intro k hk
      have hb : (k == "cluster") = false := by simpa [Cluster] using hk
      simp [Entity.get?, List.lookup, Cluster, hb]
  unfold podEntity
  cases d.ObjectMeta.OwnerReferences with
  | nil => exact hlit
  | cons o rest => exact (hlit.set _ _ (by decide)).set _ _ (by decide)

/-- The service entity under two cluster names. -/
theorem serviceEntity_agree (c1 c2 : String) (d : core_v1.Service) :
    AgreeModuloCluster c1 c2 (serviceEntity c1 d) (serviceEntity c2 d) := by
  have hlit : AgreeModuloCluster c1 c2
      [ (ObjType, .str Service), (Name, .str d.ObjectMeta.Name),
        (Namespace, .str d.ObjectMeta.Namespace),
        (CreationTime, .k8s d.ObjectMeta.CreationTimestamp),
        (Selector, .k8s d.Spec.Selector), (Labels, .strMap d.ObjectMeta.GetLabels),
        (ClusterIP, .k8s d.Spec.ClusterIP), (ServiceType, .k8s d.Spec.Type_),
        (Ports, .k8s d.Spec.Ports), (Cluster, .str c1),
        (ResourceVersion, .str d.ObjectMeta.ResourceVersion), (K8sObj, .str K8sObj) ]
      [ (ObjType, .str Service), (Name, .str d.ObjectMeta.Name),
        (Namespace, .str d.ObjectMeta.Namespace),
        (CreationTime, .k8s d.ObjectMeta.CreationTimestamp),
        (Selector, .k8s d.Spec.Selector), (Labels, .strMap d.ObjectMeta.GetLabels),
        (ClusterIP, .k8s d.Spec.ClusterIP), (ServiceType, .k8s d.Spec.Type_),
        (Ports, .k8s d.Spec.Ports), (Cluster, .str c2),
        (ResourceVersion, .str d.ObjectMeta.ResourceVersion), (K8sObj, .str K8sObj) ] := by
    refine ⟨?_, ?_, ?_⟩
    · simp [Entity.get?, List.lookup, Cluster, ObjType, Name, Namespace, CreationTime, Selector,
        Labels, ClusterIP, ServiceType, Ports]
    · simp [Entity.get?, List.lookup, Cluster, ObjType, Name, Namespace, CreationTime, Selector,
        Labels, ClusterIP, ServiceType, Ports]
    · intro k hk
      have hb : (k == "cluster") = false := by simpa [Cluster] using hk
      simp [Entity.get?, List.lookup, Cluster, hb]
  unfold serviceEntity
  by_cases h : (createAppNameList (.Service d)).length > 0
  · simp only [h, if_true]
    exact hlit.set _ _ (by decide)
  · simp only [h, if_false]
    exact hlit

/-- The stateful-set literal under two cluster names. -/
theorem statefulSetEntity_agree (c1 c2 : String) (d : appsv1.StatefulSet) :
    AgreeModuloCluster c1 c2 (statefulSetEntity c1 d) (statefulSetEntity c2 d) := by
  refine ⟨?_, ?_, ?_⟩
  · simp [statefulSetEntity, Entity.get?, List.lookup, Cluster, ObjType, Name, Namespace,
      CreationTime, NumReplicas]
  · simp [statefulSetEntity, Entity.get?, List.lookup, Cluster, ObjType, Name, Namespace,
      CreationTime, NumReplicas]
  · intro k hk
    have hb : (k == "cluster") = false := by simpa [Cluster] using hk
    simp [statefulSetEntity, Entity.get?, List.lookup, Cluster, hb]

/-- The replica-set literal under two cluster names: a panic for both, or two
entities that agree except for `cluster`. -/
theorem replicaSetEntity_agree (c1 c2 : String) (d : v1beta2.ReplicaSet) :
    (replicaSetEntity c1 d = none ∧ replicaSetEntity c2 d = none) ∨
      ∃ e1 e2, replicaSetEntity c1 d = some e1 ∧ replicaSetEntity c2 d = some e2 ∧
        AgreeModuloCluster c1 c2 e1 e2 := by
  unfold replicaSetEntity
  cases d.ObjectMeta.OwnerReferences with
  | nil => exact Or.inl ⟨rfl, rfl⟩
  | cons o rest =>
    refine Or.inr ⟨_, _, rfl, rfl, ?_, ?_, ?_⟩
    · simp [Entity.get?, List.lookup, Cluster, ObjType, Name, Namespace, CreationTime,
        NumReplicas, PodSpec, Owner]
    · simp [Entity.get?, List.lookup, Cluster, ObjType, Name, Namespace, CreationTime,
        NumReplicas, PodSpec, Owner]
    · intro k hk
      have hb : (k == "cluster") = false := by simpa [Cluster] using hk
      simp [Entity.get?, List.lookup, Cluster, hb]

/-- The replica-set loop under two cluster names. -/
theorem replicaSetLoop_agree (c1 c2 : String) (data : List v1beta2.ReplicaSet) :
    (replicaSetLoop c1 data = none ∧ replicaSetLoop c2 data = none) ∨
      ∃ l1 l2, replicaSetLoop c1 data = some l1 ∧ replicaSetLoop c2 data = some l2 ∧
        List.Forall₂ (AgreeModuloCluster c1 c2) l1 l2 := by
  induction data with
  | nil => exact Or.inr ⟨[], [], rfl, rfl, List.Forall₂.nil⟩
  | cons d ds ih =>
    rcases replicaSetEntity_agree c1 c2 d with ⟨h1, h2⟩ | ⟨e1, e2, h1, h2, hag⟩
    · exact Or.inl ⟨by simp [replicaSetLoop, h1], by simp [replicaSetLoop, h2]⟩
    · rcases ih with ⟨g1, g2⟩ | ⟨l1, l2, g1, g2, hl⟩
      · exact Or.inl ⟨by simp [replicaSetLoop, h1, g1], by simp [replicaSetLoop, h2, g2]⟩
      · exact Or.inr ⟨e1 :: l1, e2 :: l2, by simp [replicaSetLoop, h1, g1],
          by simp [replicaSetLoop, h2, g2], List.Forall₂.cons hag hl⟩

/-- C10: `BuildEntityData` is a function of its arguments (the embedding reads
nothing else: no clock, no global state, no map iteration order), so two calls
with the same arguments return the same result.  For each supported kind, each
body and each mode, two calls that differ only in the cluster name either both
return the same error, or both panic, or return two entities, or two lists of
entities of the same length, that agree element by element on every attribute
except `cluster`, whose value is the cluster name passed to the respective
call. -/
theorem cluster_name_only_in_cluster_key (u : Codec) (c1 c2 meta : String)
    (body : Option Json) (isArray : Bool) (hkind : meta ∈ supportedKinds) :
    (∃ err, BuildEntityData u c1 meta body isArray = .err err ∧
        BuildEntityData u c2 meta body isArray = .err err) ∨
    (BuildEntityData u c1 meta body isArray = .panic ∧
        BuildEntityData u c2 meta body isArray = .panic) ∨
    (∃ e1 e2, BuildEntityData u c1 meta body isArray = .ok (.entity e1) ∧
        BuildEntityData u c2 meta body isArray = .ok (.entity e2) ∧
        AgreeModuloCluster c1 c2 e1 e2) ∨
    (∃ l1 l2, BuildEntityData u c1 meta body isArray = .ok (.list l1) ∧
        BuildEntityData u c2 meta body isArray = .ok (.list l2) ∧
        List.Forall₂ (AgreeModuloCluster c1 c2) l1 l2) := by
  simp only [supportedKinds, List.mem_cons, List.mem_singleton, List.not_mem_nil, or_false]
    at hkind
  rcases hkind with h | h | h | h | h | h | h <;> subst h <;> cases isArray
  · cases hd : Unmarshal u.Namespace body with
    | error err => exact Or.inl ⟨err, by simp [BuildEntityData, hd, Namespace],
        by simp [BuildEntityData, hd, Namespace]⟩
    | ok d =>
      exact Or.inr (Or.inr (Or.inl ⟨
        namespaceEntity c1 d (getValues (.Namespace d) AssetID .GetAnnotations),
        namespaceEntity c2 d (getValues (.Namespace d) AssetID .GetAnnotations),
        by simp [BuildEntityData, hd, Namespace], by simp [BuildEntityData, hd, Namespace],
        namespaceEntity_agree c1 c2 d _⟩))
  · cases hd : Unmarshal (decodeSlice u.Namespace) body with
    | error err => exact Or.inl ⟨err, by simp [BuildEntityData, hd, Namespace],
        by simp [BuildEntityData, hd, Namespace]⟩
    | ok data =>
      exact Or.inr (Or.inr (Or.inr ⟨
        data.map fun d =>
          namespaceEntity c1 d (getValues (.NamespaceSlice data) AssetID .GetAnnotations),
        data.map fun d =>
          namespaceEntity c2 d (getValues (.NamespaceSlice data) AssetID .GetAnnotations),
        by simp [BuildEntityData, hd, Namespace], by simp [BuildEntityData, hd, Namespace],
        forall₂_map_agree c1 c2
          (fun c d =>
            namespaceEntity c d (getValues (.NamespaceSlice data) AssetID .GetAnnotations))
          (fun d => namespaceEntity_agree c1 c2 d _) data⟩))
  · cases hd : Unmarshal u.Deployment body with
    | error err => exact Or.inl ⟨err, by simp [BuildEntityData, hd, Namespace, Deployment],
        by simp [BuildEntityData, hd, Namespace, Deployment]⟩
    | ok d =>
      exact Or.inr (Or.inr (Or.inl ⟨deploymentEntity c1 d,
        deploymentEntity c2 d,
        by simp [BuildEntityData, hd, Namespace, Deployment], by simp [BuildEntityData, hd,
            Namespace, Deployment],
        deploymentEntity_agree c1 c2 d⟩))
  · cases hd : Unmarshal (decodeSlice u.Deployment) body with
    | error err => exact Or.inl ⟨err, by simp [BuildEntityData, hd, Namespace, Deployment],
        by simp [BuildEntityData, hd, Namespace, Deployment]⟩
    | ok data =>
      exact Or.inr (Or.inr (Or.inr ⟨data.map fun d => deploymentEntity c1 d,
        data.map fun d => deploymentEntity c2 d,
        by simp [BuildEntityData, hd, Namespace, Deployment], by simp [BuildEntityData, hd,
            Namespace, Deployment],
        forall₂_map_agree c1 c2 deploymentEntity (deploymentEntity_agree c1 c2) data⟩))
  · cases hd : Unmarshal u.Ingress body with
    | error err => exact Or.inl ⟨err, by simp [BuildEntityData, hd, Namespace, Deployment,
        Ingress], by simp [BuildEntityData, hd, Namespace, Deployment, Ingress]⟩
    | ok d =>
      exact Or.inr (Or.inr (Or.inl ⟨ingressEntity c1 d,
        ingressEntity c2 d,
        by simp [BuildEntityData, hd, Namespace, Deployment, Ingress], by simp [BuildEntityData,
            hd, Namespace, Deployment, Ingress],
        ingressEntity_agree c1 c2 d⟩))
  · cases hd : Unmarshal (decodeSlice u.Ingress) body with
    | error err => exact Or.inl ⟨err, by simp [BuildEntityData, hd, Namespace, Deployment,
        Ingress], by simp [BuildEntityData, hd, Namespace, Deployment, Ingress]⟩
    | ok data =>
      exact Or.inr (Or.inr (Or.inr ⟨data.map fun d => ingressEntity c1 d,
        data.map fun d => ingressEntity c2 d,
        by simp [BuildEntityData, hd, Namespace, Deployment, Ingress], by simp [BuildEntityData,
            hd, Namespace, Deployment, Ingress],
        forall₂_map_agree c1 c2 ingressEntity (ingressEntity_agree c1 c2) data⟩))
  · cases hd : Unmarshal u.Pod body with
    | error err => exact Or.inl ⟨err, by simp [BuildEntityData, hd, Namespace, Deployment,
        Ingress, Pod], by simp [BuildEntityData, hd, Namespace, Deployment, Ingress, Pod]⟩
    | ok d =>
      exact Or.inr (Or.inr (Or.inl ⟨podEntity u c1 d,
        podEntity u c2 d,
        by simp [BuildEntityData, hd, Namespace, Deployment, Ingress, Pod],
            by simp [BuildEntityData, hd, Namespace, Deployment, Ingress, Pod],
        podEntity_agree u c1 c2 d⟩))
  · cases hd : Unmarshal (decodeSlice u.Pod) body with
    | error err => exact Or.inl ⟨err, by simp [BuildEntityData, hd, Namespace, Deployment,
        Ingress, Pod], by simp [BuildEntityData, hd, Namespace, Deployment, Ingress, Pod]⟩
    | ok data =>
      exact Or.inr (Or.inr (Or.inr ⟨data.map fun d => podEntity u c1 d,
        data.map fun d => podEntity u c2 d,
        by simp [BuildEntityData, hd, Namespace, Deployment, Ingress, Pod],
            by simp [BuildEntityData, hd, Namespace, Deployment, Ingress, Pod],
        forall₂_map_agree c1 c2 (podEntity u) (podEntity_agree u c1 c2) data⟩))
  · cases hd : Unmarshal u.ReplicaSet body with
    | error err => exact Or.inl ⟨err, by simp [BuildEntityData, hd, Namespace, Deployment,
        Ingress, Pod, ReplicaSet], by simp [BuildEntityData, hd, Namespace, Deployment, Ingress,
        Pod, ReplicaSet]⟩
    | ok d =>
      rcases replicaSetEntity_agree c1 c2 d with ⟨h1, h2⟩ | ⟨e1, e2, h1, h2, hag⟩
      · exact Or.inr (Or.inl ⟨by simp [BuildEntityData, hd, h1, Namespace, Deployment, Ingress,
          Pod, ReplicaSet], by simp [BuildEntityData, hd, h2, Namespace, Deployment, Ingress,
          Pod, ReplicaSet]⟩)
      · exact Or.inr (Or.inr (Or.inl ⟨e1, e2, by simp [BuildEntityData, hd, h1, Namespace,
          Deployment, Ingress, Pod, ReplicaSet], by simp [BuildEntityData, hd, h2, Namespace,
          Deployment, Ingress, Pod, ReplicaSet], hag⟩))
  · cases hd : Unmarshal (decodeSlice u.ReplicaSet) body with
    | error err => exact Or.inl ⟨err, by simp [BuildEntityData, hd, Namespace, Deployment,
        Ingress, Pod, ReplicaSet], by simp [BuildEntityData, hd, Namespace, Deployment, Ingress,
        Pod, ReplicaSet]⟩
    | ok data =>
      rcases replicaSetLoop_agree c1 c2 data with ⟨h1, h2⟩ | ⟨l1, l2, h1, h2, hag⟩
      · exact Or.inr (Or.inl ⟨by simp [BuildEntityData, hd, h1, Namespace, Deployment, Ingress,
          Pod, ReplicaSet], by simp [BuildEntityData, hd, h2, Namespace, Deployment, Ingress,
          Pod, ReplicaSet]⟩)
      · exact Or.inr (Or.inr (Or.inr ⟨l1, l2, by simp [BuildEntityData, hd, h1, Namespace,
          Deployment, Ingress, Pod, ReplicaSet], by simp [BuildEntityData, hd, h2, Namespace,
          Deployment, Ingress, Pod, ReplicaSet], hag⟩))
  · cases hd : Unmarshal u.Service body with
    | error err => exact Or.inl ⟨err, by simp [BuildEntityData, hd, Namespace, Deployment,
        Ingress, Pod, ReplicaSet, Service], by simp [BuildEntityData, hd, Namespace, Deployment,
        Ingress, Pod, ReplicaSet, Service]⟩
    | ok d =>
      exact Or.inr (Or.inr (Or.inl ⟨serviceEntity c1 d,
        serviceEntity c2 d,
        by simp [BuildEntityData, hd, Namespace, Deployment, Ingress, Pod, ReplicaSet, Service],
            by simp [BuildEntityData, hd, Namespace, Deployment, Ingress, Pod, ReplicaSet, Service],
        serviceEntity_agree c1 c2 d⟩))
  · cases hd : Unmarshal (decodeSlice u.Service) body with
    | error err => exact Or.inl ⟨err, by simp [BuildEntityData, hd, Namespace, Deployment,
        Ingress, Pod, ReplicaSet, Service], by simp [BuildEntityData, hd, Namespace, Deployment,
        Ingress, Pod, ReplicaSet, Service]⟩
    | ok data =>
      exact Or.inr (Or.inr (Or.inr ⟨data.map fun d => serviceEntity c1 d,
        data.map fun d => serviceEntity c2 d,
        by simp [BuildEntityData, hd, Namespace, Deployment, Ingress, Pod, ReplicaSet, Service],
            by simp [BuildEntityData, hd, Namespace, Deployment, Ingress, Pod, ReplicaSet, Service],
        forall₂_map_agree c1 c2 serviceEntity (serviceEntity_agree c1 c2) data⟩))
  · cases hd : Unmarshal u.StatefulSet body with
    | error err => exact Or.inl ⟨err, by simp [BuildEntityData, hd, Namespace, Deployment,
        Ingress, Pod, ReplicaSet, Service, StatefulSet], by simp [BuildEntityData, hd, Namespace,
        Deployment, Ingress, Pod, ReplicaSet, Service, StatefulSet]⟩
    | ok d =>
      exact Or.inr (Or.inr (Or.inl ⟨statefulSetEntity c1 d,
        statefulSetEntity c2 d,
        by simp [BuildEntityData, hd, Namespace, Deployment, Ingress, Pod, ReplicaSet, Service,
            StatefulSet], by simp [BuildEntityData, hd, Namespace, Deployment, Ingress, Pod,
            ReplicaSet, Service, StatefulSet],
        statefulSetEntity_agree c1 c2 d⟩))
  · cases hd : Unmarshal (decodeSlice u.StatefulSet) body with
    | error err => exact Or.inl ⟨err, by simp [BuildEntityData, hd, Namespace, Deployment,
        Ingress, Pod, ReplicaSet, Service, StatefulSet], by simp [BuildEntityData, hd, Namespace,
        Deployment, Ingress, Pod, ReplicaSet, Service, StatefulSet]⟩
    | ok data =>
      exact Or.inr (Or.inr (Or.inr ⟨data.map fun d => statefulSetEntity c1 d,
        data.map fun d => statefulSetEntity c2 d,
        by simp [BuildEntityData, hd, Namespace, Deployment, Ingress, Pod, ReplicaSet, Service,
            StatefulSet], by simp [BuildEntityData, hd, Namespace, Deployment, Ingress, Pod,
            ReplicaSet, Service, StatefulSet],
        forall₂_map_agree c1 c2 statefulSetEntity (statefulSetEntity_agree c1 c2) data⟩))

/-- Witness of C10: the pod `p1` normalized for the clusters `east` and `west`
in scalar mode gives two entities that agree except for `cluster`. -/
theorem cluster_name_only_in_cluster_key_witness :
    ∃ e1 e2, BuildEntityData json.codec "east" Pod (some sample.podOwned) false =
        .ok (.entity e1) ∧
      BuildEntityData json.codec "west" Pod (some sample.podOwned) false = .ok (.entity e2) ∧
      AgreeModuloCluster "east" "west" e1 e2 := by
  obtain ⟨e, he⟩ : ∃ e, BuildEntityData json.codec "east" Pod (some sample.podOwned) false =
      .ok (.entity e) := ⟨_, rfl⟩
  rcases cluster_name_only_in_cluster_key json.codec "east" "west" Pod (some sample.podOwned)
    false (by decide) with ⟨err, h, -⟩ | ⟨h, -⟩ | h | ⟨l1, l2, h, -⟩
  · rw [he] at h; cases h
  · rw [he] at h; cases h
  · exact h
  · rw [he] at h; cases h

end util

/-! ## Result shape, decoding errors and the default kind -/

namespace util

/-- Bytes that are not JSON make every case, the default case included, return
the error of `json.Unmarshal`. -/
theorem invalid_json_fails (u : Codec) (clusterName meta : String) (isArray : Bool) :
    ∃ e, BuildEntityData u clusterName meta none isArray = .err e := by
  unfold BuildEntityData
  cases isArray <;> (repeat' split) <;> simp_all [Unmarshal]

/-- Scalar mode of a supported kind returns the error of the decoder. -/
theorem scalar_error_of_rejected (u : Codec) (clusterName meta : String) (j : Json)
    (err : String) (hkind : meta ∈ supportedKinds) (hdec : u.decode meta j = .error err) :
    BuildEntityData u clusterName meta (some j) false = .err err := by
  simp only [supportedKinds, List.mem_cons, List.mem_singleton, List.not_mem_nil, or_false]
    at hkind
  rcases hkind with h | h | h | h | h | h | h <;> subst h
  · have hd : u.Namespace j = .error err := by
      simpa [Codec.decode, Except.map_error_iff] using hdec
    simp [BuildEntityData, Unmarshal, hd]
  · have hd : u.Deployment j = .error err := by
      simpa [Codec.decode, Except.map_error_iff, Namespace, Deployment] using hdec
    simp [BuildEntityData, Unmarshal, hd, Namespace, Deployment]
  · have hd : u.Ingress j = .error err := by
      simpa [Codec.decode, Except.map_error_iff, Namespace, Deployment, Ingress] using hdec
    simp [BuildEntityData, Unmarshal, hd, Namespace, Deployment, Ingress]
  · have hd : u.Pod j = .error err := by
      simpa [Codec.decode, Except.map_error_iff, Namespace, Deployment, Ingress, Pod] using hdec
    simp [BuildEntityData, Unmarshal, hd, Namespace, Deployment, Ingress, Pod]
  · have hd : u.ReplicaSet j = .error err := by
      simpa [Codec.decode, Except.map_error_iff, Namespace, Deployment, Ingress, Pod,
        ReplicaSet] using hdec
    simp [BuildEntityData, Unmarshal, hd, Namespace, Deployment, Ingress, Pod, ReplicaSet]
  · have hd : u.Service j = .error err := by
      simpa [Codec.decode, Except.map_error_iff, Namespace, Deployment, Ingress, Pod,
        ReplicaSet, Service] using hdec
    simp [BuildEntityData, Unmarshal, hd, Namespace, Deployment, Ingress, Pod, ReplicaSet,
      Service]
  · have hd : u.StatefulSet j = .error err := by
      simpa [Codec.decode, Except.map_error_iff, Namespace, Deployment, Ingress, Pod,
        ReplicaSet, Service, StatefulSet] using hdec
    simp [BuildEntityData, Unmarshal, hd, Namespace, Deployment, Ingress, Pod, ReplicaSet,
      Service, StatefulSet]

/-- List mode of a supported kind on a body that is neither an array nor `null`
returns the type error of the slice decoder. -/
theorem list_error_of_non_array (u : Codec) (clusterName meta : String) (j : Json)
    (hkind : meta ∈ supportedKinds) (harr : j.isArray = false) (hnull : j.isNull = false) :
    ∃ e, BuildEntityData u clusterName meta (some j) true = .err e := by
  simp only [supportedKinds, List.mem_cons, List.mem_singleton, List.not_mem_nil, or_false]
    at hkind
  rcases hkind with h | h | h | h | h | h | h <;> subst h <;>
    cases j <;>
    simp_all [Json.isArray, Json.isNull, BuildEntityData, Unmarshal, decodeSlice, Namespace,
      Deployment, Ingress, Pod, ReplicaSet, Service, StatefulSet]

/-- List mode of a supported kind on an array with an element that the decoder
of the kind rejects returns an error. -/
theorem list_error_of_rejected_element (u : Codec) (clusterName meta : String)
    (xs : List Json) (hkind : meta ∈ supportedKinds)
    (hbad : ∃ x ∈ xs, ∃ e, u.decode meta x = .error e) :
    ∃ e, BuildEntityData u clusterName meta (some (.arr xs)) true = .err e := by
  simp only [supportedKinds, List.mem_cons, List.mem_singleton, List.not_mem_nil, or_false]
    at hkind
  rcases hkind with h | h | h | h | h | h | h <;> subst h
  · have hbad' : ∃ x ∈ xs, ∃ e, u.Namespace x = .error e := by
      simpa [Codec.decode, Except.map_error_iff] using hbad
    obtain ⟨e, he⟩ := Unmarshal_slice_error _ xs hbad'
    exact ⟨e, by simp [BuildEntityData, he]⟩
  · have hbad' : ∃ x ∈ xs, ∃ e, u.Deployment x = .error e := by
      simpa [Codec.decode, Except.map_error_iff, Namespace, Deployment] using hbad
    obtain ⟨e, he⟩ := Unmarshal_slice_error _ xs hbad'
    exact ⟨e, by simp [BuildEntityData, he, Namespace, Deployment]⟩
  · have hbad' : ∃ x ∈ xs, ∃ e, u.Ingress x = .error e := by
      simpa [Codec.decode, Except.map_error_iff, Namespace, Deployment, Ingress] using hbad
    obtain ⟨e, he⟩ := Unmarshal_slice_error _ xs hbad'
    exact ⟨e, by simp [BuildEntityData, he, Namespace, Deployment, Ingress]⟩
  · have hbad' : ∃ x ∈ xs, ∃ e, u.Pod x = .error e := by
      simpa [Codec.decode, Except.map_error_iff, Namespace, Deployment, Ingress, Pod] using hbad
    obtain ⟨e, he⟩ := Unmarshal_slice_error _ xs hbad'
    exact ⟨e, by simp [BuildEntityData, he, Namespace, Deployment, Ingress, Pod]⟩
  · have hbad' : ∃ x ∈ xs, ∃ e, u.ReplicaSet x = .error e := by
      simpa [Codec.decode, Except.map_error_iff, Namespace, Deployment, Ingress, Pod,
        ReplicaSet] using hbad
    obtain ⟨e, he⟩ := Unmarshal_slice_error _ xs hbad'
    exact ⟨e, by simp [BuildEntityData, he, Namespace, Deployment, Ingress, Pod, ReplicaSet]⟩
  · have hbad' : ∃ x ∈ xs, ∃ e, u.Service x = .error e := by
      simpa [Codec.decode, Except.map_error_iff, Namespace, Deployment, Ingress, Pod,
        ReplicaSet, Service] using hbad
    obtain ⟨e, he⟩ := Unmarshal_slice_error _ xs hbad'
    exact ⟨e, by simp [BuildEntityData, he, Namespace, Deployment, Ingress, Pod, ReplicaSet,
      Service]⟩
  · have hbad' : ∃ x ∈ xs, ∃ e, u.StatefulSet x = .error e := by
      simpa [Codec.decode, Except.map_error_iff, Namespace, Deployment, Ingress, Pod,
        ReplicaSet, Service, StatefulSet] using hbad
    obtain ⟨e, he⟩ := Unmarshal_slice_error _ xs hbad'
    exact ⟨e, by simp [BuildEntityData, he, Namespace, Deployment, Ingress, Pod, ReplicaSet,
      Service, StatefulSet]⟩

end util

namespace util

/-- A supported kind returns an entity in scalar mode and a list of entities in
list mode. -/
theorem supported_shape (u : Codec) (clusterName meta : String) (body : Option Json)
    (isArray : Bool) (r : Result) (hkind : meta ∈ supportedKinds)
    (h : BuildEntityData u clusterName meta body isArray = .ok r) :
    (isArray = false → ∃ e, r = .entity e) ∧ (isArray = true → ∃ l, r = .list l) := by
  simp only [supportedKinds, List.mem_cons, List.mem_singleton, List.not_mem_nil, or_false]
    at hkind
  rcases hkind with hk | hk | hk | hk | hk | hk | hk <;> subst hk <;> cases isArray <;>
    simp only [BuildEntityData, Namespace, Deployment, Ingress, Pod, ReplicaSet, Service,
      StatefulSet, String.reduceEq, if_true, if_false, Bool.false_eq_true] at h <;>
    (repeat' split at h) <;>
    (try cases h) <;>
    simp

end util

namespace util

/-- The concrete decoder rejects, for every supported kind, a value that is
neither an object nor `null`, as `encoding/json` does for a struct. -/
theorem codec_rejects_non_objects (meta : String) (j : Json) (hkind : meta ∈ supportedKinds)
    (hobj : j.isObject = false) (hnull : j.isNull = false) :
    ∃ e, json.codec.decode meta j = .error e := by
  simp only [supportedKinds, List.mem_cons, List.mem_singleton, List.not_mem_nil, or_false]
    at hkind
  rcases hkind with h | h | h | h | h | h | h <;> subst h <;> cases j <;>
    simp_all [Json.isObject, Json.isNull, Codec.decode, json.codec, json.object, json.struct,
      Except.map, Namespace, Deployment, Ingress, Pod, ReplicaSet, Service, StatefulSet]

/-- Decoding element by element succeeds when every element is accepted. -/
theorem decodeEach_ok_of_all {α : Type} (dec : Json → Except String α) (xs : List Json)
    (h : ∀ x ∈ xs, ∃ d, dec x = .ok d) : ∃ ds, decodeEach dec xs = .ok ds := by
  induction xs with
  | nil => exact ⟨[], rfl⟩
  | cons x xs ih =>
    obtain ⟨d, hd⟩ := h x (by simp)
    obtain ⟨ds, hds⟩ := ih (fun y hy => h y (by simp [hy]))
    exact ⟨d :: ds, by simp [decodeEach, hd, hds]⟩

/-- List mode of a supported kind on the body `null` returns the empty list. -/
theorem list_null_is_empty (u : Codec) (clusterName meta : String)
    (hkind : meta ∈ supportedKinds) :
    BuildEntityData u clusterName meta (some .null) true = .ok (.list []) := by
  simp only [supportedKinds, List.mem_cons, List.mem_singleton, List.not_mem_nil, or_false]
    at hkind
  rcases hkind with h | h | h | h | h | h | h <;> subst h <;>
    simp [BuildEntityData, Unmarshal, decodeSlice, replicaSetLoop, Namespace, Deployment,
      Ingress, Pod, ReplicaSet, Service, StatefulSet]

/-- Scalar mode of a supported kind on a body that the decoder of the kind
accepts does not return an error. -/
theorem scalar_not_error_of_accepted (u : Codec) (clusterName meta : String) (j : Json)
    (o : Obj) (hkind : meta ∈ supportedKinds) (hdec : u.decode meta j = .ok o) (e : String) :
    BuildEntityData u clusterName meta (some j) false ≠ .err e := by
  simp only [supportedKinds, List.mem_cons, List.mem_singleton, List.not_mem_nil, or_false]
    at hkind
  rcases hkind with h | h | h | h | h | h | h <;> subst h <;>
    simp only [Codec.decode, Namespace, Deployment, Ingress, Pod, ReplicaSet, Service,
      StatefulSet, String.reduceEq, if_true, if_false] at hdec <;>
    simp only [BuildEntityData, Unmarshal, Namespace, Deployment, Ingress, Pod, ReplicaSet,
      Service, StatefulSet, String.reduceEq, if_true, if_false, Bool.false_eq_true] <;>
    (split <;> simp_all [Except.map]; try (split <;> simp))

/-- List mode of a supported kind on an array all of whose elements the decoder
of the kind accepts does not return an error. -/
theorem list_not_error_of_accepted (u : Codec) (clusterName meta : String) (xs : List Json)
    (hkind : meta ∈ supportedKinds) (hall : ∀ x ∈ xs, ∃ o, u.decode meta x = .ok o)
    (e : String) : BuildEntityData u clusterName meta (some (.arr xs)) true ≠ .err e := by
  simp only [supportedKinds, List.mem_cons, List.mem_singleton, List.not_mem_nil, or_false]
    at hkind
  rcases hkind with h | h | h | h | h | h | h <;> subst h <;>
    simp only [Codec.decode, Namespace, Deployment, Ingress, Pod, ReplicaSet, Service,
      StatefulSet, String.reduceEq, if_true, if_false] at hall <;>
    simp only [BuildEntityData, Unmarshal, decodeSlice, Namespace, Deployment, Ingress, Pod,
      ReplicaSet, Service, StatefulSet, String.reduceEq, if_true, if_false]
  · obtain ⟨ds, hds⟩ := decodeEach_ok_of_all u.Namespace xs (fun x hx => by
      obtain ⟨o, ho⟩ := hall x hx
      cases hd : u.Namespace x <;> simp_all [Except.map])
    simp [hds]
  · obtain ⟨ds, hds⟩ := decodeEach_ok_of_all u.Deployment xs (fun x hx => by
      obtain ⟨o, ho⟩ := hall x hx
      cases hd : u.Deployment x <;> simp_all [Except.map])
    simp [hds]
  · obtain ⟨ds, hds⟩ := decodeEach_ok_of_all u.Ingress xs (fun x hx => by
      obtain ⟨o, ho⟩ := hall x hx
      cases hd : u.Ingress x <;> simp_all [Except.map])
    simp [hds]
  · obtain ⟨ds, hds⟩ := decodeEach_ok_of_all u.Pod xs (fun x hx => by
      obtain ⟨o, ho⟩ := hall x hx
      cases hd : u.Pod x <;> simp_all [Except.map])
    simp [hds]
  · obtain ⟨ds, hds⟩ := decodeEach_ok_of_all u.ReplicaSet xs (fun x hx => by
      obtain ⟨o, ho⟩ := hall x hx
      cases hd : u.ReplicaSet x <;> simp_all [Except.map])
    simp only [hds]
    split <;> simp
  · obtain ⟨ds, hds⟩ := decodeEach_ok_of_all u.Service xs (fun x hx => by
      obtain ⟨o, ho⟩ := hall x hx
      cases hd : u.Service x <;> simp_all [Except.map])
    simp [hds]
  · obtain ⟨ds, hds⟩ := decodeEach_ok_of_all u.StatefulSet xs (fun x hx => by
      obtain ⟨o, ho⟩ := hall x hx
      cases hd : u.StatefulSet x <;> simp_all [Except.map])
    simp [hds]

/-- C11 as stated fails: `encoding/json` accepts `null` for a struct and for a
slice.  With the namespace kind, the body `null` in scalar mode yields an
entity (of the zero object) and no error, the body `null` in list mode yields
the empty list, and the body `[null]`, an array with an element that is not an
object, yields a list of one entity.  With the unrecognized kind `node`, the
body `[1]` in scalar mode is returned as it is, an array and no error: the
default case decodes into an `interface{}` variable, which takes any value. -/
theorem null_body_is_accepted :
    (∃ e, BuildEntityData json.codec "c1" Namespace (some .null) false = .ok (.entity e)) ∧
    BuildEntityData json.codec "c1" Namespace (some .null) true = .ok (.list []) ∧
    (∃ e, BuildEntityData json.codec "c1" Namespace (some (.arr [.null])) true =
      .ok (.list [e])) ∧
    BuildEntityData json.codec "c1" "node" (some (.arr [.num 1])) false =
      .ok (.generic (.arr [.num 1])) :=
  ⟨⟨_, rfl⟩, rfl, ⟨_, rfl⟩, rfl⟩

/-- C11, amended.  For every kind, the default kind included, a body that is
not valid JSON makes `BuildEntityData` return an error.  For each of the seven
supported kinds, a result returned without error is an entity in scalar mode
and a list of entities in list mode; and with a decoder that rejects, as
`encoding/json` does for a struct, every value that is neither an object nor
`null`: a body that is an array, number, string or boolean in scalar mode, a
body that is an object, number, string or boolean in list mode, and an array
with an element that is neither an object nor `null` in list mode, all make it
return an error.  What the decoder accepts is not answered with an error, `null`
included: the body `null` in list mode gives the empty list, a body that the
decoder of the kind accepts gives no error in scalar mode, and an array all of
whose elements the decoder accepts gives no error in list mode. -/
theorem supported_kinds_shape_and_errors (u : Codec) (clusterName meta : String) :
    (∀ isArray, ∃ e, BuildEntityData u clusterName meta none isArray = .err e) ∧
    (meta ∈ supportedKinds →
      (∀ body isArray r, BuildEntityData u clusterName meta body isArray = .ok r →
        (isArray = false → ∃ e, r = .entity e) ∧ (isArray = true → ∃ l, r = .list l)) ∧
      ((∀ j, j.isObject = false → j.isNull = false → ∃ e, u.decode meta j = .error e) →
        (∀ j, j.isObject = false → j.isNull = false →
          ∃ e, BuildEntityData u clusterName meta (some j) false = .err e) ∧
        (∀ j, j.isArray = false → j.isNull = false →
          ∃ e, BuildEntityData u clusterName meta (some j) true = .err e) ∧
        (∀ xs, (∃ x ∈ xs, x.isObject = false ∧ x.isNull = false) →
          ∃ e, BuildEntityData u clusterName meta (some (.arr xs)) true = .err e)) ∧
      BuildEntityData u clusterName meta (some .null) true = .ok (.list []) ∧
      (∀ j o, u.decode meta j = .ok o →
        ∀ e, BuildEntityData u clusterName meta (some j) false ≠ .err e) ∧
      (∀ xs, (∀ x ∈ xs, ∃ o, u.decode meta x = .ok o) →
        ∀ e, BuildEntityData u clusterName meta (some (.arr xs)) true ≠ .err e)) := by
  refine ⟨invalid_json_fails u clusterName meta,
    fun hkind => ⟨?_, fun hstruct => ⟨?_, ?_, ?_⟩, list_null_is_empty u clusterName meta hkind,
      fun j o hdec e => scalar_not_error_of_accepted u clusterName meta j o hkind hdec e,
      fun xs hall e => list_not_error_of_accepted u clusterName meta xs hkind hall e⟩⟩
  · intro body isArray r h
    exact supported_shape u clusterName meta body isArray r hkind h
  · intro j hobj hnull
    obtain ⟨e, he⟩ := hstruct j hobj hnull
    exact ⟨e, scalar_error_of_rejected u clusterName meta j e hkind he⟩
  · intro j harr hnull
    exact list_error_of_non_array u clusterName meta j hkind harr hnull
  · rintro xs ⟨x, hx, hobj, hnull⟩
    exact list_error_of_rejected_element u clusterName meta xs hkind
      ⟨x, hx, hstruct x hobj hnull⟩

/-- Witness of the amended C11 at the pod kind and the concrete decoder: a
string body in scalar mode, an object body in list mode and the list
`[p1, 7]` are rejected, and the body `null` in list mode gives the empty
list. -/
theorem supported_kinds_shape_and_errors_witness :
    (∃ e, BuildEntityData json.codec "c1" Pod (some (.str "p1")) false = .err e) ∧
    (∃ e, BuildEntityData json.codec "c1" Pod (some sample.podOwned) true = .err e) ∧
    (∃ e, BuildEntityData json.codec "c1" Pod
      (some (.arr [sample.podOwned, .num 7])) true = .err e) ∧
    BuildEntityData json.codec "c1" Pod (some .null) true = .ok (.list []) :=
  have hk := (supported_kinds_shape_and_errors json.codec "c1" Pod).2 (by decide)
  have h := hk.2.1
    (fun j hobj hnull => codec_rejects_non_objects Pod j (by decide) hobj hnull)
  ⟨h.1 _ rfl rfl, h.2.1 _ rfl rfl, h.2.2 _ ⟨.num 7, by simp, rfl, rfl⟩, hk.2.2.1⟩

end util

/-! ## Lemmas on response maps and on the effects of a run -/

/-- Reading the key just written gives the value written. -/
theorem JsonMap.read_written_key (m : JsonMap) (k : String) (v : Json) :
    (m.set k v).get? k = some v := by
  induction m with
  | nil => simp [JsonMap.set, JsonMap.get?, List.lookup]
  | cons p m ih =>
    obtain ⟨k', v'⟩ := p
    by_cases h : k' = k
    · simp [JsonMap.set, h, JsonMap.get?, List.lookup]
    · have hb : (k == k') = false := by
        simpa using fun h' => h h'.symm
      simp only [JsonMap.set, h, if_false]
      simpa [JsonMap.get?, List.lookup, hb] using ih

/-- Writing a key leaves the other keys as they were. -/
theorem JsonMap.read_other_key (m : JsonMap) (k k' : String) (v : Json) (h : k' ≠ k) :
    (m.set k v).get? k' = m.get? k' := by
  induction m with
  | nil =>
    have hb : (k' == k) = false := by simpa using h
    simp [JsonMap.set, JsonMap.get?, List.lookup, hb]
  | cons p m ih =>
    obtain ⟨k0, v0⟩ := p
    by_cases h0 : k0 = k
    · subst h0
      have hb : (k' == k0) = false := by simpa using h
      simp [JsonMap.set, JsonMap.get?, List.lookup, hb]
    · simp only [JsonMap.set, h0, if_false]
      by_cases h1 : k' = k0
      · subst h1
        simp [JsonMap.get?, List.lookup]
      · have hb : (k' == k0) = false := by simpa using h1
        simpa [JsonMap.get?, List.lookup, hb] using ih

namespace resources

/-- The service calls of a concatenation. -/
theorem calls_append (xs ys : List Event) : calls (xs ++ ys) = calls xs ++ calls ys := by
  induction xs with
  | nil => rfl
  | cons e xs ih => cases e <;> simp [calls, ih]

/-- The bodies written by a concatenation. -/
theorem writes_append (xs ys : List Event) : writes (xs ++ ys) = writes xs ++ writes ys := by
  induction xs with
  | nil => rfl
  | cons e xs ih => cases e <;> simp [writes, ih]

end resources

/-! ## `QSLHandler`: count and page -/

namespace resources

variable {σ : Type}

/-- C13: when the count-only compilation, its store execution, the paginated
compilation and its store execution all succeed, `QSLHandler` writes one body,
the marshalled result object of the paginated query in which `count` is the
total that `GetTotalCnt` extracts from the response of the count-only query
(whether or not that object had a `count` already) and `status` is 200; every
other key of the paginated result is as the store returned it. -/
theorem qsl_merges_total_into_page (lib : Library) (s : ServerResource σ) (query : String)
    (w w1 w2 w3 w4 : σ) (countQuery pageQuery : String) (countResp pageResp : JsonMap)
    (hca : s.QSLSvc.CreateDgraphQuery query true w = (.ok countQuery, w1))
    (hea : s.QSLSvc.DBclient.ExecuteDgraphQuery countQuery w1 = (.ok countResp, w2))
    (hcb : s.QSLSvc.CreateDgraphQuery query false w2 = (.ok pageQuery, w3))
    (heb : s.QSLSvc.DBclient.ExecuteDgraphQuery pageQuery w3 = (.ok pageResp, w4)) :
    ∃ m, writes (QSLHandler lib s query w).events = [.marshal m] ∧
      m.get? Count = some (lib.GetTotalCnt countResp) ∧
      m.get? "status" = some (.num http.StatusOK) ∧
      (∀ k, k ≠ Count → k ≠ "status" → m.get? k = pageResp.get? k) ∧
      statusCode (QSLHandler lib s query w).events = http.StatusOK := by
  refine ⟨(pageResp.set Count (lib.GetTotalCnt countResp)).set "status" (.num http.StatusOK),
    ?_, ?_, ?_, ?_, ?_⟩
  · simp [QSLHandler, hca, hea, hcb, heb, Marshal, writes, corsHeaders]
  · rw [JsonMap.read_other_key _ _ _ _ (by decide), JsonMap.read_written_key]
  · rw [JsonMap.read_written_key]
  · intro k hk hs
    rw [JsonMap.read_other_key _ _ _ _ hs, JsonMap.read_other_key _ _ _ _ hk]
  · simp [QSLHandler, hca, hea, hcb, heb, Marshal, statusCode, corsHeaders]

/-- Witness of C13: for the filter `pods` the store reports the total 7 and a
page whose own `count` is 2; the response carries `count = 7`, `status = 200`
and the objects of the page. -/
theorem qsl_merges_total_into_page_witness :
    ∃ m, writes (QSLHandler sample.library sample.server "pods" 0).events = [.marshal m] ∧
      m.get? Count = some (.num 7) ∧
      m.get? "status" = some (.num http.StatusOK) ∧
      m.get? "objects" = some (.arr [.str "p1", .str "p2"]) := by
  obtain ⟨m, hw, hc, hs, hk, -⟩ :=
    qsl_merges_total_into_page sample.library sample.server "pods" 0 1 2 3 4 "pods#count"
      "pods#page" [("total", .num 7)]
      [("count", .num 2), ("objects", .arr [.str "p1", .str "p2"])] rfl rfl rfl rfl
  exact ⟨m, hw, hc, hs, (hk "objects" (by decide) (by decide)).trans rfl⟩

/-- C14: in `QSLHandler`,
* a compilation error of the count-only plan, other than the metadata
  connection error, gives the body status 400 and the 4xx counter, and no store
  execution is attempted;
* an error of the store execution of the count plan gives the body status 500
  and the 5xx counter, and the paginated plan is neither compiled nor executed;
* a compilation error of the paginated plan, other than the metadata connection
  error, gives the body status 400 and the 4xx counter, and the paginated plan
  is not executed;
* an error of the store execution of the paginated plan gives the body status
  500 and the 5xx counter.
The status is the `status` member of the one body written. -/
theorem qsl_error_outcomes (lib : Library) (s : ServerResource σ) (query : String) (w : σ) :
    (∀ err w1, s.QSLSvc.CreateDgraphQuery query true w = (.error err, w1) →
      err ≠ metadataConnectError →
      writes (QSLHandler lib s query w).events =
          [.statusError http.StatusBadRequest (trim err)] ∧
        calls (QSLHandler lib s query w).events = [.CreateDgraphQuery query true] ∧
        increments (QSLHandler lib s query w).events =
          [.KatlasNumReqCount, .KatlasNumReqErr, .KatlasNumReqErr4xx]) ∧
    (∀ countQuery w1 err w2, s.QSLSvc.CreateDgraphQuery query true w = (.ok countQuery, w1) →
      s.QSLSvc.DBclient.ExecuteDgraphQuery countQuery w1 = (.error err, w2) →
      writes (QSLHandler lib s query w).events =
          [.statusError http.StatusInternalServerError (trim err)] ∧
        calls (QSLHandler lib s query w).events =
          [.CreateDgraphQuery query true, .ExecuteDgraphQuery countQuery] ∧
        increments (QSLHandler lib s query w).events =
          [.KatlasNumReqCount, .KatlasNumReqErr, .KatlasNumReqErr5xx]) ∧
    (∀ countQuery w1 countResp w2 err w3,
      s.QSLSvc.CreateDgraphQuery query true w = (.ok countQuery, w1) →
      s.QSLSvc.DBclient.ExecuteDgraphQuery countQuery w1 = (.ok countResp, w2) →
      s.QSLSvc.CreateDgraphQuery query false w2 = (.error err, w3) →
      err ≠ metadataConnectError →
      writes (QSLHandler lib s query w).events =
          [.statusError http.StatusBadRequest (trim err)] ∧
        calls (QSLHandler lib s query w).events =
          [.CreateDgraphQuery query true, .ExecuteDgraphQuery countQuery,
            .CreateDgraphQuery query false] ∧
        increments (QSLHandler lib s query w).events =
          [.KatlasNumReqCount, .KatlasNumReqErr, .KatlasNumReqErr4xx]) ∧
    (∀ countQuery w1 countResp w2 pageQuery w3 err w4,
      s.QSLSvc.CreateDgraphQuery query true w = (.ok countQuery, w1) →
      s.QSLSvc.DBclient.ExecuteDgraphQuery countQuery w1 = (.ok countResp, w2) →
      s.QSLSvc.CreateDgraphQuery query false w2 = (.ok pageQuery, w3) →
      s.QSLSvc.DBclient.ExecuteDgraphQuery pageQuery w3 = (.error err, w4) →
      writes (QSLHandler lib s query w).events =
          [.statusError http.StatusInternalServerError (trim err)] ∧
        calls (QSLHandler lib s query w).events =
          [.CreateDgraphQuery query true, .ExecuteDgraphQuery countQuery,
            .CreateDgraphQuery query false, .ExecuteDgraphQuery pageQuery] ∧
        increments (QSLHandler lib s query w).events =
          [.KatlasNumReqCount, .DgraphNumQSLErr, .KatlasNumReqErr, .KatlasNumReqErr5xx]) := by
  refine ⟨?_, ?_, ?_, ?_⟩
  · intro err w1 hca hne
    simp [QSLHandler, hca, hne, writes, calls, increments, corsHeaders]
  · intro countQuery w1 err w2 hca hea
    simp [QSLHandler, hca, hea, writes, calls, increments, corsHeaders]
  · intro countQuery w1 countResp w2 err w3 hca hea hcb _
    simp [QSLHandler, hca, hea, hcb, writes, calls, increments, corsHeaders]
  · intro countQuery w1 countResp w2 pageQuery w3 err w4 hca hea hcb heb
    simp [QSLHandler, hca, hea, hcb, heb, writes, calls, increments, corsHeaders]

/-- Witness of C14: the filter `broken` (compilation error) is answered with
status 400 after the one compilation call, and the filter `gone` (the store
fails on the count query) with status 500 after two calls. -/
theorem qsl_error_outcomes_witness :
    (writes (QSLHandler sample.library sample.server "broken" 0).events =
        [.statusError http.StatusBadRequest (trim "invalid filter")] ∧
      calls (QSLHandler sample.library sample.server "broken" 0).events =
        [.CreateDgraphQuery "broken" true]) ∧
    (writes (QSLHandler sample.library sample.server "gone" 0).events =
        [.statusError http.StatusInternalServerError (trim "dgraph is \"down\"")] ∧
      calls (QSLHandler sample.library sample.server "gone" 0).events =
        [.CreateDgraphQuery "gone" true, .ExecuteDgraphQuery "gone#count"]) :=
  have h := qsl_error_outcomes sample.library sample.server
  ⟨⟨((h "broken" 0).1 "invalid filter" 1 rfl (by decide)).1,
      ((h "broken" 0).1 "invalid filter" 1 rfl (by decide)).2.1⟩,
    ⟨((h "gone" 0).2.1 "gone#count" 1 "dgraph is \"down\"" 2 rfl rfl).1,
      ((h "gone" 0).2.1 "gone#count" 1 "dgraph is \"down\"" 2 rfl rfl).2.1⟩⟩

/-- C20 (defect of the code): the count-only compilation tests the error text
for the metadata connection error and answers 500 for it; the paginated
compilation has no such test and answers 400 for every error.  The filter
`offline` meets the connection error in the count-only compilation and is
answered with status 500 and the 5xx counter; the filter `flaky` meets the same
error in the paginated compilation and is answered with status 400 and the 4xx
counter. -/
theorem qsl_connection_error_status_depends_on_plan :
    (sample.server.QSLSvc.CreateDgraphQuery "offline" true 0).1 =
        .error metadataConnectError ∧
      writes (QSLHandler sample.library sample.server "offline" 0).events =
        [.statusError http.StatusInternalServerError metadataConnectError] ∧
      increments (QSLHandler sample.library sample.server "offline" 0).events =
        [.KatlasNumReqCount, .KatlasNumReqErr, .KatlasNumReqErr5xx] ∧
    (sample.server.QSLSvc.CreateDgraphQuery "flaky" false 2).1 =
        .error metadataConnectError ∧
      writes (QSLHandler sample.library sample.server "flaky" 0).events =
        [.statusError http.StatusBadRequest metadataConnectError] ∧
      increments (QSLHandler sample.library sample.server "flaky" 0).events =
        [.KatlasNumReqCount, .KatlasNumReqErr, .KatlasNumReqErr4xx] :=
  ⟨rfl, rfl, rfl, rfl, rfl, rfl⟩

end resources

/-! ## Schema mutation and cache invalidation -/

namespace resources

variable {σ : Type}

/-- The loop of the batch upsert calls `CreateSchema` only. -/
theorem upsertLoop_calls_no_invalidation (s : ServerResource σ) (ps : List db.Schema)
    (names : List String) (w : σ) :
    ∀ c ∈ calls (upsertLoop s ps names w).1, c.isRemoveSchemaCache = false := by
  induction ps generalizing names w with
  | nil => simp [upsertLoop, calls]
  | cons p ps ih =>
    unfold upsertLoop
    split
    · simp [calls, Call.isRemoveSchemaCache]
    · rename_i w' hc
      intro c hcmem
      simp only [calls, List.mem_cons] at hcmem
      rcases hcmem with rfl | hcmem
      · rfl
      · exact ih _ _ c hcmem

/-- The loop of the batch upsert calls `CreateSchema` only, in terms of its
result. -/
theorem upsertLoop_events_no_invalidation (s : ServerResource σ) (ps : List db.Schema)
    (names : List String) (w : σ) (events : List Event) (r : Except String (List String))
    (w' : σ) (h : upsertLoop s ps names w = (events, r, w')) :
    ∀ c ∈ calls events, c.isRemoveSchemaCache = false := by
  have h0 := upsertLoop_calls_no_invalidation s ps names w
  rw [h] at h0
  exact h0

/-- The body of `SchemaUpsertHandler` does not call `RemoveSchemaCache`. -/
theorem schemaUpsertBody_no_invalidation (lib : Library) (s : ServerResource σ)
    (body : Except String (Option Json)) (w : σ) :
    ∀ c ∈ calls (schemaUpsertBody lib s body w).events, c.isRemoveSchemaCache = false := by
  unfold schemaUpsertBody
  repeat' split
  all_goals
    first
    | (simp [calls, corsHeaders, Call.isRemoveSchemaCache]; done)
    | (rename_i events _ _ hloop
       have h := upsertLoop_events_no_invalidation s _ _ _ _ _ _ hloop
       simpa [calls, calls_append, corsHeaders, Call.isRemoveSchemaCache] using h)

/-- The body of `SchemaDropHandler` does not call `RemoveSchemaCache`. -/
theorem schemaDropBody_no_invalidation (s : ServerResource σ) (predicate : String) (w : σ) :
    ∀ c ∈ calls (schemaDropBody s predicate w).events, c.isRemoveSchemaCache = false := by
  unfold schemaDropBody
  split <;> simp [calls, corsHeaders, Call.isRemoveSchemaCache]

/-- C15: in every execution of `SchemaUpsertHandler` (whatever the body: read
error, invalid JSON, single predicate, batch, complete or stopped part-way,
panic on a `null` payload) and of `SchemaDropHandler` (success or failure), the
deferred cache invalidation `RemoveSchemaCache` is the last effect of the run,
after every `CreateSchema` or `DropSchema` call and after the response is
written; no other invalidation occurs before it; and the final backend state is
the invalidation applied to the state that the body of the handler leaves. -/
theorem cache_invalidation_once_and_last (lib : Library) (s : ServerResource σ) :
    (∀ body w, ∃ before,
      (SchemaUpsertHandler lib s body w).events = before ++ [.Call .RemoveSchemaCache] ∧
      (∀ c ∈ calls before, c.isRemoveSchemaCache = false) ∧
      (SchemaUpsertHandler lib s body w).world =
        s.MetaSvc.RemoveSchemaCache (schemaUpsertBody lib s body w).world) ∧
    (∀ predicate w, ∃ before,
      (SchemaDropHandler s predicate w).events = before ++ [.Call .RemoveSchemaCache] ∧
      (∀ c ∈ calls before, c.isRemoveSchemaCache = false) ∧
      (SchemaDropHandler s predicate w).world =
        s.MetaSvc.RemoveSchemaCache (schemaDropBody s predicate w).world) := by
  constructor
  · intro body w
    refine ⟨.Inc .KatlasNumReqCount :: (schemaUpsertBody lib s body w).events, rfl, ?_, rfl⟩
    simpa [calls] using schemaUpsertBody_no_invalidation lib s body w
  · intro predicate w
    refine ⟨.Inc .KatlasNumReqCount :: (schemaDropBody s predicate w).events, rfl, ?_, rfl⟩
    simpa [calls] using schemaDropBody_no_invalidation s predicate w

/-- The loop of the batch upsert when no call fails. -/
theorem upsertLoop_all_succeed (s : ServerResource σ) (ps : List db.Schema)
    (names : List String) (w w' : σ) (h : createAll s ps w = some w') :
    upsertLoop s ps names w =
      (ps.map fun p => .Call (.CreateSchema p), .ok (names ++ ps.map (·.Predicate)), w') := by
  induction ps generalizing names w with
  | nil =>
    simp only [createAll, Option.some.injEq] at h
    simp [upsertLoop, h]
  | cons p ps ih =>
    unfold createAll at h
    cases hc : s.MetaSvc.CreateSchema p w with
    | mk r w1 =>
      cases r with
      | some err => simp [hc] at h
      | none =>
        simp only [hc] at h
        simp [upsertLoop, hc, ih _ _ h]

/-- The loop of the batch upsert when the first failing call is the one for
`p`, after the predicates `pre`. -/
theorem upsertLoop_first_failure (s : ServerResource σ) (pre post : List db.Schema)
    (p : db.Schema) (names : List String) (w w' w'' : σ) (err : String)
    (hpre : createAll s pre w = some w')
    (hfail : s.MetaSvc.CreateSchema p w' = (some err, w'')) :
    upsertLoop s (pre ++ p :: post) names w =
      ((pre ++ [p]).map fun p => .Call (.CreateSchema p), .error err, w'') := by
  induction pre generalizing names w with
  | nil =>
    simp only [createAll, Option.some.injEq] at hpre
    subst hpre
    simp [upsertLoop, hfail]
  | cons q pre ih =>
    unfold createAll at hpre
    cases hc : s.MetaSvc.CreateSchema q w with
    | mk r w1 =>
      cases r with
      | some e => simp [hc] at hpre
      | none =>
        simp only [hc] at hpre
        simp [upsertLoop, hc, ih _ _ hpre]

/-- The service calls of a list of `CreateSchema` events. -/
theorem calls_map_CreateSchema (ps : List db.Schema) :
    calls (ps.map fun p => Event.Call (.CreateSchema p)) = ps.map .CreateSchema := by
  induction ps with
  | nil => rfl
  | cons p ps ih => simp [calls, ih]

/-- The bodies written by a list of `CreateSchema` events: none. -/
theorem writes_map_CreateSchema (ps : List db.Schema) :
    writes (ps.map fun p => Event.Call (.CreateSchema p)) = [] := by
  induction ps with
  | nil => rfl
  | cons p ps ih => simp [writes, ih]

/-- The status code after a list of `CreateSchema` events is that of what follows. -/
theorem statusCode_map_CreateSchema (ps : List db.Schema) (es : List Event) :
    statusCode ((ps.map fun p => Event.Call (.CreateSchema p)) ++ es) = statusCode es := by
  induction ps with
  | nil => rfl
  | cons p ps ih => simp [statusCode, ih]

/-- C16: for a batch body, a JSON array whose generic decoding is the list
from which `mapstructure` gets the predicates `ps`,
* if `CreateSchema` succeeds on the predicates `pre` and first fails, with the
  error `err`, on the predicate `p` that follows them, `SchemaUpsertHandler`
  calls `CreateSchema` on `pre` and on `p`, in order, and on none of the
  predicates after `p`; the response is the single error body with status 500
  and the (trimmed) text of `err`, sent with the HTTP status 500;
* if `CreateSchema` succeeds on all of `ps`, it is called on each of them in
  order and the response is the status 200 with the message naming all
  predicates in input order.
In both cases the cache invalidation is the one call that follows. -/
theorem batch_upsert_stops_at_first_failure (lib : Library) (s : ServerResource σ)
    (xs ys : List Json) (ps : List db.Schema) (w : σ)
    (hjson : util.decodeInterface lib.json (.arr xs) = .ok (.arr ys))
    (hdec : lib.DecodeSchemas (.arr ys) = .ok ps) :
    (∀ pre p post w' err w'', ps = pre ++ p :: post → createAll s pre w = some w' →
      s.MetaSvc.CreateSchema p w' = (some err, w'') →
      calls (SchemaUpsertHandler lib s (.ok (some (.arr xs))) w).events =
          (pre ++ [p]).map .CreateSchema ++ [.RemoveSchemaCache] ∧
        writes (SchemaUpsertHandler lib s (.ok (some (.arr xs))) w).events =
          [.statusError http.StatusInternalServerError (trim err)] ∧
        statusCode (SchemaUpsertHandler lib s (.ok (some (.arr xs))) w).events =
          http.StatusInternalServerError) ∧
    (∀ w', createAll s ps w = some w' →
      calls (SchemaUpsertHandler lib s (.ok (some (.arr xs))) w).events =
          ps.map .CreateSchema ++ [.RemoveSchemaCache] ∧
        writes (SchemaUpsertHandler lib s (.ok (some (.arr xs))) w).events =
          [.marshal
            [ ("status", .num http.StatusOK),
              ("message",
                .str (sprintStrings (ps.map (·.Predicate)) ++ " upsert successfully")) ]] ∧
        statusCode (SchemaUpsertHandler lib s (.ok (some (.arr xs))) w).events =
          http.StatusOK) := by
  constructor
  · intro pre p post w' err w'' hps hpre hfail
    subst hps
    have hloop := upsertLoop_first_failure s pre post p [] w w' w'' err hpre hfail
    refine ⟨?_, ?_, ?_⟩
    · simp [SchemaUpsertHandler, deferRemoveSchemaCache, schemaUpsertBody, util.Unmarshal, hjson,
        hdec, hloop, calls, calls_append, corsHeaders, calls_map_CreateSchema]
    · simp [SchemaUpsertHandler, deferRemoveSchemaCache, schemaUpsertBody, util.Unmarshal, hjson,
        hdec, hloop, writes, writes_append, corsHeaders, writes_map_CreateSchema]
    · simp [SchemaUpsertHandler, deferRemoveSchemaCache, schemaUpsertBody, util.Unmarshal, hjson,
        hdec, hloop, statusCode, corsHeaders, statusCode_map_CreateSchema]
  · intro w' hall
    have hloop := upsertLoop_all_succeed s ps [] w w' hall
    refine ⟨?_, ?_, ?_⟩
    · simp [SchemaUpsertHandler, deferRemoveSchemaCache, schemaUpsertBody, util.Unmarshal, hjson,
        hdec, hloop, calls, calls_append, corsHeaders, calls_map_CreateSchema]
    · simp [SchemaUpsertHandler, deferRemoveSchemaCache, schemaUpsertBody, util.Unmarshal, hjson,
        hdec, hloop, writes, writes_append, corsHeaders, writes_map_CreateSchema]
    · simp [SchemaUpsertHandler, deferRemoveSchemaCache, schemaUpsertBody, util.Unmarshal, hjson,
        hdec, hloop, statusCode, corsHeaders, statusCode_map_CreateSchema]

/-- Witness of C16: in the batch `a, bad, c` the schema of `bad` is rejected:
`CreateSchema` is called for `a` and `bad` only and the response is the one
error with status 500; the batch `a, b` is answered with status 200 and the
message naming `a` and `b`. -/
theorem batch_upsert_stops_at_first_failure_witness :
    (calls (SchemaUpsertHandler sample.library sample.server
        (.ok (some sample.schemaBatchFailing)) 0).events =
        [ .CreateSchema { Predicate := "a", Type_ := "string", Index := false, List_ := false },
          .CreateSchema { Predicate := "bad", Type_ := "string", Index := false, List_ := false },
          .RemoveSchemaCache ] ∧
      writes (SchemaUpsertHandler sample.library sample.server
        (.ok (some sample.schemaBatchFailing)) 0).events =
        [.statusError http.StatusInternalServerError "predicate bad rejected"]) ∧
    writes (SchemaUpsertHandler sample.library sample.server
        (.ok (some sample.schemaBatch)) 0).events =
      [.marshal [("status", .num http.StatusOK), ("message", .str "[a b] upsert successfully")]] :=
  have h1 := (batch_upsert_stops_at_first_failure sample.library sample.server
    [.obj [("predicate", .str "a")], .obj [("predicate", .str "bad")],
      .obj [("predicate", .str "c")]]
    [.obj [("predicate", .str "a")], .obj [("predicate", .str "bad")],
      .obj [("predicate", .str "c")]]
    [ { Predicate := "a", Type_ := "string", Index := false, List_ := false },
      { Predicate := "bad", Type_ := "string", Index := false, List_ := false },
      { Predicate := "c", Type_ := "string", Index := false, List_ := false } ] 0 rfl rfl).1
    [{ Predicate := "a", Type_ := "string", Index := false, List_ := false }]
    { Predicate := "bad", Type_ := "string", Index := false, List_ := false }
    [{ Predicate := "c", Type_ := "string", Index := false, List_ := false }]
    1 "predicate \"bad\" rejected" 2 rfl rfl rfl
  have h2 := (batch_upsert_stops_at_first_failure sample.library sample.server
    [.obj [("predicate", .str "a")], .obj [("predicate", .str "b")]]
    [.obj [("predicate", .str "a")], .obj [("predicate", .str "b")]]
    [ { Predicate := "a", Type_ := "string", Index := false, List_ := false },
      { Predicate := "b", Type_ := "string", Index := false, List_ := false } ] 0 rfl rfl).2 2 rfl
  ⟨⟨h1.1, h1.2.1.trans rfl⟩, h2.2.1.trans rfl⟩

end resources

/-! ## `EntitySyncHandler` and `EntityGetHandler` -/

namespace resources

variable {σ : Type}

/-- C17 as stated fails: the sync request for pods with the list `[p1, "oops"]`,
whose second element is malformed, is answered with status 400; the handler
calls no service and starts no goroutine, so the well-formed `p1` is not handed
to `SyncEntities`. -/
theorem sync_with_malformed_element_not_accepted :
    statusCode (EntitySyncHandler sample.library sample.server "pod" "c1"
        (.ok (some (.arr [sample.podOwned, sample.malformed]))) 0).handler.events =
      http.StatusBadRequest ∧
    calls (EntitySyncHandler sample.library sample.server "pod" "c1"
        (.ok (some (.arr [sample.podOwned, sample.malformed]))) 0).handler.events = [] ∧
    (EntitySyncHandler sample.library sample.server "pod" "c1"
        (.ok (some (.arr [sample.podOwned, sample.malformed]))) 0).goroutine.isNone = true :=
  ⟨rfl, rfl, rfl⟩

/-- C17, amended: a sync request of a supported kind whose list payload has an
element that the decoder of the kind rejects is answered with status 400 and
the (trimmed) decoding error; the handler calls no service and starts no
goroutine: nothing, the well-formed elements included, is handed to
`SyncEntities`. -/
theorem sync_with_malformed_element_rejected (lib : Library) (s : ServerResource σ)
    (meta clusterName : String) (xs : List Json) (w : σ)
    (hkind : meta ∈ util.supportedKinds)
    (hbad : ∃ x ∈ xs, ∃ e, lib.json.decode meta x = .error e) :
    ∃ err,
      statusCode (EntitySyncHandler lib s meta clusterName
          (.ok (some (.arr xs))) w).handler.events = http.StatusBadRequest ∧
      writes (EntitySyncHandler lib s meta clusterName
          (.ok (some (.arr xs))) w).handler.events =
        [.statusError http.StatusBadRequest (trim err)] ∧
      calls (EntitySyncHandler lib s meta clusterName
          (.ok (some (.arr xs))) w).handler.events = [] ∧
      (EntitySyncHandler lib s meta clusterName
          (.ok (some (.arr xs))) w).goroutine.isNone = true := by
  obtain ⟨err, herr⟩ :=
    util.list_error_of_rejected_element lib.json clusterName meta xs hkind hbad
  exact ⟨err, by simp [EntitySyncHandler, herr, statusCode, corsHeaders],
    by simp [EntitySyncHandler, herr, writes, corsHeaders],
    by simp [EntitySyncHandler, herr, calls, corsHeaders],
    by simp [EntitySyncHandler, herr]⟩

/-- Witness of the amended C17 at the pod list `[p1, "oops"]`. -/
theorem sync_with_malformed_element_rejected_witness :
    ∃ err,
      statusCode (EntitySyncHandler sample.library sample.server "pod" "c1"
          (.ok (some (.arr [sample.podOwned, sample.malformed]))) 0).handler.events =
        http.StatusBadRequest ∧
      writes (EntitySyncHandler sample.library sample.server "pod" "c1"
          (.ok (some (.arr [sample.podOwned, sample.malformed]))) 0).handler.events =
        [.statusError http.StatusBadRequest (trim err)] ∧
      calls (EntitySyncHandler sample.library sample.server "pod" "c1"
          (.ok (some (.arr [sample.podOwned, sample.malformed]))) 0).handler.events = [] ∧
      (EntitySyncHandler sample.library sample.server "pod" "c1"
          (.ok (some (.arr [sample.podOwned, sample.malformed]))) 0).goroutine.isNone = true :=
  sync_with_malformed_element_rejected sample.library sample.server "pod" "c1"
    [sample.podOwned, sample.malformed] 0 (by decide) ⟨sample.malformed, by simp, _, rfl⟩

/-- C18: for a sync request whose payload `BuildEntityData` normalizes without
error, the run of the handler is the two header fields, the request counter,
`WriteHeader(202)`, the body `<kind> sync request accepted` with status 202 and
the `go` statement, on an unchanged backend state: it does not mention the
services, so it is the same for every behaviour of `SyncEntities`, which is
called in the goroutine only.  The goroutine writes nothing to the response;
when `SyncEntities` fails its effects after the call are the two error counters
and the log line, and when it succeeds the log line and the 2xx counter. -/
theorem sync_response_fixed_before_processing (lib : Library) (s : ServerResource σ)
    (meta clusterName : String) (body : Option Json) (payload : util.Result) (w : σ)
    (hbuild : util.BuildEntityData lib.json clusterName meta body true = .ok payload) :
    (EntitySyncHandler lib s meta clusterName (.ok body) w).handler =
      { world := w,
        events := corsHeaders ++
          [ .Inc .KatlasNumReqCount, .WriteHeader http.StatusAccepted,
            .Write (.statusMessage http.StatusAccepted (meta ++ " sync request accepted")),
            .Go ],
        panicked := false } ∧
    (∀ s' : ServerResource σ,
      (EntitySyncHandler lib s' meta clusterName (.ok body) w).handler =
        (EntitySyncHandler lib s meta clusterName (.ok body) w).handler) ∧
    (EntitySyncHandler lib s meta clusterName (.ok body) w).goroutine =
      some (syncGoroutine s meta payload) ∧
    (∀ w', writes (syncGoroutine s meta payload w').events = [] ∧
      statusCode (syncGoroutine s meta payload w').events = http.StatusOK) ∧
    (∀ entities w' err w'', payload = .list entities →
      s.EntitySvc.SyncEntities meta entities w' = (some err, w'') →
      (syncGoroutine s meta payload w').events =
        [ .Call (.SyncEntities meta entities), .Inc .KatlasNumReqErr, .Inc .KatlasNumReqErr5xx,
          .Log err ]) ∧
    (∀ entities w' w'', payload = .list entities →
      s.EntitySvc.SyncEntities meta entities w' = (none, w'') →
      (syncGoroutine s meta payload w').events =
        [ .Call (.SyncEntities meta entities),
          .Log (meta ++ " sync completed, total " ++ toString entities.length ++ " synced"),
          .Inc .KatlasNumReq2xx ]) := by
  refine ⟨by simp [EntitySyncHandler, hbuild], ?_, by simp [EntitySyncHandler, hbuild], ?_, ?_,
    ?_⟩
  · intro s'
    simp [EntitySyncHandler, hbuild]
  · intro w'
    unfold syncGoroutine
    cases payload with
    | list entities =>
      cases hs : s.EntitySvc.SyncEntities meta entities w' with
      | mk r w'' => cases r <;> simp [hs, writes, statusCode]
    | entity e => simp [writes, statusCode]
    | generic j => simp [writes, statusCode]
  · intro entities w' err w'' hp hs
    subst hp
    simp [syncGoroutine, hs]
  · intro entities w' w'' hp hs
    subst hp
    simp [syncGoroutine, hs]

/-- Witness of C18: the pod list `[p1]` is accepted with status 202 and the
message `pod sync request accepted`. -/
theorem sync_response_fixed_before_processing_witness :
    writes (EntitySyncHandler sample.library sample.server "pod" "c1"
        (.ok (some (.arr [sample.podOwned]))) 0).handler.events =
      [.statusMessage http.StatusAccepted "pod sync request accepted"] ∧
    statusCode (EntitySyncHandler sample.library sample.server "pod" "c1"
        (.ok (some (.arr [sample.podOwned]))) 0).handler.events = http.StatusAccepted := by
  have h := (sync_response_fixed_before_processing sample.library sample.server "pod" "c1"
    (some (.arr [sample.podOwned])) _ 0 rfl).1
  rw [h]
  exact ⟨rfl, rfl⟩

/-- C19: `EntityGetHandler` answers
* with the HTTP status 500 exactly when `GetEntity` returns an error, and then
  with the error body of status 500;
* with the HTTP status 404 exactly when `GetEntity` returns no error and an
  empty entity, and then with the body `entity with id <uid> not found` of
  status 404;
* otherwise with the HTTP status 200 and the marshalled entity to which the
  key `status` is added: in the map written, `status` reads 200 and every other
  key reads what the entity has under it. -/
theorem entity_get_distinguishes_not_found (s : ServerResource σ) (uid : String) (w w' : σ)
    (r : Except String JsonMap) (hget : s.EntitySvc.GetEntity uid w = (r, w')) :
    (statusCode (EntityGetHandler s uid w).events = http.StatusInternalServerError ↔
      ∃ err, r = .error err) ∧
    (∀ err, r = .error err →
      writes (EntityGetHandler s uid w).events =
        [.statusError http.StatusInternalServerError (trim err)]) ∧
    (statusCode (EntityGetHandler s uid w).events = http.StatusNotFound ↔ r = .ok []) ∧
    (r = .ok [] →
      writes (EntityGetHandler s uid w).events =
        [.statusError http.StatusNotFound ("entity with id " ++ uid ++ " not found")]) ∧
    (∀ obj, r = .ok obj → obj ≠ [] →
      statusCode (EntityGetHandler s uid w).events = http.StatusOK ∧
      writes (EntityGetHandler s uid w).events =
        [.marshal (obj.set "status" (.num http.StatusOK))] ∧
      ∃ m : JsonMap, writes (EntityGetHandler s uid w).events = [.marshal m] ∧
        m.get? "status" = some (.num http.StatusOK) ∧
        ∀ k, k ≠ "status" → m.get? k = obj.get? k) := by
  have hread : ∀ obj : JsonMap,
      (obj.set "status" (.num http.StatusOK)).get? "status" = some (.num http.StatusOK) ∧
        ∀ k, k ≠ "status" → (obj.set "status" (.num http.StatusOK)).get? k = obj.get? k :=
    fun obj => ⟨JsonMap.read_written_key _ _ _, fun k hk => JsonMap.read_other_key _ _ _ _ hk⟩
  cases r with
  | error err =>
    simp [EntityGetHandler, hget, statusCode, writes, corsHeaders, http.StatusNotFound,
      http.StatusInternalServerError]
  | ok obj =>
    cases obj with
    | nil =>
      simp [EntityGetHandler, hget, statusCode, writes, corsHeaders, http.StatusNotFound,
        http.StatusInternalServerError]
    | cons kv obj =>
      refine ⟨by simp [EntityGetHandler, hget, statusCode, corsHeaders,
        http.StatusInternalServerError, http.StatusOK], by simp, by
          simp [EntityGetHandler, hget, statusCode, corsHeaders, http.StatusNotFound,
            http.StatusOK], by simp, ?_⟩
      intro obj' hobj hne
      simp only [Except.ok.injEq] at hobj
      subst hobj
      have hw : writes (EntityGetHandler s uid w).events =
          [.marshal (JsonMap.set (kv :: obj) "status" (.num http.StatusOK))] := by
        simp [EntityGetHandler, hget, writes, corsHeaders]
      exact ⟨by simp [EntityGetHandler, hget, statusCode, corsHeaders], hw,
        _, hw, (hread _).1, (hread _).2⟩

/-- Witness of C19: the lookup of `boom` fails and is answered with 500, the
unknown `0x9` with 404, the entity `0x1` with 200 and a body in which `status`
reads 200 and `name` reads `p1`, as in the entity. -/
theorem entity_get_distinguishes_not_found_witness :
    statusCode (EntityGetHandler sample.server "boom" 0).events =
      http.StatusInternalServerError ∧
    statusCode (EntityGetHandler sample.server "0x9" 0).events = http.StatusNotFound ∧
    statusCode (EntityGetHandler sample.server "0x1" 0).events = http.StatusOK ∧
    ∃ m : JsonMap, writes (EntityGetHandler sample.server "0x1" 0).events = [.marshal m] ∧
      m.get? "status" = some (.num http.StatusOK) ∧ m.get? "name" = some (.str "p1") := by
  obtain ⟨hcode, -, m, hm, hstatus, hkeys⟩ :=
    (entity_get_distinguishes_not_found sample.server "0x1" 0 1 _ rfl).2.2.2.2 _ rfl (by simp)
  exact ⟨(entity_get_distinguishes_not_found sample.server "boom" 0 1 _ rfl).1.mpr ⟨_, rfl⟩,
    (entity_get_distinguishes_not_found sample.server "0x9" 0 1 _ rfl).2.2.1.mpr rfl,
    hcode, m, hm, hstatus, (hkeys "name" (by decide)).trans rfl⟩

end resources

/-! ## `trim` -/

namespace strings

/-- Replacement adds no character: a character of the result comes from the
input or from the replacement text. -/
theorem mem_replaceFrom (old new : List Char) (k : Nat) (s : List Char) (x : Char)
    (h : x ∈ replaceFrom old new k s) : x ∈ s ∨ x ∈ new := by
  induction s generalizing k with
  | nil => simp [replaceFrom] at h
  | cons a rest ih =>
    cases k with
    | succ k =>
      simp only [replaceFrom] at h
      rcases ih k h with h | h
      · exact Or.inl (List.mem_cons_of_mem _ h)
      · exact Or.inr h
    | zero =>
      simp only [replaceFrom] at h
      split at h
      · rcases List.mem_append.mp h with h | h
        · exact Or.inr h
        · rcases ih _ h with h | h
          · exact Or.inl (List.mem_cons_of_mem _ h)
          · exact Or.inr h
      · rcases List.mem_cons.mp h with h | h
        · exact Or.inl (h ▸ List.mem_cons_self _ _)
        · rcases ih _ h with h | h
          · exact Or.inl (List.mem_cons_of_mem _ h)
          · exact Or.inr h

/-- Replacing every occurrence of one character by a text without that
character leaves no occurrence of it. -/
theorem not_mem_replaceFrom_single (c : Char) (new : List Char) (hc : c ∉ new)
    (s : List Char) : c ∉ replaceFrom [c] new 0 s := by
  induction s with
  | nil => simp [replaceFrom]
  | cons a rest ih =>
    simp only [replaceFrom]
    split
    · simp only [List.length_singleton, Nat.sub_self, List.mem_append, not_or]
      exact ⟨hc, ih⟩
    · rename_i hpre
      have hne : c ≠ a := by
        intro h
        apply hpre
        simp [h, List.isPrefixOf]
      simp only [List.mem_cons, not_or]
      exact ⟨hne, ih⟩

/-- A text in which the first character of `old` does not occur is left as it
is. -/
theorem replaceFrom_of_head_not_mem (c : Char) (tl new : List Char) (s : List Char)
    (h : c ∉ s) : replaceFrom (c :: tl) new 0 s = s := by
  induction s with
  | nil => rfl
  | cons a rest ih =>
    have hne : c ≠ a := fun hca => h (hca ▸ List.mem_cons_self _ _)
    have hrest : c ∉ rest := fun hr => h (List.mem_cons_of_mem _ hr)
    simp [replaceFrom, List.isPrefixOf, hne, ih hrest]

end strings

namespace resources

/-- The characters of `trim s`: the four replacements, one after the other. -/
theorem trim_data (s : String) :
    (trim s).data =
      strings.replaceFrom ['\\'] [] 0
        (strings.replaceFrom ['"'] [] 0
          (strings.replaceFrom ['\\', 'n'] [' '] 0
            (strings.replaceFrom ['\n'] [' '] 0 s.data))) :=
  rfl

/-- A text without newline, quotation mark and backslash is left as it is by
`trim`. -/
theorem trim_of_clean (s : String) (hn : '\n' ∉ s.data) (hq : '"' ∉ s.data)
    (hb : '\\' ∉ s.data) : trim s = s := by
  apply String.ext
  rw [trim_data, strings.replaceFrom_of_head_not_mem '\n' [] [' '] s.data hn,
    strings.replaceFrom_of_head_not_mem '\\' ['n'] [' '] s.data hb,
    strings.replaceFrom_of_head_not_mem '"' [] [] s.data hq,
    strings.replaceFrom_of_head_not_mem '\\' [] [] s.data hb]

/-- C22: for every string `s`, `trim s` contains no newline, no quotation mark
and no backslash; hence `trim` applied twice gives what it gives applied
once. -/
theorem trim_removes_and_is_idempotent (s : String) :
    '\n' ∉ (trim s).data ∧ '"' ∉ (trim s).data ∧ '\\' ∉ (trim s).data ∧
      trim (trim s) = trim s := by
  have hb : '\\' ∉ (trim s).data := by
    rw [trim_data]
    exact strings.not_mem_replaceFrom_single '\\' [] (by simp) _
  have hq : '"' ∉ (trim s).data := by
    rw [trim_data]
    intro h
    rcases strings.mem_replaceFrom _ _ _ _ _ h with h | h
    · exact strings.not_mem_replaceFrom_single '"' [] (by simp) _ h
    · simp at h
  have hn : '\n' ∉ (trim s).data := by
    rw [trim_data]
    intro h
    rcases strings.mem_replaceFrom _ _ _ _ _ h with h | h
    · rcases strings.mem_replaceFrom _ _ _ _ _ h with h | h
      · rcases strings.mem_replaceFrom _ _ _ _ _ h with h | h
        · exact strings.not_mem_replaceFrom_single '\n' [' '] (by decide) _ h
        · exact absurd h (by decide)
      · simp at h
    · simp at h
  exact ⟨hn, hq, hb, trim_of_clean (trim s) hn hq hb⟩

end resources

/-! ## Body status against HTTP status -/

namespace resources

variable {σ : Type}

/-- In `EntityGetHandler` the body status is the HTTP status on every path. -/
theorem entityGet_statusConsistent (s : ServerResource σ) (uid : String) (w : σ) :
    StatusConsistent (EntityGetHandler s uid w).events := by
  unfold EntityGetHandler
  cases hget : s.EntitySvc.GetEntity uid w with
  | mk r w' =>
    cases r with
    | error err =>
      simp [StatusConsistent, writes, statusCode, corsHeaders, Body.status]
    | ok obj =>
      by_cases hlen : obj.length = 0
      · simp [hlen, StatusConsistent, writes, statusCode, corsHeaders, Body.status]
      · simp [hlen, StatusConsistent, writes, statusCode, corsHeaders, Body.status,
          JsonMap.read_written_key]

/-- In `EntitySyncHandler` the body status is the HTTP status on every path. -/
theorem entitySync_statusConsistent (lib : Library) (s : ServerResource σ)
    (meta clusterName : String) (body : Except String (Option Json)) (w : σ) :
    StatusConsistent (EntitySyncHandler lib s meta clusterName body w).handler.events := by
  unfold EntitySyncHandler
  cases body with
  | error err => simp [StatusConsistent, writes, statusCode, corsHeaders, Body.status]
  | ok body =>
    cases hb : util.BuildEntityData lib.json clusterName meta body true <;>
      simp [hb, StatusConsistent, writes, statusCode, corsHeaders, Body.status]

/-- The events of the batch loop are calls of `CreateSchema`. -/
theorem upsertLoop_events_are_calls (s : ServerResource σ) (ps : List db.Schema)
    (names : List String) (w : σ) :
    ∃ qs : List db.Schema,
      (upsertLoop s ps names w).1 = qs.map fun p => Event.Call (.CreateSchema p) := by
  induction ps generalizing names w with
  | nil => exact ⟨[], rfl⟩
  | cons p ps ih =>
    unfold upsertLoop
    cases hc : s.MetaSvc.CreateSchema p w with
    | mk r w' =>
      cases r with
      | some err => exact ⟨[p], rfl⟩
      | none =>
        obtain ⟨qs, hqs⟩ := ih (names ++ [p.Predicate]) w'
        exact ⟨p :: qs, by simp [hqs]⟩

/-- In `SchemaDropHandler` the body status is the HTTP status on every path. -/
theorem schemaDrop_statusConsistent (s : ServerResource σ) (predicate : String) (w : σ) :
    StatusConsistent (SchemaDropHandler s predicate w).events := by
  unfold SchemaDropHandler deferRemoveSchemaCache schemaDropBody
  cases hd : s.MetaSvc.DropSchema predicate w with
  | mk r w' =>
    cases r <;>
      simp [StatusConsistent, writes, statusCode, corsHeaders, Body.status, JsonMap.get?,
        List.lookup]

/-- In `SchemaUpsertHandler` the body status is the HTTP status on every path. -/
theorem schemaUpsert_statusConsistent (lib : Library) (s : ServerResource σ)
    (body : Except String (Option Json)) (w : σ) :
    StatusConsistent (SchemaUpsertHandler lib s body w).events := by
  unfold SchemaUpsertHandler deferRemoveSchemaCache schemaUpsertBody
  repeat' split
  all_goals
    first
    | (simp [StatusConsistent, writes, statusCode, corsHeaders, Body.status, JsonMap.get?,
        List.lookup]; done)
    | (rename_i events _ _ hloop
       obtain ⟨qs, hqs⟩ := upsertLoop_events_are_calls s _ [] w
       rw [hloop] at hqs
       simp only at hqs
       subst hqs
       simp [StatusConsistent, writes, writes_append, writes_map_CreateSchema, statusCode,
         statusCode_map_CreateSchema, corsHeaders, Body.status, JsonMap.get?, List.lookup])

/-- C21 (defect of the code): `QSLHandler` never calls `WriteHeader`, so the
HTTP status of its response is 200 on every path, while its error paths write
the status 400 or 500 into the body.  For the filter `broken` (compilation
error) the body status is 400, for the filter `gone` (store error) it is 500,
and both responses are sent with the HTTP status 200: body status and HTTP
status differ. -/
theorem qsl_error_status_not_sent (lib : Library) (s : ServerResource σ) (query : String)
    (w : σ) :
    statusCode (QSLHandler lib s query w).events = http.StatusOK ∧
    ((writes (QSLHandler sample.library sample.server "broken" 0).events).map Body.status =
        [some (.num http.StatusBadRequest)] ∧
      statusCode (QSLHandler sample.library sample.server "broken" 0).events = http.StatusOK ∧
      ¬ StatusConsistent (QSLHandler sample.library sample.server "broken" 0).events) ∧
    ((writes (QSLHandler sample.library sample.server "gone" 0).events).map Body.status =
        [some (.num http.StatusInternalServerError)] ∧
      statusCode (QSLHandler sample.library sample.server "gone" 0).events = http.StatusOK ∧
      ¬ StatusConsistent (QSLHandler sample.library sample.server "gone" 0).events) := by
  refine ⟨?_, ⟨rfl, rfl, ?_⟩, ⟨rfl, rfl, ?_⟩⟩
  · unfold QSLHandler
    repeat' split
    all_goals simp [statusCode, corsHeaders]
  · intro h
    have h1 := h (.statusError http.StatusBadRequest (trim "invalid filter"))
      (by
        have hw : writes (QSLHandler sample.library sample.server "broken" 0).events =
            [.statusError http.StatusBadRequest (trim "invalid filter")] := rfl
        rw [hw]
        exact List.mem_singleton.mpr rfl)
    have hs : statusCode (QSLHandler sample.library sample.server "broken" 0).events =
        http.StatusOK := rfl
    rw [hs] at h1
    simp [Body.status, http.StatusBadRequest, http.StatusOK] at h1
  · intro h
    have h1 := h (.statusError http.StatusInternalServerError (trim "dgraph is \"down\""))
      (by
        have hw : writes (QSLHandler sample.library sample.server "gone" 0).events =
            [.statusError http.StatusInternalServerError (trim "dgraph is \"down\"")] := rfl
        rw [hw]
        exact List.mem_singleton.mpr rfl)
    have hs : statusCode (QSLHandler sample.library sample.server "gone" 0).events =
        http.StatusOK := rfl
    rw [hs] at h1
    simp [Body.status, http.StatusInternalServerError, http.StatusOK] at h1

end resources

/-! ## The default kind: decoding into `interface{}` -/

namespace util

mutual

theorem decodeInterface_ok_iff (u : Codec) :
    ∀ j : Json, (∃ v, decodeInterface u j = .ok v) ↔ ∀ n ∈ j.numbers, ∃ f, u.Float64 n = .ok f
  | .null => by simp [decodeInterface, Json.numbers]
  | .bool b => by simp [decodeInterface, Json.numbers]
  | .str s => by simp [decodeInterface, Json.numbers]
  | .num n => by
    cases h : u.Float64 n <;> simp [decodeInterface, Json.numbers, h]
  | .arr xs => by
    have ih := decodeElements_ok_iff u xs
    simp only [Json.numbers]
    rw [← ih]
    cases h : decodeElements u xs <;> simp [decodeInterface, h]
  | .obj kvs => by
    have ih := decodeMembers_ok_iff u kvs
    simp only [Json.numbers]
    rw [← ih]
    cases h : decodeMembers u kvs <;> simp [decodeInterface, h]

theorem decodeElements_ok_iff (u : Codec) :
    ∀ xs : List Json, (∃ ys, decodeElements u xs = .ok ys) ↔
      ∀ n ∈ Json.numbersOfElements xs, ∃ f, u.Float64 n = .ok f
  | [] => by simp [decodeElements, Json.numbersOfElements]
  | x :: xs => by
    have ih1 := decodeInterface_ok_iff u x
    have ih2 := decodeElements_ok_iff u xs
    simp only [Json.numbersOfElements, List.mem_append]
    constructor
    · rintro ⟨ys, h⟩ n hn
      cases h1 : decodeInterface u x with
      | error e => simp [decodeElements, h1] at h
      | ok y =>
        cases h2 : decodeElements u xs with
        | error e => simp [decodeElements, h1, h2] at h
        | ok ys' =>
          rcases hn with hn | hn
          · exact ih1.mp ⟨y, h1⟩ n hn
          · exact ih2.mp ⟨ys', h2⟩ n hn
    · intro h
      obtain ⟨y, h1⟩ := ih1.mpr fun n hn => h n (Or.inl hn)
      obtain ⟨ys, h2⟩ := ih2.mpr fun n hn => h n (Or.inr hn)
      exact ⟨y :: ys, by simp [decodeElements, h1, h2]⟩

theorem decodeMembers_ok_iff (u : Codec) :
    ∀ kvs : List (String × Json), (∃ ms, decodeMembers u kvs = .ok ms) ↔
      ∀ n ∈ Json.numbersOfMembers kvs, ∃ f, u.Float64 n = .ok f
  | [] => by simp [decodeMembers, Json.numbersOfMembers]
  | (k, x) :: kvs => by
    have ih1 := decodeInterface_ok_iff u x
    have ih2 := decodeMembers_ok_iff u kvs
    simp only [Json.numbersOfMembers, List.mem_append]
    constructor
    · rintro ⟨ys, h⟩ n hn
      cases h1 : decodeInterface u x with
      | error e => simp [decodeMembers, h1] at h
      | ok y =>
        cases h2 : decodeMembers u kvs with
        | error e => simp [decodeMembers, h1, h2] at h
        | ok ys' =>
          rcases hn with hn | hn
          · exact ih1.mp ⟨y, h1⟩ n hn
          · exact ih2.mp ⟨ys', h2⟩ n hn
    · intro h
      obtain ⟨y, h1⟩ := ih1.mpr fun n hn => h n (Or.inl hn)
      obtain ⟨ys, h2⟩ := ih2.mpr fun n hn => h n (Or.inr hn)
      exact ⟨(k, y) :: ys, by simp [decodeMembers, h1, h2]⟩

end

/-- The elements decoded into `interface{}` values are the decodings of the
elements, in order. -/
theorem decodeElements_forall₂ (u : Codec) (xs ys : List Json)
    (h : decodeElements u xs = .ok ys) :
    List.Forall₂ (fun x y => decodeInterface u x = .ok y) xs ys := by
  induction xs generalizing ys with
  | nil =>
    simp only [decodeElements, Except.ok.injEq] at h
    subst h
    exact List.Forall₂.nil
  | cons x xs ih =>
    cases h1 : decodeInterface u x with
    | error e => simp [decodeElements, h1] at h
    | ok y =>
      cases h2 : decodeElements u xs with
      | error e => simp [decodeElements, h1, h2] at h
      | ok ys' =>
        simp only [decodeElements, h1, h2, Except.ok.injEq] at h
        subst h
        exact List.Forall₂.cons h1 (ih ys' h2)

/-- The decoded members have the keys of the members, in order. -/
theorem decodeMembers_keys (u : Codec) (kvs ms : List (String × Json))
    (h : decodeMembers u kvs = .ok ms) : ms.map Prod.fst = kvs.map Prod.fst := by
  induction kvs generalizing ms with
  | nil =>
    simp only [decodeMembers, Except.ok.injEq] at h
    subst h
    rfl
  | cons kv kvs ih =>
    obtain ⟨k, x⟩ := kv
    cases h1 : decodeInterface u x with
    | error e => simp [decodeMembers, h1] at h
    | ok y =>
      cases h2 : decodeMembers u kvs with
      | error e => simp [decodeMembers, h1, h2] at h
      | ok ms' =>
        simp only [decodeMembers, h1, h2, Except.ok.injEq] at h
        subst h
        simp [ih ms' h2]

/-- Every decoded member is the decoding of a member of the same key. -/
theorem decodeMembers_values (u : Codec) (kvs ms : List (String × Json))
    (h : decodeMembers u kvs = .ok ms) (k : String) (y : Json) (hy : (k, y) ∈ ms) :
    ∃ x, (k, x) ∈ kvs ∧ decodeInterface u x = .ok y := by
  induction kvs generalizing ms with
  | nil =>
    simp only [decodeMembers, Except.ok.injEq] at h
    subst h
    simp at hy
  | cons kv kvs ih =>
    obtain ⟨k0, x⟩ := kv
    cases h1 : decodeInterface u x with
    | error e => simp [decodeMembers, h1] at h
    | ok y0 =>
      cases h2 : decodeMembers u kvs with
      | error e => simp [decodeMembers, h1, h2] at h
      | ok ms' =>
        simp only [decodeMembers, h1, h2, Except.ok.injEq] at h
        subst h
        rcases List.mem_cons.mp hy with heq | hmem
        · cases heq
          exact ⟨x, List.mem_cons_self _ _, h1⟩
        · obtain ⟨x', hx', hd⟩ := ih ms' h2 hmem
          exact ⟨x', List.mem_cons_of_mem _ hx', hd⟩

/-- Two association lists with the same keys have a value under the same keys. -/
theorem lookup_isSome_of_keys (k : String) (l1 l2 : List (String × Json))
    (h : l1.map Prod.fst = l2.map Prod.fst) :
    (l1.lookup k).isSome = (l2.lookup k).isSome := by
  induction l1 generalizing l2 with
  | nil =>
    cases l2 with
    | nil => rfl
    | cons b l2 => simp at h
  | cons a l1 ih =>
    cases l2 with
    | nil => simp at h
    | cons b l2 =>
      obtain ⟨ka, va⟩ := a
      obtain ⟨kb, vb⟩ := b
      simp only [List.map_cons, List.cons.injEq] at h
      obtain ⟨hk, hrest⟩ := h
      subst hk
      by_cases hkk : k = ka
      · subst hkk
        simp [List.lookup]
      · have hb : (k == ka) = false := by simpa using hkk
        simp [List.lookup, hb, ih l2 hrest]

/-- The keys of the map built by writing the members one after the other. -/
theorem foldl_set_isSome (ms : List (String × Json)) (acc : JsonMap) (k : String) :
    ((ms.foldl (fun m kv => JsonMap.set m kv.1 kv.2) acc).get? k).isSome =
      ((acc.get? k).isSome || (ms.lookup k).isSome) := by
  induction ms generalizing acc with
  | nil => simp [List.lookup]
  | cons kv ms ih =>
    obtain ⟨k0, v0⟩ := kv
    simp only [List.foldl_cons]
    rw [ih]
    by_cases hkk : k = k0
    · subst hkk
      simp [JsonMap.read_written_key, List.lookup]
    · have hb : (k == k0) = false := by simpa using hkk
      simp [JsonMap.read_other_key _ _ _ _ hkk, List.lookup, hb]

/-- The values of the map built by writing the members one after the other. -/
theorem foldl_set_get (ms : List (String × Json)) (acc : JsonMap) (k : String) (y : Json)
    (h : (ms.foldl (fun m kv => JsonMap.set m kv.1 kv.2) acc).get? k = some y) :
    acc.get? k = some y ∨ (k, y) ∈ ms := by
  induction ms generalizing acc with
  | nil => exact Or.inl h
  | cons kv ms ih =>
    obtain ⟨k0, v0⟩ := kv
    simp only [List.foldl_cons] at h
    rcases ih _ h with h' | h'
    · by_cases hkk : k = k0
      · subst hkk
        rw [JsonMap.read_written_key] at h'
        cases h'
        exact Or.inr (List.mem_cons_self _ _)
      · rw [JsonMap.read_other_key _ _ _ _ hkk] at h'
        exact Or.inl h'
    · exact Or.inr (List.mem_cons_of_mem _ h')

/-- The default case returns the result of decoding the body into an
`interface{}`. -/
theorem default_case_eq (u : Codec) (clusterName meta : String) (j : Json) (isArray : Bool)
    (hkind : meta ∉ supportedKinds) :
    BuildEntityData u clusterName meta (some j) isArray =
      match decodeInterface u j with
      | .error e => .err e
      | .ok v => .ok (.generic v) := by
  simp only [supportedKinds, List.mem_cons, List.mem_singleton, List.not_mem_nil, or_false,
    not_or] at hkind
  obtain ⟨h1, h2, h3, h4, h5, h6, h7⟩ := hkind
  simp only [BuildEntityData, h1, h2, h3, h4, h5, h6, h7, if_false, Unmarshal]

/-- C12 as stated fails: for the unrecognized kind `node`, the object body
`{"n": 1e400}` makes `BuildEntityData` return an error, since the number is
outside the range of `float64`; and the object body `{"n": 9007199254740993}`
comes back with the value `9007199254740992`, the nearest `float64`: it does
not always succeed and a value can be changed. -/
theorem default_kind_number_conversion :
    (∃ e, BuildEntityData json.codec "c1" "node"
      (some (.obj [("n", .num (Int.ofNat (10 ^ 200 * 10 ^ 200)))])) false = .err e) ∧
    BuildEntityData json.codec "c1" "node"
        (some (.obj [("n", .num 9007199254740993)])) false =
      .ok (.generic (.obj [("n", .num 9007199254740992)])) :=
  ⟨⟨_, rfl⟩, rfl⟩

/-- C12, amended: for every kind name other than the seven supported ones and
every JSON body, in scalar and in list mode, `BuildEntityData` returns exactly
the result of decoding the body into an `interface{}`:
* it succeeds exactly when every number of the body converts to a `float64`,
  and returns the conversion error otherwise;
* for an object body the result is a mapping with exactly the keys of the
  body, each value being the decoding of a member of that key: no key is
  added (no `cluster`, no `objtype`, no derived attribute) and none is removed;
* for an array body the result is the list of the decoded elements, in order;
* the cluster name has no influence on the result. -/
theorem default_kind_returns_generic_decoding (u : Codec) (clusterName meta : String)
    (j : Json) (isArray : Bool) (hkind : meta ∉ supportedKinds) :
    (BuildEntityData u clusterName meta (some j) isArray =
      match decodeInterface u j with
      | .error e => .err e
      | .ok v => .ok (.generic v)) ∧
    ((∃ v, BuildEntityData u clusterName meta (some j) isArray = .ok (.generic v)) ↔
      ∀ n ∈ j.numbers, ∃ f, u.Float64 n = .ok f) ∧
    ((¬ ∀ n ∈ j.numbers, ∃ f, u.Float64 n = .ok f) →
      ∃ e, BuildEntityData u clusterName meta (some j) isArray = .err e) ∧
    (∀ kvs v, j = .obj kvs →
      BuildEntityData u clusterName meta (some j) isArray = .ok (.generic v) →
      ∃ m : JsonMap, v = .obj m ∧
        (∀ k, (m.get? k).isSome = (kvs.lookup k).isSome) ∧
        (∀ k y, m.get? k = some y → ∃ x, (k, x) ∈ kvs ∧ decodeInterface u x = .ok y)) ∧
    (∀ xs v, j = .arr xs →
      BuildEntityData u clusterName meta (some j) isArray = .ok (.generic v) →
      ∃ ys, v = .arr ys ∧ List.Forall₂ (fun x y => decodeInterface u x = .ok y) xs ys) ∧
    (∀ clusterName',
      BuildEntityData u clusterName' meta (some j) isArray =
        BuildEntityData u clusterName meta (some j) isArray) := by
  have heq := default_case_eq u clusterName meta j isArray hkind
  refine ⟨heq, ?_, ?_, ?_, ?_, ?_⟩
  · rw [heq, ← decodeInterface_ok_iff u j]
    cases hd : decodeInterface u j <;> simp
  · intro hnum
    rw [← decodeInterface_ok_iff u j] at hnum
    rw [heq]
    cases hd : decodeInterface u j with
    | error e => exact ⟨e, rfl⟩
    | ok v => exact absurd ⟨v, hd⟩ hnum
  · intro kvs v hj hres
    subst hj
    rw [heq] at hres
    cases hm : decodeMembers u kvs with
    | error e => simp [decodeInterface, hm] at hres
    | ok ms =>
      simp only [decodeInterface, hm, Outcome.ok.injEq, Result.generic.injEq] at hres
      subst hres
      refine ⟨_, rfl, ?_, ?_⟩
      · intro k
        rw [foldl_set_isSome]
        simp only [JsonMap.get?, List.lookup, Option.isSome_none, Bool.false_or]
        exact lookup_isSome_of_keys k ms kvs (decodeMembers_keys u kvs ms hm)
      · intro k y hy
        rcases foldl_set_get ms [] k y hy with h | h
        · simp [JsonMap.get?, List.lookup] at h
        · exact decodeMembers_values u kvs ms hm k y h
  · intro xs v hj hres
    subst hj
    rw [heq] at hres
    cases hm : decodeElements u xs with
    | error e => simp [decodeInterface, hm] at hres
    | ok ys =>
      simp only [decodeInterface, hm, Outcome.ok.injEq, Result.generic.injEq] at hres
      subst hres
      exact ⟨ys, rfl, decodeElements_forall₂ u xs ys hm⟩
  · intro clusterName'
    rw [heq, default_case_eq u clusterName' meta j isArray hkind]

/-- Witness of the amended C12: for the kind `node`, the object `{"name": "n1"}`
in scalar mode and the list of that object in list mode come back with the same
keys and values, whatever the cluster name. -/
theorem default_kind_returns_generic_decoding_witness :
    BuildEntityData json.codec "c1" "node" (some (.obj [("name", .str "n1")])) false =
      .ok (.generic (.obj [("name", .str "n1")])) ∧
    BuildEntityData json.codec "c2" "node" (some (.arr [.obj [("name", .str "n1")]])) true =
      .ok (.generic (.arr [.obj [("name", .str "n1")]])) :=
  ⟨(default_kind_returns_generic_decoding json.codec "c1" "node" _ false (by decide)).1.trans
      rfl,
    (default_kind_returns_generic_decoding json.codec "c2" "node" _ true (by decide)).1.trans
      rfl⟩

end util
